import Mathlib

/-!
# JewelRecommend: the recommendation engine

A shallow embedding of `backend/utils/recommendationEngine.js` and the
properties of its colour classifier, filter relaxation loop and scoring.

Modelling conventions.

* JavaScript numbers are exact rationals extended with `Infinity`, `-Infinity`
  and `NaN` (`JsNum`); rounding of IEEE doubles and the sign of zero are not
  modelled.
* The JavaScript values that reach the engine as preference or product fields
  are `undefined`, `null`, strings and arrays of strings (`JsVal`).
* Colour labels, occasions and materials are strings, as in the source. A read
  of an object literal by a string key follows the prototype chain: a name
  inherited from `Object.prototype` (`constructor`, `toString`, …) gives a truthy
  value that is not iterable, and spreading it raises a `TypeError`.
* A function that can raise returns `Except String`: `Except.error` is the
  exception raised, `Except.ok` the value returned.
* The catalogue (`Product.find`) is a parameter: a function from the attempt
  number and the filter to either an error or the list of products found.
* The image decoder (`sharp`) is a parameter: a function from the input to
  either an error or the decoded bytes.
-/

namespace JewelRecommend

/-! ## JavaScript values -/

/-- A JavaScript value as it reaches the engine in a preference or product field. -/
inductive JsVal where
  | undefined
  | null
  | str (s : String)
  | arr (xs : List String)
  deriving DecidableEq, Repr

namespace JsVal

/-- JavaScript truthiness: `undefined`, `null` and the empty string are falsy,
every other string and every array is truthy. -/
def truthy : JsVal → Bool
  | undefined => false
  | null => false
  | str s => decide (s ≠ "")
  | arr _ => true

/-- Strict equality `a === b`. Two arrays are equal only when they are the same
object; a product and a preference record never share one, so an array is equal
to nothing here. -/
def strictEq : JsVal → JsVal → Bool
  | undefined, undefined => true
  | null, null => true
  | str a, str b => decide (a = b)
  | _, _ => false

/-- The conversion `String(v)`: an array is joined with commas. -/
def toJsString : JsVal → String
  | undefined => "undefined"
  | null => "null"
  | str s => s
  | arr xs => String.intercalate "," xs

end JsVal

/-- The call `xs.includes(v)` on an array of strings. -/
def includes (xs : List String) (v : JsVal) : Bool :=
  match v with
  | JsVal.str s => xs.contains s
  | _ => false

/-- A JavaScript number: a rational, an infinity or `NaN`. -/
inductive JsNum where
  | fin (q : ℚ)
  | posInf
  | negInf
  | nan
  deriving DecidableEq

namespace JsNum

/-- The test `isNaN(x)`. -/
def isNaN : JsNum → Bool
  | nan => true
  | _ => false

/-- Truthiness of a number: `0` and `NaN` are falsy. -/
def truthy : JsNum → Bool
  | fin q => decide (q ≠ 0)
  | posInf => true
  | negInf => true
  | nan => false

/-- The comparison `x > 0`. -/
def gtZero : JsNum → Bool
  | fin q => decide (0 < q)
  | posInf => true
  | negInf => false
  | nan => false

/-- The comparison `x <= c` against a finite constant. -/
def leConst (x : JsNum) (c : ℚ) : Bool :=
  match x with
  | fin q => decide (q ≤ c)
  | posInf => false
  | negInf => true
  | nan => false

/-- The comparison `p <= x` of a finite number against `x`. -/
def geConst (x : JsNum) (p : ℚ) : Bool :=
  match x with
  | fin q => decide (p ≤ q)
  | posInf => true
  | negInf => false
  | nan => false

end JsNum

/-- The quotient `p / b` of a finite number by a JavaScript number. -/
def jsDiv (p : ℚ) (b : JsNum) : JsNum :=
  match b with
  | JsNum.fin q =>
      if q = 0 then
        if 0 < p then JsNum.posInf else if p < 0 then JsNum.negInf else JsNum.nan
      else JsNum.fin (p / q)
  | JsNum.posInf => JsNum.fin 0
  | JsNum.negInf => JsNum.fin 0
  | JsNum.nan => JsNum.nan

/-- The spread of a `Set` built from an array: `[...new Set(xs)]`. Elements are
inserted left to right and an element already present is skipped. -/
def newSet (xs : List String) : List String :=
  xs.foldl (fun acc x => if acc.contains x then acc else acc ++ [x]) []

/-! ## Colour classification -/

/-- The function `getColorGroup(r, g, b)` on three channel intensities. -/
def getColorGroup (r g b : Nat) : String :=
  let max := Nat.max (Nat.max r g) b
  let min := Nat.min (Nat.min r g) b
  let diff := max - min
  if diff < 30 then
    if max < 80 then "black"
    else if max > 200 then "white"
    else "gray"
  else if r > g ∧ r > b then
    (if g > 100 then "orange" else "red")
  else if g > r ∧ g > b then
    (if b > 100 then "teal" else "green")
  else if b > r ∧ b > g then
    (if r > 100 then "purple" else "blue")
  else "neutral"

/-! ## Complementary colours -/

/-- The own properties of the object literal `complementaryMap` inside
`getComplementaryColors`: the row of each of its twelve keys, `none` for a
string that is not one of them. -/
def complementaryRow (color : String) : Option (List String) :=
  if color = "red" then some ["gold", "green", "white"]
  else if color = "blue" then some ["silver", "white", "gold"]
  else if color = "green" then some ["gold", "red", "white"]
  else if color = "yellow" then some ["blue", "purple", "silver"]
  else if color = "orange" then some ["blue", "teal", "gold"]
  else if color = "purple" then some ["yellow", "gold", "silver"]
  else if color = "pink" then some ["green", "gold", "silver"]
  else if color = "black" then some ["gold", "silver", "white"]
  else if color = "white" then some ["gold", "silver", "black"]
  else if color = "gray" then some ["gold", "silver", "blue"]
  else if color = "gold" then some ["red", "green", "blue"]
  else if color = "silver" then some ["blue", "purple", "black"]
  else none

/-- The property names an object literal inherits from `Object.prototype`. Each
holds a function, and `__proto__` the prototype object: a value that is truthy
and cannot be spread. -/
def objectPrototypeKeys : List String :=
  ["constructor", "__defineGetter__", "__defineSetter__", "hasOwnProperty",
    "__lookupGetter__", "__lookupSetter__", "isPrototypeOf", "propertyIsEnumerable",
    "toString", "valueOf", "__proto__", "toLocaleString"]

/-- What a read of the object `complementaryMap` gives: the row of an own key,
a value inherited from `Object.prototype`, or `undefined`. -/
inductive TableEntry where
  | row (colors : List String)
  | inherited
  | undefined
  deriving DecidableEq

/-- The read `complementaryMap[color]`: own keys first, then the prototype
chain. -/
def complementaryMap (color : String) : TableEntry :=
  match complementaryRow color with
  | some row => TableEntry.row row
  | none =>
      if objectPrototypeKeys.contains color then TableEntry.inherited else TableEntry.undefined

/-- The `TypeError` raised by the spread `...value` of a value that is not
iterable. -/
def notIterable : String := "TypeError: complementaryMap[color] is not iterable"

/-- The function `getComplementaryColors(colors)`. For each colour the test
`if (complementaryMap[color])` passes for a row and for an inherited value alike;
`complementary.push(...complementaryMap[color])` then appends the row, and raises
for the inherited value. Duplicates are removed at the end. -/
def getComplementaryColors (colors : List String) : Except String (List String) :=
  let complementary : Except String (List String) :=
    colors.foldl
      (fun pushed color =>
        match pushed with
        | Except.error e => Except.error e
        | Except.ok complementary =>
            match complementaryMap color with
            | TableEntry.row row => Except.ok (complementary ++ row)
            | TableEntry.inherited => Except.error notIterable
            | TableEntry.undefined => Except.ok complementary)
      (Except.ok [])
  match complementary with
  | Except.ok complementary => Except.ok (newSet complementary)
  | Except.error e => Except.error e

/-- The call `xs.filter(callback)` for a callback that may raise: the elements
are tested left to right and the first error ends the call. -/
def filterExcept {α : Type} (callback : α → Except String Bool) :
    List α → Except String (List α)
  | [] => Except.ok []
  | x :: xs =>
      match callback x with
      | Except.error e => Except.error e
      | Except.ok keep =>
          match filterExcept callback xs with
          | Except.error e => Except.error e
          | Except.ok kept => Except.ok (if keep then x :: kept else kept)

/-- The call `xs.map(callback)` for a callback that may raise: the elements
are mapped left to right and the first error ends the call. -/
def mapExcept {α β : Type} (callback : α → Except String β) :
    List α → Except String (List β)
  | [] => Except.ok []
  | x :: xs =>
      match callback x with
      | Except.error e => Except.error e
      | Except.ok y =>
          match mapExcept callback xs with
          | Except.error e => Except.error e
          | Except.ok ys => Except.ok (y :: ys)

/-! ## Scoring -/

/-- A catalogue item, with the fields of the `Product` schema the engine reads. -/
structure Product where
  name : String
  price : ℚ
  category : JsVal
  style : JsVal
  occasions : List String
  materials : List String
  colors : List String
  gender : JsVal
  inStock : Bool
  deriving DecidableEq

/-- The preference record passed to `calculateRecommendationScore`. `colors` is
`none` when the record carries no colour list. -/
structure Preferences where
  colors : Option (List String)
  occasion : JsVal
  style : JsVal
  budget : JsNum
  material : JsVal
  category : JsVal
  gender : JsVal
  deriving DecidableEq

/-- The function `calculateRecommendationScore(product, preferences)`: the
running `score` is threaded through the seven blocks of the source in order.
In the colour block the callback of the second `filter` calls
`getComplementaryColors(preferences.colors)` once for every colour of the
product, so an error of that call is raised when the product has a colour. -/
def calculateRecommendationScore (product : Product) (preferences : Preferences) :
    Except String ℚ :=
  let score : ℚ := 0
  -- colour matching
  let colorBlock : Except String ℚ :=
    match preferences.colors with
    | some colors =>
        if colors.length > 0 then
          let directMatches := product.colors.filter (fun color => colors.contains color)
          match filterExcept
              (fun color =>
                match getComplementaryColors colors with
                | Except.ok complementary => Except.ok (complementary.contains color)
                | Except.error e => Except.error e)
              product.colors with
          | Except.ok complementaryMatches =>
              let totalMatches := (newSet (directMatches ++ complementaryMatches)).length
              let colorScore := ((totalMatches : ℚ) / ((Nat.max colors.length 1 : Nat) : ℚ)) * 30
              Except.ok (score + colorScore)
          | Except.error e => Except.error e
        else Except.ok score
    | none => Except.ok score
  match colorBlock with
  | Except.error e => Except.error e
  | Except.ok score =>
      -- style matching
      let score := if product.style.strictEq preferences.style then score + 20 else score
      -- occasion matching
      let score := if includes product.occasions preferences.occasion then score + 15 else score
      -- material matching
      let score :=
        if preferences.material.truthy then
          if includes product.materials preferences.material then score + 20 else score
        else score
      -- category matching
      let score :=
        if preferences.category.truthy then
          if product.category.strictEq preferences.category then score + 10 else score
        else score
      -- gender alignment
      let score :=
        if preferences.gender.truthy then
          if product.gender.strictEq preferences.gender then score + 10
          else if product.gender.strictEq (JsVal.str "unisex") then score + 6
          else score
        else score
      -- price appropriateness
      let priceRatio := jsDiv product.price preferences.budget
      let priceScore : ℚ :=
        if priceRatio.leConst (1 / 2) then 5
        else if priceRatio.leConst (4 / 5) then 3
        else if priceRatio.leConst 1 then 1
        else 0
      Except.ok (score + priceScore)

/-! ## Budget normalisation -/

/-- White space and line terminators that `Number` strips from both ends of a string. -/
def isStrWhiteSpace (c : Char) : Bool :=
  let n := c.toNat
  decide (n = 9 ∨ n = 10 ∨ n = 11 ∨ n = 12 ∨ n = 13 ∨ n = 32 ∨ n = 160 ∨ n = 5760 ∨
    (8192 ≤ n ∧ n ≤ 8202) ∨ n = 8232 ∨ n = 8233 ∨ n = 8239 ∨ n = 8287 ∨ n = 12288 ∨ n = 65279)

/-- The value of a digit character in the given base, when it is one. -/
def digitValue (base : Nat) (c : Char) : Option Nat :=
  let n := c.toNat
  let v : Option Nat :=
    if 48 ≤ n ∧ n ≤ 57 then some (n - 48)
    else if 97 ≤ n ∧ n ≤ 102 then some (n - 87)
    else if 65 ≤ n ∧ n ≤ 70 then some (n - 55)
    else none
  match v with
  | some d => if d < base then some d else none
  | none => none

/-- Whether the character is a decimal digit. -/
def isDecimalDigit (c : Char) : Bool := (digitValue 10 c).isSome

/-- The value of a non-empty run of digits in the given base. -/
def digitsValue (base : Nat) (cs : List Char) : Option Nat :=
  if cs = [] then none
  else
    cs.foldl
      (fun acc c =>
        match acc, digitValue base c with
        | some a, some d => some (a * base + d)
        | _, _ => none)
      (some 0)

/-- A numeric literal read from a string, before its value is taken. -/
inductive NumericLiteral where
  | empty
  | integer (n : Nat)
  | infinity (negative : Bool)
  | decimal (negative : Bool) (digits : Nat) (fractionLength : Nat) (exponentNegative : Bool)
      (exponent : Nat)
  deriving DecidableEq

/-- The number a literal denotes: the empty string is `0`, and a decimal literal
is its digits scaled by the powers of ten of its fraction and its exponent. -/
def NumericLiteral.value : NumericLiteral → JsNum
  | NumericLiteral.empty => JsNum.fin 0
  | NumericLiteral.integer n => JsNum.fin (n : ℚ)
  | NumericLiteral.infinity negative => if negative then JsNum.negInf else JsNum.posInf
  | NumericLiteral.decimal negative digits fractionLength exponentNegative exponent =>
      let mantissa : ℚ := (digits : ℚ) / (10 : ℚ) ^ fractionLength
      let scaled : ℚ :=
        if exponentNegative then mantissa / (10 : ℚ) ^ exponent
        else mantissa * (10 : ℚ) ^ exponent
      JsNum.fin (if negative then -scaled else scaled)

/-- An optional sign in front of the rest of the characters. -/
def splitSign (cs : List Char) : Bool × List Char :=
  match cs with
  | c :: d =>
      if c.toNat = 43 then (false, d)
      else if c.toNat = 45 then (true, d)
      else (false, cs)
  | [] => (false, cs)

/-- An unsigned decimal literal: digits, an optional fraction and an optional
exponent, with at least one digit before the exponent. The result is the value
of the digits, the length of the fraction, and the sign and size of the exponent. -/
def parseUnsignedDecimal (cs : List Char) : Option (Nat × Nat × Bool × Nat) :=
  let intPart := cs.takeWhile isDecimalDigit
  let rest := cs.dropWhile isDecimalDigit
  let fracAndRest : List Char × List Char :=
    match rest with
    | c :: r =>
        if c.toNat = 46 then (r.takeWhile isDecimalDigit, r.dropWhile isDecimalDigit)
        else ([], rest)
    | [] => ([], rest)
  let fracPart := fracAndRest.1
  let rest := fracAndRest.2
  if intPart = [] ∧ fracPart = [] then none
  else
    let digits : Nat := (digitsValue 10 (intPart ++ fracPart)).getD 0
    match rest with
    | [] => some (digits, fracPart.length, false, 0)
    | e :: r =>
        if e.toNat = 101 ∨ e.toNat = 69 then
          match digitsValue 10 (splitSign r).2 with
          | some ex => some (digits, fracPart.length, (splitSign r).1, ex)
          | none => none
        else none

/-- A decimal literal with an optional sign, `Infinity` included. -/
def parseSignedDecimal (cs : List Char) : Option NumericLiteral :=
  if (splitSign cs).2 = "Infinity".toList then
    some (NumericLiteral.infinity (splitSign cs).1)
  else
    match parseUnsignedDecimal (splitSign cs).2 with
    | some (digits, fractionLength, exponentNegative, exponent) =>
        some (NumericLiteral.decimal (splitSign cs).1 digits fractionLength exponentNegative
          exponent)
    | none => none

/-- A binary, octal or hexadecimal integer literal (`0b`, `0o`, `0x`). -/
def parseNonDecimal (cs : List Char) : Option Nat :=
  match cs with
  | z :: k :: ds =>
      if z.toNat = 48 then
        if k.toNat = 120 ∨ k.toNat = 88 then digitsValue 16 ds
        else if k.toNat = 111 ∨ k.toNat = 79 then digitsValue 8 ds
        else if k.toNat = 98 ∨ k.toNat = 66 then digitsValue 2 ds
        else none
      else none
  | _ => none

/-- The numeric literal a string holds once white space is trimmed from both
ends, `none` when the string is not numeric. -/
def parseNumericLiteral (s : String) : Option NumericLiteral :=
  let trimmed := ((s.toList.dropWhile isStrWhiteSpace).reverse.dropWhile isStrWhiteSpace).reverse
  if trimmed = [] then some NumericLiteral.empty
  else
    match parseNonDecimal trimmed with
    | some n => some (NumericLiteral.integer n)
    | none => parseSignedDecimal trimmed

/-- The conversion `Number(s)` of a string: white space is trimmed, the empty
string is `0`, a numeric literal is its value and anything else is `NaN`. -/
def stringToNumber (s : String) : JsNum :=
  match parseNumericLiteral s with
  | some literal => literal.value
  | none => JsNum.nan

/-- A budget as it is passed around: the request value, or what
`convertBudgetRange` returns. `obj` is a value found on the prototype chain of
the `budgetMap` object literal (a function or an object). -/
inductive JsBudget where
  | undefined
  | null
  | num (n : JsNum)
  | str (s : String)
  | obj
  deriving DecidableEq

namespace JsBudget

/-- The conversion `Number(v)`. -/
def toNumber : JsBudget → JsNum
  | undefined => JsNum.nan
  | null => JsNum.fin 0
  | num n => n
  | str s => stringToNumber s
  | obj => JsNum.nan

/-- JavaScript truthiness. -/
def truthy : JsBudget → Bool
  | undefined => false
  | null => false
  | num n => n.truthy
  | str s => decide (s ≠ "")
  | obj => true

end JsBudget

/-- The lookup `budgetMap[key]`: the three own keys, the two lower-case names
every object literal inherits, and `undefined` otherwise. -/
def budgetMap (key : String) : JsBudget :=
  if key = "low" then JsBudget.num (JsNum.fin 10000)
  else if key = "medium" then JsBudget.num (JsNum.fin 50000)
  else if key = "high" then JsBudget.num (JsNum.fin 100000)
  else if key = "constructor" ∨ key = "__proto__" then JsBudget.obj
  else JsBudget.undefined

/-- The method `s.toLowerCase()`, on the letters A to Z. No other character
is turned into a letter of a key of `budgetMap`, so the lookup is unaffected. -/
def toLowerCase (s : String) : String :=
  String.mk (s.toList.map Char.toLower)

/-- The function `convertBudgetRange(budgetRange)`. -/
def convertBudgetRange (budgetRange : JsBudget) : JsBudget :=
  if budgetRange.toNumber.isNaN = false then JsBudget.num budgetRange.toNumber
  else
    match budgetRange with
    | JsBudget.str s =>
        if (budgetMap (toLowerCase s)).truthy then budgetMap (toLowerCase s) else JsBudget.null
    | _ => JsBudget.null

/-! ## Catalogue filters -/

/-- The MongoDB filter object built by `getRecommendations`. A field is `none`
when the object has no such key. `colorsOr` is the `$or` key: the preference
colours and their complementary colours. -/
structure Query where
  inStock : Option Bool
  price : Option JsNum
  style : Option JsVal
  occasions : Option JsVal
  category : Option JsVal
  materials : Option JsVal
  gender : Option JsVal
  colorsOr : Option (List String × List String)
  deriving DecidableEq

/-- The statement `delete query[key]`. -/
def Query.delete (query : Query) (key : String) : Query :=
  if key = "$or" then { query with colorsOr := none }
  else if key = "materials" then { query with materials := none }
  else if key = "occasions" then { query with occasions := none }
  else if key = "style" then { query with style := none }
  else if key = "category" then { query with category := none }
  else if key = "gender" then { query with gender := none }
  else if key = "price" then { query with price := none }
  else if key = "inStock" then { query with inStock := none }
  else query

/-- Modelled from the spec: how the catalogue collaborator (MongoDB, outside the
repository) reads a filter. Every clause present must hold: in stock, price at
most the budget, style equal to the preference (or, the schema storing styles
as an array, holding it), occasions and materials containing the preference,
category equal, gender equal to the preference or `unisex`, colours meeting the
preference colours or their complementary colours. -/
def Query.satisfiedBy (query : Query) (p : Product) : Bool :=
  (match query.inStock with
    | some flag => decide (p.inStock = flag)
    | none => true) &&
  (match query.price with
    | some bound => bound.geConst p.price
    | none => true) &&
  (match query.style with
    | some v => p.style.strictEq v || (match p.style with
        | JsVal.arr xs => includes xs v
        | _ => false)
    | none => true) &&
  (match query.occasions with
    | some v => includes p.occasions v
    | none => true) &&
  (match query.category with
    | some v => p.category.strictEq v
    | none => true) &&
  (match query.materials with
    | some v => includes p.materials v
    | none => true) &&
  (match query.gender with
    | some v => p.gender.strictEq v || p.gender.strictEq (JsVal.str "unisex")
    | none => true) &&
  (match query.colorsOr with
    | some (colors, complementary) =>
        p.colors.any (fun c => colors.contains c) || p.colors.any (fun c => complementary.contains c)
    | none => true)

/-- The catalogue collaborator `Product.find(query)…limit(20)`: given the number
of the attempt (from 0) and the filter, an error or the products found. -/
abbrev Catalog := Nat → Query → Except String (List Product)

/-- A catalogue that honours the filter returns only products satisfying it. -/
def Catalog.honours (find : Catalog) : Prop :=
  ∀ i query products, find i query = Except.ok products → ∀ p ∈ products, query.satisfiedBy p = true

/-! ## The recommendation engine -/

/-- The constant `relaxationOrder`. -/
def relaxationOrder : List String :=
  ["$or", "materials", "occasions", "style", "category", "gender"]

/-- The relaxation loop of `getRecommendations`, from index `i` on. The state is
the working `query`, the queries issued so far and the variable `products`. The
result is the queries issued and either the error a query raised or the value of
`products` when the loop ends. -/
def relaxLoop (find : Catalog) (i : Nat) (query : Query) (issued : List Query)
    (products : List Product) : List Query × Except String (List Product) :=
  if i ≤ relaxationOrder.length then
    match find i query with
    | Except.error e => (issued ++ [query], Except.error e)
    | Except.ok found =>
        if found.length > 0 then (issued ++ [query], Except.ok found)
        else if h : i < relaxationOrder.length then
          relaxLoop find (i + 1) (query.delete relaxationOrder[i]) (issued ++ [query]) found
        else relaxLoop find (i + 1) query (issued ++ [query]) found
  else (issued, Except.ok products)
termination_by relaxationOrder.length + 1 - i

/-- The argument object of `getRecommendations`. `colors` is `none` when the key
is omitted; an omitted scalar is `undefined`. -/
structure Request where
  colors : Option (List String)
  occasion : JsVal
  style : JsVal
  budget : JsBudget
  category : JsVal
  material : JsVal
  gender : JsVal
  deriving DecidableEq

/-- A destructuring default: it replaces `undefined` only. -/
def JsVal.orDefault (v d : JsVal) : JsVal :=
  match v with
  | JsVal.undefined => d
  | _ => v

/-- The destructured parameters of `getRecommendations`, defaults applied. -/
def Request.withDefaults (req : Request) : Request :=
  { colors := some (req.colors.getD [])
    occasion := req.occasion.orDefault (JsVal.str "daily")
    style := req.style.orDefault (JsVal.str "modern")
    budget := (match req.budget with
      | JsBudget.undefined => JsBudget.num (JsNum.fin 10000)
      | b => b)
    category := req.category.orDefault JsVal.null
    material := req.material.orDefault JsVal.null
    gender := req.gender.orDefault (JsVal.str "unisex") }

/-- The object `baseQuery` after the clauses other than colour are set: what
`getRecommendations` builds from `validBudget` and the destructured parameters
before it looks at `colors`. -/
def buildBaseQuery (validBudget : JsBudget)
    (occasion style category material gender : JsVal) : Query :=
  let baseQuery : Query :=
    { inStock := some true, price := none, style := none, occasions := none, category := none,
      materials := none, gender := none, colorsOr := none }
  let baseQuery :=
    if validBudget ≠ JsBudget.null ∧ validBudget.toNumber.gtZero = true then
      { baseQuery with price := some validBudget.toNumber }
    else baseQuery
  let baseQuery := if style.truthy then { baseQuery with style := some style } else baseQuery
  let baseQuery :=
    if occasion.truthy then { baseQuery with occasions := some occasion } else baseQuery
  let baseQuery :=
    if category.truthy then { baseQuery with category := some category } else baseQuery
  let baseQuery :=
    if material.truthy then { baseQuery with materials := some material } else baseQuery
  let baseQuery :=
    if gender.truthy ∧ ["men", "women"].contains gender.toJsString = true then
      { baseQuery with gender := some gender }
    else baseQuery
  baseQuery

/-- The block `if (colors.length > 0) { … }` of `getRecommendations`: the colour
clause is set from the colours and `getComplementaryColors(colors)`; an error of
that call is raised before the clause is set. -/
def addColorQuery (baseQuery : Query) (colors : List String) : Except String Query :=
  if colors.length > 0 then
    match getComplementaryColors colors with
    | Except.ok complementaryColors =>
        Except.ok { baseQuery with colorsOr := some (colors, complementaryColors) }
    | Except.error e => Except.error e
  else Except.ok baseQuery

/-- The initial filter of a request: `baseQuery` as `getRecommendations` builds
it before the first query, or the error raised while it is built. -/
def initialQuery (req : Request) : Except String Query :=
  let d := req.withDefaults
  addColorQuery
    (buildBaseQuery (convertBudgetRange d.budget) d.occasion d.style d.category d.material
      d.gender)
    (d.colors.getD [])

/-- The preference record `getRecommendations` passes to the scoring function;
the budget is `validBudget || 50000`. -/
def scoringPreferences (req : Request) : Preferences :=
  let d := req.withDefaults
  let validBudget := convertBudgetRange d.budget
  { colors := d.colors
    occasion := d.occasion
    style := d.style
    budget := if validBudget.truthy then validBudget.toNumber else JsNum.fin 50000
    material := d.material
    category := d.category
    gender := d.gender }

/-- A product with its score: `{ ...product.toObject(), score }`. -/
structure ScoredProduct where
  product : Product
  score : ℚ
  deriving DecidableEq

/-- The call `.sort((a, b) => b.score - a.score).slice(0, 12)`; the sort of an
array is stable. -/
def rankTop (scoredProducts : List ScoredProduct) : List ScoredProduct :=
  (scoredProducts.insertionSort (fun a b => a.score ≥ b.score)).take 12

/-- What one call of `getRecommendations` does: the catalogue queries it issued,
in order; the products it went on to score; and how the call ended, with
`Except.error` for an exception that reaches the caller. -/
structure Run where
  queries : List Query
  candidates : List Product
  result : Except String (List ScoredProduct)

/-- The body of the `try` block of `getRecommendations`. An error raised while
the filter is built ends it before any query; an error raised by a query or by
the scoring of a product ends it there. -/
def getRecommendationsBody (find : Catalog) (req : Request) : Run :=
  match initialQuery req with
  | Except.error e => { queries := [], candidates := [], result := Except.error e }
  | Except.ok baseQuery =>
      match relaxLoop find 0 baseQuery [] [] with
      | (issued, Except.error e) =>
          { queries := issued, candidates := [], result := Except.error e }
      | (issued, Except.ok products) =>
          if products.length = 0 then
            { queries := issued, candidates := [], result := Except.ok [] }
          else
            match mapExcept
                (fun product =>
                  match calculateRecommendationScore product (scoringPreferences req) with
                  | Except.ok score =>
                      Except.ok ({ product := product, score := score } : ScoredProduct)
                  | Except.error e => Except.error e)
                products with
            | Except.ok scoredProducts =>
                { queries := issued, candidates := products
                  result := Except.ok (rankTop scoredProducts) }
            | Except.error e =>
                { queries := issued, candidates := products, result := Except.error e }

/-- The function `getRecommendations`: the `try` block, and the `catch` block
that returns the empty list whatever was raised. -/
def getRecommendations (find : Catalog) (req : Request) : Run :=
  let body := getRecommendationsBody find req
  match body.result with
  | Except.ok recommendations => { body with result := Except.ok recommendations }
  | Except.error _ => { body with result := Except.ok [] }

/-! ## The engine as the specification describes it -/

/-- Whether a list of colours holds a name that `complementaryMap` inherits, for
which `getComplementaryColors` raises. -/
def hasInheritedKey (colors : List String) : Bool :=
  colors.any (fun color => objectPrototypeKeys.contains color)

/-- The complementary colours as the specification describes them
(`complementsOf`): the rows of the colours that are keys of the table, without
duplicates; a label absent from the table yields none. -/
def complementsOf (colors : List String) : List String :=
  let complementary :=
    colors.foldl
      (fun acc color =>
        match complementaryRow color with
        | some row => acc ++ row
        | none => acc)
      []
  newSet complementary

/-- The initial filter as the specification describes it: the clauses other
than colour, and for a non-empty colour list the clause over the colours and
their complementary colours. -/
def initialFilter (req : Request) : Query :=
  let d := req.withDefaults
  let baseQuery :=
    buildBaseQuery (convertBudgetRange d.budget) d.occasion d.style d.category d.material
      d.gender
  if (d.colors.getD []).length > 0 then
    { baseQuery with colorsOr := some (d.colors.getD [], complementsOf (d.colors.getD [])) }
  else baseQuery

/-- The item colours that count as matches for a list of preference colours:
those among the preference colours or among their complementary colours, as a
set, so that a colour is counted once. -/
def matchedColors (item : Product) (colors : List String) : Finset String :=
  (item.colors.filter
    (fun c => decide (c ∈ colors ∨ c ∈ complementsOf colors))).toFinset

/-- The colour component: `30 * m / |prefs.colors|` for `m` matched colours,
and `0` without preference colours. -/
def colorComponent (item : Product) (prefs : Preferences) : ℚ :=
  match prefs.colors with
  | some colors =>
      if colors = [] then 0
      else 30 * ((matchedColors item colors).card : ℚ) / (colors.length : ℚ)
  | none => 0

/-- The style component: 20 when the item style equals the preference style. -/
def styleComponent (item : Product) (prefs : Preferences) : ℚ :=
  if item.style.strictEq prefs.style = true then 20 else 0

/-- The occasion component: 15 when the preference occasion is among the item
occasions. -/
def occasionComponent (item : Product) (prefs : Preferences) : ℚ :=
  if includes item.occasions prefs.occasion = true then 15 else 0

/-- The material component: 20 when a material preference is present and among
the item materials. -/
def materialComponent (item : Product) (prefs : Preferences) : ℚ :=
  if prefs.material.truthy = true ∧ includes item.materials prefs.material = true then 20 else 0

/-- The category component: 10 when a category preference is present and equal
to the item category. -/
def categoryComponent (item : Product) (prefs : Preferences) : ℚ :=
  if prefs.category.truthy = true ∧ item.category.strictEq prefs.category = true then 10 else 0

/-- The gender component, evaluated only when a gender preference is present:
10 for an exact match, otherwise 6 for a `unisex` item, otherwise 0. -/
def genderComponent (item : Product) (prefs : Preferences) : ℚ :=
  if prefs.gender.truthy = true then
    if item.gender.strictEq prefs.gender = true then 10
    else if item.gender.strictEq (JsVal.str "unisex") = true then 6
    else 0
  else 0

/-- The price component, from the ratio of the item price to the budget: 5 up
to a half, 3 up to four fifths, 1 up to one, 0 above. -/
def priceComponent (item : Product) (prefs : Preferences) : ℚ :=
  if (jsDiv item.price prefs.budget).leConst (1 / 2) = true then 5
  else if (jsDiv item.price prefs.budget).leConst (4 / 5) = true then 3
  else if (jsDiv item.price prefs.budget).leConst 1 = true then 1
  else 0

/-- The score as the specification describes it: the sum of the seven
components. -/
def scoreValue (item : Product) (prefs : Preferences) : ℚ :=
  colorComponent item prefs + styleComponent item prefs + occasionComponent item prefs +
    materialComponent item prefs + categoryComponent item prefs + genderComponent item prefs +
    priceComponent item prefs

/-- The filter of attempt `k + 1` as the specification describes it: the
initial filter without the first `k` clauses of the order colour, materials,
occasions, style, category, gender, every other clause as it was. -/
def withoutFirstClauses (k : Nat) (initial : Query) : Query :=
  { inStock := initial.inStock
    price := initial.price
    colorsOr := if 1 ≤ k then none else initial.colorsOr
    materials := if 2 ≤ k then none else initial.materials
    occasions := if 3 ≤ k then none else initial.occasions
    style := if 4 ≤ k then none else initial.style
    category := if 5 ≤ k then none else initial.category
    gender := if 6 ≤ k then none else initial.gender }

/-! ## Sample data -/

/-- The item of the end-to-end example of the specification. -/
def exampleItem : Product :=
  { name := "", price := 20000, category := JsVal.undefined, style := JsVal.str "modern",
    occasions := ["daily"], materials := ["gold"], colors := ["red"],
    gender := JsVal.str "unisex", inStock := true }

/-- The preferences of the end-to-end example of the specification. -/
def examplePrefs : Preferences :=
  { colors := some ["red"], occasion := JsVal.str "daily", style := JsVal.str "modern",
    budget := JsNum.fin 50000, material := JsVal.str "gold", category := JsVal.undefined,
    gender := JsVal.str "women" }

/-- A ring for women that matches every preference of `fullPrefs`. -/
def fullItem : Product :=
  { name := "ring", price := 20000, category := JsVal.str "ring", style := JsVal.str "modern",
    occasions := ["daily"], materials := ["gold"], colors := ["red"],
    gender := JsVal.str "women", inStock := true }

/-- Preferences with every optional field set. -/
def fullPrefs : Preferences :=
  { colors := some ["red"], occasion := JsVal.str "daily", style := JsVal.str "modern",
    budget := JsNum.fin 50000, material := JsVal.str "gold", category := JsVal.str "ring",
    gender := JsVal.str "women" }

/-- A stored product (its style an array, as in the schema) in four colours. -/
def colorfulItem : Product :=
  { name := "set", price := 20000, category := JsVal.str "set", style := JsVal.arr ["modern"],
    occasions := ["daily"], materials := ["gold"], colors := ["red", "gold", "green", "white"],
    gender := JsVal.str "women", inStock := true }

/-! ## Auxiliary definitions for the relaxation loop -/

/-- The working filter after `k` relaxation steps of the loop. -/
def queryAt (base : Query) (k : Nat) : Query :=
  (relaxationOrder.take k).foldl Query.delete base

/-- The scored form of a product for a request with the score of the
specification: what `products.map` builds for it when the scoring returns. -/
def scoreFor (req : Request) (product : Product) : ScoredProduct :=
  { product := product
    score := scoreValue product (scoringPreferences req) }

/-- A catalogue over a fixed list of products that evaluates the filter and
returns at most 20 products. -/
def catalogOf (items : List Product) : Catalog :=
  fun _ query => Except.ok ((items.filter query.satisfiedBy).take 20)

/-- A catalogue whose every query raises. -/
def unavailableCatalog : Catalog := fun _ _ => Except.error "catalogue unavailable"

/-- A request with one colour from the image and a numeric budget. -/
def sampleRequest : Request :=
  { colors := some ["red"], occasion := JsVal.str "daily", style := JsVal.str "modern",
    budget := JsBudget.num (JsNum.fin 50000), category := JsVal.undefined,
    material := JsVal.undefined, gender := JsVal.str "women" }

/-- The request `sampleRequest` with the single colour `constructor`, a name
every object inherits from `Object.prototype`. -/
def constructorRequest : Request :=
  { sampleRequest with colors := some ["constructor"] }

/-- A stored product whose only colour is neither red nor complementary to red. -/
def blackItem : Product :=
  { name := "bangle", price := 20000, category := JsVal.str "bracelet",
    style := JsVal.arr ["modern"], occasions := ["daily"], materials := ["gold"],
    colors := ["black"], gender := JsVal.str "women", inStock := true }

/-! ## Dominant colours of an image -/

/-- The call `getColorGroup(r, g, b)` inside the sampling loop. The channels
`g` and `b` are read after `r` and are `undefined` (`none`) past the end of the
data; `Math.max` and `Math.min` are then `NaN`, every comparison is false and
the function falls through to `neutral`. -/
def getColorGroupAt (r : Nat) (g b : Option Nat) : String :=
  match g, b with
  | some g, some b => getColorGroup r g b
  | _, _ => "neutral"

/-- The read `colorCounts[key]` on the object `colorCounts`, kept as its
entries in insertion order. -/
def readCount (colorCounts : List (String × Nat)) (key : String) : Option Nat :=
  (colorCounts.find? (fun entry => entry.1 == key)).map (fun entry => entry.2)

/-- The write `colorCounts[key] = value`: an existing key keeps its place, a new
key is added last. -/
def writeCount (colorCounts : List (String × Nat)) (key : String) (value : Nat) :
    List (String × Nat) :=
  if colorCounts.any (fun entry => entry.1 == key) then
    colorCounts.map (fun entry => if entry.1 == key then (entry.1, value) else entry)
  else colorCounts ++ [(key, value)]

/-- The statement `colorCounts[colorGroup] = (colorCounts[colorGroup] || 0) + 1`. -/
def countColor (colorCounts : List (String × Nat)) (colorGroup : String) :
    List (String × Nat) :=
  writeCount colorCounts colorGroup ((readCount colorCounts colorGroup).getD 0 + 1)

/-- The sampling loop `for (let i = 0; i < data.length; i += 12)` of
`extractColors` and `extractColorsFromBuffer`, from index `i` on. -/
def countLoop (data : List Nat) (i : Nat) (colorCounts : List (String × Nat)) :
    List (String × Nat) :=
  if h : i < data.length then
    let r := data[i]
    let g := data[i + 1]?
    let b := data[i + 2]?
    let colorGroup := getColorGroupAt r g b
    countLoop data (i + 12) (countColor colorCounts colorGroup)
  else colorCounts
termination_by data.length - i

/-- The expression
`Object.entries(colorCounts).sort(([, a], [, b]) => b - a).slice(0, 3).map(([color]) => color)`;
the sort of an array is stable. -/
def topColors (colorCounts : List (String × Nat)) : List String :=
  ((colorCounts.insertionSort (fun a b => a.2 ≥ b.2)).take 3).map (fun entry => entry.1)

/-- The image decode collaborator `sharp(input).resize(100, 100).raw().toBuffer(…)`:
the decoded bytes `data`, or the error it raises. -/
abbrev Decoder (α : Type) := α → Except String (List Nat)

/-- The function `extractColors(imagePath)`: the `try` block, and the `catch`
block returning `["neutral"]`. `Except.error` would be an exception reaching
the caller. The unused locals `colors` and `hex` are left out. -/
def extractColors {α : Type} (decode : Decoder α) (imagePath : α) : Except String (List String) :=
  match decode imagePath with
  | Except.ok data =>
      let colorCounts := countLoop data 0 []
      let sortedColors := topColors colorCounts
      Except.ok sortedColors
  | Except.error _ => Except.ok ["neutral"]

/-- The function `extractColorsFromBuffer(buffer)`: the `try` block, and the
`catch` block returning `["neutral"]`. -/
def extractColorsFromBuffer {α : Type} (decode : Decoder α) (buffer : α) :
    Except String (List String) :=
  match decode buffer with
  | Except.ok data =>
      let colorCounts := countLoop data 0 []
      let sortedColors := topColors colorCounts
      Except.ok sortedColors
  | Except.error _ => Except.ok ["neutral"]

/-- The labels of the sampled pixels, in buffer order: one sample every 12
bytes, starting at byte 0. -/
def sampledLabels (data : List Nat) : List String :=
  (List.range ((data.length + 11) / 12)).map
    (fun k => getColorGroupAt (data.getD (12 * k) 0) data[12 * k + 1]? data[12 * k + 2]?)

/-- The fixed vocabulary of colour labels of the specification. -/
def colorVocabulary : List String :=
  ["black", "white", "gray", "red", "orange", "green", "teal", "blue", "purple", "neutral",
    "gold", "silver", "pink", "yellow"]

/-- A filter without any clause. -/
def noClauses : Query :=
  { inStock := none, price := none, style := none, occasions := none, category := none,
    materials := none, gender := none, colorsOr := none }

/-- The filter holding the in-stock clause only. -/
def inStockOnly : Query := { noClauses with inStock := some true }

/-- A decoder that yields the given bytes for every input. -/
def decodeAs (data : List Nat) : Decoder (List Nat) := fun _ => Except.ok data

/-- A decoder that raises on every input. -/
def failingDecoder : Decoder (List Nat) := fun _ => Except.error "unsupported image format"

/-- Decoded bytes holding two samples: a red pixel at byte 0 and a dark pixel at
byte 12. -/
def twoPixelData : List Nat :=
  [255, 0, 0, 0, 0, 0, 0, 0, 0, 0, 0, 0, 10, 10, 10, 0, 0, 0, 0, 0, 0, 0, 0, 0]

/-- A request with every field omitted: the call `getRecommendations({})`. -/
def omittedRequest : Request :=
  { colors := none, occasion := JsVal.undefined, style := JsVal.undefined,
    budget := JsBudget.undefined, category := JsVal.undefined, material := JsVal.undefined,
    gender := JsVal.undefined }

/-- A request with every scalar field `null` and no colours. -/
def nullRequest : Request :=
  { colors := none, occasion := JsVal.null, style := JsVal.null, budget := JsBudget.null,
    category := JsVal.null, material := JsVal.null, gender := JsVal.null }

/-- A request whose occasion, material and gender are outside their enumerations. -/
def unknownValuesRequest : Request :=
  { colors := none, occasion := JsVal.str "birthday", style := JsVal.str "modern",
    budget := JsBudget.null, category := JsVal.null, material := JsVal.str "wood",
    gender := JsVal.str "other" }

/-- The occasions of the `Product` schema. -/
def occasionEnum : List String := ["daily", "office", "party", "wedding", "festival"]

/-- The materials of the `Product` schema. -/
def materialEnum : List String :=
  ["gold", "silver", "platinum", "diamond", "pearl", "gemstone", "artificial", "kundan",
    "meenakari", "polki", "jadau", "brass", "copper", "ruby", "emerald", "sapphire",
    "white-gold", "rose-gold", "antique-gold"]

/-- The genders of the `Product` schema. -/
def genderEnum : List String := ["men", "women", "unisex"]

/-- The twelve keys of the complementarity table. -/
def tableKeys : List String :=
  ["red", "blue", "green", "yellow", "orange", "purple", "pink", "black", "white", "gray",
    "gold", "silver"]

/-! ## The route handlers -/

/-- The fields of `req.body` the two handlers of `routes/recommendations.js`
read; an omitted field is `undefined`. -/
structure RequestBody where
  occasion : JsVal
  style : JsVal
  budget : JsBudget
  material : JsVal
  category : JsVal
  gender : JsVal
  deriving DecidableEq

/-- The object `preferences` of a response. -/
structure EchoedPreferences where
  occasion : JsVal
  style : JsVal
  budget : JsBudget
  material : JsVal
  category : JsVal
  gender : JsVal
  deriving DecidableEq

/-- What a handler sends: a status with a message only, or the result object
passed to `res.json`. -/
inductive RouteResponse where
  | message (status : Nat) (text : String)
  | result (dominantColors : Option (List String)) (recommendations : List ScoredProduct)
      (preferences : EchoedPreferences)

/-- The object `preferences` of a response, when it has one. -/
def RouteResponse.preferences : RouteResponse → Option EchoedPreferences
  | RouteResponse.message _ _ => none
  | RouteResponse.result _ _ preferences => some preferences

/-- The handler of `POST /analyze`. `file` is `req.file`, the uploaded image,
when there is one. -/
def analyze {α : Type} (decode : Decoder α) (find : Catalog) (file : Option α)
    (body : RequestBody) : RouteResponse :=
  match file with
  | none => RouteResponse.message 400 "No image uploaded"
  | some buffer =>
      let occasion := body.occasion.orDefault (JsVal.str "daily")
      let style := body.style.orDefault (JsVal.str "modern")
      let budget :=
        match body.budget with
        | JsBudget.undefined => JsBudget.str "medium"
        | b => b
      let material := body.material
      let category := body.category
      let gender := body.gender.orDefault (JsVal.str "unisex")
      match extractColorsFromBuffer decode buffer with
      | Except.error _ => RouteResponse.message 500 "Analysis failed"
      | Except.ok dominantColors =>
          let numericBudget := convertBudgetRange budget
          match (getRecommendations find
              { colors := some dominantColors, occasion := occasion, style := style,
                budget := numericBudget, material := material, category := category,
                gender := gender }).result with
          | Except.error _ => RouteResponse.message 500 "Analysis failed"
          | Except.ok recommendations =>
              RouteResponse.result (some dominantColors) recommendations
                { occasion := occasion, style := style, budget := budget, material := material,
                  category := category, gender := gender }

/-- The handler of `POST /suggest`. -/
def suggest (find : Catalog) (body : RequestBody) : RouteResponse :=
  let occasion := body.occasion
  let style := body.style
  let budget := body.budget
  let category := body.category
  let material := body.material
  let gender := body.gender.orDefault (JsVal.str "unisex")
  let numericBudget := convertBudgetRange budget
  match (getRecommendations find
      { colors := none, occasion := occasion, style := style, budget := numericBudget,
        category := category, material := material, gender := gender }).result with
  | Except.error _ => RouteResponse.message 500 "Failed to get recommendations"
  | Except.ok recommendations =>
      RouteResponse.result none recommendations
        { occasion := occasion, style := style, budget := numericBudget, category := category,
          material := material, gender := gender }

/-- A request body whose only field is the budget label `medium`. -/
def mediumBody : RequestBody :=
  { occasion := JsVal.undefined, style := JsVal.undefined, budget := JsBudget.str "medium",
    material := JsVal.undefined, category := JsVal.undefined, gender := JsVal.undefined }

/-! ## Decimal numerals -/

/-- The decimal numeral written with the given digits, most significant first:
the string of the characters `0` to `9` of a list of digits below 10. -/
def decimalNumeral (digits : List Nat) : String :=
  String.mk (digits.map Nat.digitChar)

/-- The natural number a list of decimal digits denotes, most significant
digit first. -/
def decimalValue (digits : List Nat) : Nat :=
  Nat.ofDigits 10 digits.reverse

/-! # Properties -/

/-! ## Sets built from arrays -/

theorem newSet_fold_spec (xs : List String) : ∀ acc : List String, acc.Nodup →
    (xs.foldl (fun acc x => if acc.contains x then acc else acc ++ [x]) acc).Nodup ∧
    ∀ y, y ∈ xs.foldl (fun acc x => if acc.contains x then acc else acc ++ [x]) acc ↔
      y ∈ acc ∨ y ∈ xs := by
  induction xs with
  | nil => intro acc h; simp [h]
  | cons x xs ih =>
    intro acc h
    simp only [List.foldl_cons]
    by_cases hx : x ∈ acc
    · have hc : acc.contains x = true := by simpa using hx
      simp only [hc, if_true]
      refine ⟨(ih acc h).1, fun y => ?_⟩
      rw [(ih acc h).2 y]
      constructor
      · rintro (h1 | h1)
        · exact Or.inl h1
        · exact Or.inr (List.mem_cons_of_mem _ h1)
      · rintro (h1 | h1)
        · exact Or.inl h1
        · rcases List.mem_cons.1 h1 with rfl | h2
          · exact Or.inl hx
          · exact Or.inr h2
    · have hc : acc.contains x = false := by simpa using hx
      simp only [hc, Bool.false_eq_true, if_false]
      have hnd : (acc ++ [x]).Nodup := by
        rw [List.nodup_append]
        refine ⟨h, List.nodup_singleton x, ?_⟩
        intro a ha hb
        simp at hb
        subst hb
        exact hx ha
      refine ⟨(ih _ hnd).1, fun y => ?_⟩
      rw [(ih _ hnd).2 y]
      simp only [List.mem_append, List.mem_singleton, List.mem_cons]
      tauto

theorem newSet_nodup (xs : List String) : (newSet xs).Nodup :=
  (newSet_fold_spec xs [] List.nodup_nil).1

theorem mem_newSet (xs : List String) (y : String) : y ∈ newSet xs ↔ y ∈ xs := by
  have := (newSet_fold_spec xs [] List.nodup_nil).2 y
  simpa [newSet] using this

theorem length_newSet (xs : List String) : (newSet xs).length = xs.toFinset.card := by
  rw [← List.toFinset_card_of_nodup (newSet_nodup xs)]
  congr 1
  ext y
  simp [mem_newSet]

/-! ## Colour classification -/

/-- C10: `getColorGroup(r, g, b)` follows the decision list of the
specification for all channel values (in particular for bytes 0..255). With
`max`, `min` the largest and smallest channel and `diff = max - min`: when
`diff < 30` the label is `black` for `max < 80`, `white` for `max > 200`,
`gray` otherwise; when `diff >= 30` a strictly largest red channel gives
`orange` for `g > 100` and `red` otherwise, a strictly largest green channel
gives `teal` for `b > 100` and `green` otherwise, a strictly largest blue
channel gives `purple` for `r > 100` and `blue` otherwise, and anything else
gives `neutral`. The label is `neutral` exactly when `diff >= 30` and two
channels tie for the maximum. -/
theorem getColorGroup_decision_list (r g b : Nat) :
    (max (max r g) b - min (min r g) b < 30 → max (max r g) b < 80 →
        getColorGroup r g b = "black") ∧
    (max (max r g) b - min (min r g) b < 30 → 200 < max (max r g) b →
        getColorGroup r g b = "white") ∧
    (max (max r g) b - min (min r g) b < 30 → 80 ≤ max (max r g) b → max (max r g) b ≤ 200 →
        getColorGroup r g b = "gray") ∧
    (30 ≤ max (max r g) b - min (min r g) b → g < r → b < r →
        getColorGroup r g b = if 100 < g then "orange" else "red") ∧
    (30 ≤ max (max r g) b - min (min r g) b → r < g → b < g →
        getColorGroup r g b = if 100 < b then "teal" else "green") ∧
    (30 ≤ max (max r g) b - min (min r g) b → r < b → g < b →
        getColorGroup r g b = if 100 < r then "purple" else "blue") ∧
    (30 ≤ max (max r g) b - min (min r g) b → ¬ (g < r ∧ b < r) → ¬ (r < g ∧ b < g) →
        ¬ (r < b ∧ g < b) → getColorGroup r g b = "neutral") ∧
    (getColorGroup r g b = "neutral" ↔
      30 ≤ max (max r g) b - min (min r g) b ∧
        ((r = g ∧ b ≤ r) ∨ (r = b ∧ g ≤ r) ∨ (g = b ∧ r ≤ g))) := by
  have hmax : Nat.max (Nat.max r g) b = max (max r g) b := rfl
  have hmin : Nat.min (Nat.min r g) b = min (min r g) b := rfl
  have e1 : ("black" : String) ≠ "neutral" := by decide
  have e2 : ("white" : String) ≠ "neutral" := by decide
  have e3 : ("gray" : String) ≠ "neutral" := by decide
  have e4 : ("orange" : String) ≠ "neutral" := by decide
  have e5 : ("red" : String) ≠ "neutral" := by decide
  have e6 : ("teal" : String) ≠ "neutral" := by decide
  have e7 : ("green" : String) ≠ "neutral" := by decide
  have e8 : ("purple" : String) ≠ "neutral" := by decide
  have e9 : ("blue" : String) ≠ "neutral" := by decide
  unfold getColorGroup
  simp only [hmax, hmin, gt_iff_lt]
  refine ⟨?_, ?_, ?_, ?_, ?_, ?_, ?_, ?_⟩
  · intro h1 h2; rw [if_pos h1, if_pos h2]
  · intro h1 h2; rw [if_pos h1, if_neg (by omega), if_pos h2]
  · intro h1 h2 h3; rw [if_pos h1, if_neg (by omega), if_neg (by omega)]
  · intro h1 h2 h3; rw [if_neg (by omega), if_pos ⟨h2, h3⟩]
  · intro h1 h2 h3; rw [if_neg (by omega), if_neg (by omega), if_pos ⟨h2, h3⟩]
  · intro h1 h2 h3
    rw [if_neg (by omega), if_neg (by omega), if_neg (by omega), if_pos ⟨h2, h3⟩]
  · intro h1 h2 h3 h4; rw [if_neg (by omega), if_neg h2, if_neg h3, if_neg h4]
  · split_ifs
    all_goals first
      | (simp only [e1, e2, e3, e4, e5, e6, e7, e8, e9, false_iff]; omega)
      | (simp only [true_iff]; omega)

/-! ## The complementarity table -/

theorem mem_pushed_rows (colors : List String) (y : String) :
    ∀ acc : List String,
      y ∈ colors.foldl
          (fun acc color =>
            match complementaryRow color with
            | some row => acc ++ row
            | none => acc)
          acc ↔
        y ∈ acc ∨ ∃ c ∈ colors, ∃ row, complementaryRow c = some row ∧ y ∈ row := by
  induction colors with
  | nil => intro acc; simp
  | cons c cs ih =>
    intro acc
    rw [List.foldl_cons, ih]
    cases hrow : complementaryRow c with
    | none =>
      simp only
      constructor
      · rintro (h | ⟨c', hc', row, hr, hy⟩)
        · exact Or.inl h
        · exact Or.inr ⟨c', List.mem_cons_of_mem _ hc', row, hr, hy⟩
      · rintro (h | ⟨c', hc', row, hr, hy⟩)
        · exact Or.inl h
        · rcases List.mem_cons.1 hc' with h | h
          · subst h
            rw [hrow] at hr
            cases hr
          · exact Or.inr ⟨c', h, row, hr, hy⟩
    | some r =>
      simp only [List.mem_append]
      constructor
      · rintro ((h | h) | ⟨c', hc', row, hr, hy⟩)
        · exact Or.inl h
        · exact Or.inr ⟨c, List.mem_cons_self _ _, r, hrow, h⟩
        · exact Or.inr ⟨c', List.mem_cons_of_mem _ hc', row, hr, hy⟩
      · rintro (h | ⟨c', hc', row, hr, hy⟩)
        · exact Or.inl (Or.inl h)
        · rcases List.mem_cons.1 hc' with h | h
          · subst h
            rw [hrow] at hr
            injection hr with hr
            subst hr
            exact Or.inl (Or.inr hy)
          · exact Or.inr ⟨c', h, row, hr, hy⟩

theorem mem_complementsOf (colors : List String) (y : String) :
    y ∈ complementsOf colors ↔
      ∃ c ∈ colors, ∃ row, complementaryRow c = some row ∧ y ∈ row := by
  unfold complementsOf
  simp only
  rw [mem_newSet, mem_pushed_rows]
  simp

theorem complementaryRow_none_of_not_key (c : String) (hc : c ∉ tableKeys) :
    complementaryRow c = none := by
  simp only [tableKeys, List.mem_cons, List.mem_singleton, List.not_mem_nil, or_false,
    not_or] at hc
  obtain ⟨h1, h2, h3, h4, h5, h6, h7, h8, h9, h10, h11, h12⟩ := hc
  unfold complementaryRow
  rw [if_neg h1, if_neg h2, if_neg h3, if_neg h4, if_neg h5, if_neg h6, if_neg h7, if_neg h8,
    if_neg h9, if_neg h10, if_neg h11, if_neg h12]

theorem complementaryRow_isSome_iff (c : String) :
    (complementaryRow c).isSome = true ↔ c ∈ tableKeys := by
  constructor
  · intro h
    by_contra hc
    rw [complementaryRow_none_of_not_key c hc] at h
    cases h
  · intro h
    simp only [tableKeys, List.mem_cons, List.mem_singleton, List.not_mem_nil, or_false] at h
    rcases h with rfl | rfl | rfl | rfl | rfl | rfl | rfl | rfl | rfl | rfl | rfl | rfl <;> rfl

theorem tableKeys_not_inherited (c : String) (hc : c ∈ tableKeys) :
    objectPrototypeKeys.contains c = false := by
  simp only [tableKeys, List.mem_cons, List.mem_singleton, List.not_mem_nil, or_false] at hc
  rcases hc with rfl | rfl | rfl | rfl | rfl | rfl | rfl | rfl | rfl | rfl | rfl | rfl <;> decide

/-- The read `complementaryMap[color]` by cases: a row for a key of the table,
an inherited value for a name of `Object.prototype`, `undefined` otherwise. -/
theorem complementaryMap_cases (c : String) :
    (∃ row, complementaryRow c = some row ∧ complementaryMap c = TableEntry.row row ∧
        objectPrototypeKeys.contains c = false) ∨
      (complementaryRow c = none ∧ objectPrototypeKeys.contains c = true ∧
        complementaryMap c = TableEntry.inherited) ∨
      (complementaryRow c = none ∧ objectPrototypeKeys.contains c = false ∧
        complementaryMap c = TableEntry.undefined) := by
  unfold complementaryMap
  cases hrow : complementaryRow c with
  | some row =>
    refine Or.inl ⟨row, rfl, rfl, ?_⟩
    apply tableKeys_not_inherited
    rw [← complementaryRow_isSome_iff, hrow]
    rfl
  | none =>
    by_cases h : objectPrototypeKeys.contains c = true
    · exact Or.inr (Or.inl ⟨rfl, h, if_pos h⟩)
    · have h' : objectPrototypeKeys.contains c = false := by simpa using h
      exact Or.inr (Or.inr ⟨rfl, h', if_neg h⟩)

theorem pushRows_error (colors : List String) (e : String) :
    colors.foldl
        (fun pushed color =>
          match pushed with
          | Except.error e => Except.error e
          | Except.ok complementary =>
              match complementaryMap color with
              | TableEntry.row row => Except.ok (complementary ++ row)
              | TableEntry.inherited => Except.error notIterable
              | TableEntry.undefined => Except.ok complementary)
        (Except.error e : Except String (List String)) = Except.error e := by
  induction colors with
  | nil => rfl
  | cons c cs ih => rw [List.foldl_cons]; exact ih

theorem pushRows_eq (colors : List String) :
    ∀ acc : List String,
      colors.foldl
          (fun pushed color =>
            match pushed with
            | Except.error e => Except.error e
            | Except.ok complementary =>
                match complementaryMap color with
                | TableEntry.row row => Except.ok (complementary ++ row)
                | TableEntry.inherited => Except.error notIterable
                | TableEntry.undefined => Except.ok complementary)
          (Except.ok acc : Except String (List String)) =
        if hasInheritedKey colors = true then Except.error notIterable
        else Except.ok (colors.foldl
          (fun acc color =>
            match complementaryRow color with
            | some row => acc ++ row
            | none => acc)
          acc) := by
  induction colors with
  | nil => intro acc; rfl
  | cons c cs ih =>
    intro acc
    rw [List.foldl_cons, List.foldl_cons]
    have hkey : hasInheritedKey (c :: cs) =
        (objectPrototypeKeys.contains c || hasInheritedKey cs) := by
      simp [hasInheritedKey]
    rcases complementaryMap_cases c with ⟨row, h1, h2, h3⟩ | ⟨h1, h2, h3⟩ | ⟨h1, h2, h3⟩
    · simp only [h1, h2]
      rw [ih, hkey, h3, Bool.false_or]
    · simp only [h3]
      rw [pushRows_error, hkey, h2, Bool.true_or, if_pos rfl]
    · simp only [h1, h3]
      rw [ih, hkey, h2, Bool.false_or]

/-- The function `getComplementaryColors` raises exactly for a colour list that
holds a name inherited from `Object.prototype`, and otherwise returns the
complementary colours of the specification. -/
theorem getComplementaryColors_eq (colors : List String) :
    getComplementaryColors colors =
      if hasInheritedKey colors = true then Except.error notIterable
      else Except.ok (complementsOf colors) := by
  unfold getComplementaryColors
  simp only
  rw [pushRows_eq]
  by_cases h : hasInheritedKey colors = true
  · simp only [h, if_true]
  · simp only [h]
    rfl

theorem hasInheritedKey_iff (colors : List String) :
    hasInheritedKey colors = true ↔ ∃ c ∈ colors, c ∈ objectPrototypeKeys := by
  simp [hasInheritedKey]

theorem hasInheritedKey_false_iff (colors : List String) :
    hasInheritedKey colors = false ↔ ∀ c ∈ colors, c ∉ objectPrototypeKeys := by
  simp [hasInheritedKey]

theorem hasInheritedKey_ne_nil {colors : List String} (h : hasInheritedKey colors = true) :
    colors ≠ [] := by
  intro hnil
  subst hnil
  cases h

theorem filterExcept_ok {α : Type} (p : α → Bool) (xs : List α) :
    filterExcept (fun x => (Except.ok (p x) : Except String Bool)) xs =
      Except.ok (xs.filter p) := by
  induction xs with
  | nil => rfl
  | cons x xs ih =>
    rw [filterExcept, ih]
    cases hp : p x <;> simp [List.filter_cons, hp]

theorem filterExcept_error {α : Type} (e : String) (xs : List α) (h : xs ≠ []) :
    filterExcept (fun _ => (Except.error e : Except String Bool)) xs = Except.error e := by
  cases xs with
  | nil => exact absurd rfl h
  | cons x xs => rfl

theorem mapExcept_ok {α β : Type} (f : α → β) (xs : List α) :
    mapExcept (fun x => (Except.ok (f x) : Except String β)) xs = Except.ok (xs.map f) := by
  induction xs with
  | nil => rfl
  | cons x xs ih => rw [mapExcept, ih]; rfl

/-! ## Scoring -/

theorem ite_add_const (c : Prop) [Decidable c] (s k : ℚ) :
    (if c then s + k else s) = s + (if c then k else 0) := by
  split_ifs <;> simp

theorem ite_add_add (c : Prop) [Decidable c] (s k l : ℚ) :
    (if c then s + k else s + l) = s + (if c then k else l) := by
  split_ifs <;> rfl

theorem matched_card_eq (item : Product) (colors : List String) :
    (newSet (item.colors.filter (fun color => colors.contains color) ++
      item.colors.filter (fun color => (complementsOf colors).contains color))).length =
      (matchedColors item colors).card := by
  rw [length_newSet, matchedColors]
  congr 1
  ext y
  have hc : ∀ (l : List String), l.contains y = true ↔ y ∈ l := fun l => by simp
  simp only [List.toFinset_append, Finset.mem_union, List.mem_toFinset, List.mem_filter, hc,
    decide_eq_true_eq]
  tauto

theorem colorBlock_eq (item : Product) (colors : List String) (h : colors ≠ []) :
    (((newSet (item.colors.filter (fun color => colors.contains color) ++
      item.colors.filter
        (fun color => (complementsOf colors).contains color))).length : ℚ)
        / ((Nat.max colors.length 1 : Nat) : ℚ)) * 30 =
      30 * ((matchedColors item colors).card : ℚ) / (colors.length : ℚ) := by
  rw [matched_card_eq]
  have hpos : 0 < colors.length := List.length_pos.2 h
  have hmax : Nat.max colors.length 1 = colors.length := Nat.max_eq_left hpos
  rw [hmax]
  ring

theorem matchedColors_of_no_colors (item : Product) (colors : List String)
    (h : item.colors = []) : matchedColors item colors = ∅ := by
  simp [matchedColors, h]

/-- The second `filter` of the colour block: it raises when the lookup raises
and the product has a colour, and otherwise keeps the complementary matches. -/
theorem complementaryMatches_eq (item : Product) (colors : List String) :
    filterExcept
        (fun color =>
          match getComplementaryColors colors with
          | Except.ok complementary => Except.ok (complementary.contains color)
          | Except.error e => Except.error e)
        item.colors =
      if hasInheritedKey colors = true ∧ item.colors ≠ [] then Except.error notIterable
      else Except.ok (item.colors.filter (fun color => (complementsOf colors).contains color)) := by
  rw [getComplementaryColors_eq]
  by_cases hkey : hasInheritedKey colors = true
  · simp only [hkey, if_true, true_and]
    by_cases hnil : item.colors = []
    · rw [hnil]
      simp [filterExcept]
    · rw [if_pos hnil]
      exact filterExcept_error notIterable item.colors hnil
  · simp only [hkey, false_and, if_false]
    exact filterExcept_ok _ _

/-- The function `calculateRecommendationScore` raises exactly when a preference
colour is a name inherited from `Object.prototype` and the item has a colour;
otherwise its running total is the sum of the seven components. -/
theorem calculateRecommendationScore_eq (item : Product) (prefs : Preferences) :
    calculateRecommendationScore item prefs =
      if hasInheritedKey (prefs.colors.getD []) = true ∧ item.colors ≠ [] then
        Except.error notIterable
      else Except.ok (scoreValue item prefs) := by
  have hcolor : (match prefs.colors with
      | some colors =>
          if colors.length > 0 then
            match filterExcept
                (fun color =>
                  match getComplementaryColors colors with
                  | Except.ok complementary => Except.ok (complementary.contains color)
                  | Except.error e => Except.error e)
                item.colors with
            | Except.ok complementaryMatches =>
                Except.ok ((0 : ℚ) +
                  (((newSet (item.colors.filter (fun color => colors.contains color) ++
                    complementaryMatches)).length : ℚ)
                    / ((Nat.max colors.length 1 : Nat) : ℚ)) * 30)
            | Except.error e => Except.error e
          else Except.ok 0
      | none => Except.ok 0) =
      (if hasInheritedKey (prefs.colors.getD []) = true ∧ item.colors ≠ [] then
        Except.error notIterable
      else Except.ok (colorComponent item prefs) : Except String ℚ) := by
    unfold colorComponent
    cases hc : prefs.colors with
    | none => simp [hasInheritedKey]
    | some colors =>
      simp only [Option.getD_some]
      by_cases h : colors = []
      · subst h; simp [hasInheritedKey]
      · have hpos : colors.length > 0 := List.length_pos.2 h
        rw [if_pos hpos, if_neg h, complementaryMatches_eq]
        by_cases hr : hasInheritedKey colors = true ∧ item.colors ≠ []
        · rw [if_pos hr, if_pos hr]
        · rw [if_neg hr, if_neg hr]
          simp only
          rw [colorBlock_eq item colors h, zero_add]
  unfold calculateRecommendationScore
  simp only [hcolor]
  by_cases hr : hasInheritedKey (prefs.colors.getD []) = true ∧ item.colors ≠ []
  · rw [if_pos hr, if_pos hr]
  · rw [if_neg hr, if_neg hr]
    simp only
    unfold scoreValue styleComponent occasionComponent materialComponent categoryComponent
      genderComponent priceComponent
    simp only [ite_add_const, ite_add_add, ite_and]

theorem calculateRecommendationScore_ok (item : Product) (prefs : Preferences)
    (h : hasInheritedKey (prefs.colors.getD []) = false) :
    calculateRecommendationScore item prefs = Except.ok (scoreValue item prefs) := by
  rw [calculateRecommendationScore_eq, if_neg]
  rw [h]
  simp

theorem calculateRecommendationScore_raise (item : Product) (prefs : Preferences)
    (h : hasInheritedKey (prefs.colors.getD []) = true) (hitem : item.colors ≠ []) :
    calculateRecommendationScore item prefs = Except.error notIterable := by
  rw [calculateRecommendationScore_eq, if_pos ⟨h, hitem⟩]

/-- C1: for every item and preference record, `calculateRecommendationScore`
is the sum of seven components computed independently of each other: colour,
style (20 on equality), occasion (15 on membership), material (20 when present
and a member), category (10 when present and equal), gender (when present: 10
on equality, else 6 for a `unisex` item) and price (5, 3, 1 or 0 by the ratio
of price to budget against 0.5, 0.8 and 1.0). An absent material, category or
gender preference contributes 0. The one call that returns no score is the one
whose preference colours hold a name inherited from `Object.prototype` while the
item has a colour: the colour lookup raises. -/
theorem calculateRecommendationScore_additive (item : Product) (prefs : Preferences) :
    calculateRecommendationScore item prefs =
        (if hasInheritedKey (prefs.colors.getD []) = true ∧ item.colors ≠ [] then
          Except.error notIterable
        else
          Except.ok
            (colorComponent item prefs + styleComponent item prefs +
              occasionComponent item prefs + materialComponent item prefs +
              categoryComponent item prefs + genderComponent item prefs +
              priceComponent item prefs)) ∧
      (prefs.material.truthy = false → materialComponent item prefs = 0) ∧
      (prefs.category.truthy = false → categoryComponent item prefs = 0) ∧
      (prefs.gender.truthy = false → genderComponent item prefs = 0) := by
  refine ⟨calculateRecommendationScore_eq item prefs, ?_, ?_, ?_⟩
  · intro h; simp [materialComponent, h]
  · intro h; simp [categoryComponent, h]
  · intro h; simp [genderComponent, h]

/-- C2, evaluated on the code: the score is not confined to [0, 100]. An item
matching every preference scores 30 + 20 + 15 + 20 + 10 + 10 + 5 = 110, and a
stored product in four colours that all match the single preference colour or
its complementary colours has a colour part of 4 / 1 * 30 = 120 and scores 170;
both have a price of at least 0 and a budget above 0. -/
theorem score_exceeds_hundred :
    calculateRecommendationScore fullItem fullPrefs = Except.ok 110 ∧
      calculateRecommendationScore colorfulItem fullPrefs = Except.ok 170 ∧
      (0 : ℚ) ≤ fullItem.price ∧ (0 : ℚ) ≤ colorfulItem.price ∧
      fullPrefs.budget.gtZero = true := by
  have h1 : (matchedColors fullItem ["red"]).card = 1 := by decide
  have h2 : (matchedColors colorfulItem ["red"]).card = 4 := by decide
  have hk : hasInheritedKey (fullPrefs.colors.getD []) = false := by decide
  refine ⟨?_, ?_, ?_, ?_, ?_⟩
  · rw [calculateRecommendationScore_ok _ _ hk]
    congr 1
    have hc : colorComponent fullItem fullPrefs = 30 := by
      have : fullPrefs.colors = some ["red"] := rfl
      unfold colorComponent
      rw [this]
      simp [h1]
    unfold scoreValue
    rw [hc]
    simp [styleComponent, occasionComponent, materialComponent, categoryComponent,
      genderComponent, priceComponent, fullItem, fullPrefs, JsVal.strictEq, JsVal.truthy,
      includes, jsDiv, JsNum.leConst]
    norm_num
  · rw [calculateRecommendationScore_ok _ _ hk]
    congr 1
    have hc : colorComponent colorfulItem fullPrefs = 120 := by
      have : fullPrefs.colors = some ["red"] := rfl
      unfold colorComponent
      rw [this]
      simp [h2]
      norm_num
    unfold scoreValue
    rw [hc]
    simp [styleComponent, occasionComponent, materialComponent, categoryComponent,
      genderComponent, priceComponent, colorfulItem, fullPrefs, JsVal.strictEq, JsVal.truthy,
      includes, jsDiv, JsNum.leConst]
    norm_num
  · simp [fullItem]
  · simp [colorfulItem]
  · simp [fullPrefs, JsNum.gtZero]

/-- C3: the end-to-end example of the specification scores exactly
96 = 30 + 20 + 15 + 20 + 6 + 5. -/
theorem example_scores_96 :
    calculateRecommendationScore exampleItem examplePrefs = Except.ok 96 ∧
      colorComponent exampleItem examplePrefs = 30 ∧
      styleComponent exampleItem examplePrefs = 20 ∧
      occasionComponent exampleItem examplePrefs = 15 ∧
      materialComponent exampleItem examplePrefs = 20 ∧
      categoryComponent exampleItem examplePrefs = 0 ∧
      genderComponent exampleItem examplePrefs = 6 ∧
      priceComponent exampleItem examplePrefs = 5 := by
  have h3 : matchedColors exampleItem ["red"] = {"red"} := by decide
  have hk : hasInheritedKey (examplePrefs.colors.getD []) = false := by decide
  have hc : colorComponent exampleItem examplePrefs = 30 := by
    simp [colorComponent, examplePrefs, h3]
  have hs : styleComponent exampleItem examplePrefs = 20 := by
    simp [styleComponent, exampleItem, examplePrefs, JsVal.strictEq]
  have ho : occasionComponent exampleItem examplePrefs = 15 := by
    simp [occasionComponent, exampleItem, examplePrefs, includes]
  have hm : materialComponent exampleItem examplePrefs = 20 := by
    simp [materialComponent, exampleItem, examplePrefs, includes, JsVal.truthy]
  have hcat : categoryComponent exampleItem examplePrefs = 0 := by
    simp [categoryComponent, examplePrefs, JsVal.truthy]
  have hg : genderComponent exampleItem examplePrefs = 6 := by
    simp [genderComponent, exampleItem, examplePrefs, JsVal.strictEq, JsVal.truthy]
  have hp : priceComponent exampleItem examplePrefs = 5 := by
    simp [priceComponent, exampleItem, examplePrefs, jsDiv, JsNum.leConst]
    norm_num
  refine ⟨?_, hc, hs, ho, hm, hcat, hg, hp⟩
  rw [calculateRecommendationScore_ok _ _ hk]
  congr 1
  unfold scoreValue
  rw [hc, hs, ho, hm, hcat, hg, hp]
  norm_num

/-- C4, evaluated on the code: for a preference colour list free of names
inherited from `Object.prototype`, the colour contribution to
`calculateRecommendationScore`, what the list adds to the score of the same
preferences without one, is `30 * m / |colors|`, where `m` counts the distinct
item colours that are preference colours or among the colours
`getComplementaryColors` returns, and `0` for the empty list. For the preference
colour `constructor` and an item with a colour there is no contribution: the
lookup inside the colour block raises a `TypeError`, as it does for every colour
list holding an inherited name. -/
theorem color_contribution :
    calculateRecommendationScore exampleItem
        { examplePrefs with colors := some ["constructor"] } = Except.error notIterable ∧
      getComplementaryColors ["constructor"] = Except.error notIterable ∧
      exampleItem.colors = ["red"] ∧
      (∀ (item : Product) (prefs : Preferences) (colors : List String),
        hasInheritedKey colors = true → item.colors ≠ [] →
          calculateRecommendationScore item { prefs with colors := some colors } =
            Except.error notIterable) ∧
      (∀ (item : Product) (prefs : Preferences) (colors : List String),
        hasInheritedKey colors = false →
          ∃ complementary base,
            getComplementaryColors colors = Except.ok complementary ∧
            calculateRecommendationScore item { prefs with colors := none } = Except.ok base ∧
            calculateRecommendationScore item { prefs with colors := some colors } =
              Except.ok (base +
                (if colors = [] then 0
                  else 30 *
                    (((item.colors.filter
                      (fun c => decide (c ∈ colors ∨ c ∈ complementary))).toFinset.card : ℚ)) /
                    (colors.length : ℚ)))) := by
  refine ⟨?_, ?_, rfl, ?_, ?_⟩
  · exact calculateRecommendationScore_raise _ _ (by decide) (by decide)
  · rw [getComplementaryColors_eq, if_pos (by decide)]
  · intro item prefs colors hkey hitem
    exact calculateRecommendationScore_raise _ _ hkey hitem
  · intro item prefs colors hkey
    refine ⟨complementsOf colors, scoreValue item { prefs with colors := none }, ?_, ?_, ?_⟩
    · rw [getComplementaryColors_eq, hkey]
      simp
    · exact calculateRecommendationScore_ok item { prefs with colors := none } rfl
    · rw [calculateRecommendationScore_ok item { prefs with colors := some colors } hkey]
      congr 1
      show scoreValue item { prefs with colors := some colors } =
        scoreValue item { prefs with colors := none } +
          (if colors = [] then 0
            else 30 * ((matchedColors item colors).card : ℚ) / (colors.length : ℚ))
      simp only [scoreValue, colorComponent, styleComponent, occasionComponent,
        materialComponent, categoryComponent, genderComponent, priceComponent]
      ring

/-! ## The relaxation loop -/

theorem relaxationOrder_length : relaxationOrder.length = 6 := rfl

theorem queryAt_succ (base : Query) (i : Nat) (h : i < relaxationOrder.length) :
    queryAt base (i + 1) = (queryAt base i).delete relaxationOrder[i] := by
  unfold queryAt
  rw [List.take_succ, List.foldl_append]
  simp [List.getElem?_eq_getElem h]

theorem queryAt_of_ge (base : Query) (i : Nat) (h : relaxationOrder.length ≤ i) :
    queryAt base (i + 1) = queryAt base i := by
  unfold queryAt
  rw [List.take_of_length_le h, List.take_of_length_le (Nat.le_succ_of_le h)]

theorem queryAt_eq_withoutFirstClauses (base : Query) (k : Nat) (hk : k ≤ 6) :
    queryAt base k = withoutFirstClauses k base := by
  interval_cases k <;>
    simp [queryAt, relaxationOrder, Query.delete, withoutFirstClauses]

theorem relaxLoop_spec (find : Catalog) (base : Query) :
    ∀ (n i : Nat) (issued : List Query) (products : List Product), i + n = 7 →
      ∃ m, i ≤ m ∧ m ≤ 7 ∧
        (relaxLoop find i (queryAt base i) issued products).1 =
          issued ++ (List.range' i (m - i)).map (queryAt base) ∧
        (∀ k, i ≤ k → k + 1 < m → find k (queryAt base k) = Except.ok []) ∧
        ((m = i ∧ i = 7 ∧
            (relaxLoop find i (queryAt base i) issued products).2 = Except.ok products) ∨
         (i < m ∧ ∃ e, find (m - 1) (queryAt base (m - 1)) = Except.error e ∧
            (relaxLoop find i (queryAt base i) issued products).2 = Except.error e) ∨
         (i < m ∧ ∃ ps, ps ≠ [] ∧ find (m - 1) (queryAt base (m - 1)) = Except.ok ps ∧
            (relaxLoop find i (queryAt base i) issued products).2 = Except.ok ps) ∨
         (i < m ∧ m = 7 ∧ find 6 (queryAt base 6) = Except.ok [] ∧
            (relaxLoop find i (queryAt base i) issued products).2 = Except.ok [])) := by
  intro n
  induction n with
  | zero =>
    intro i issued products hi
    have hi7 : i = 7 := by omega
    subst hi7
    refine ⟨7, le_refl _, le_refl _, ?_, ?_, Or.inl ⟨rfl, rfl, ?_⟩⟩
    · rw [relaxLoop]; simp [relaxationOrder_length]
    · intro k h1 h2; omega
    · rw [relaxLoop]; simp [relaxationOrder_length]
  | succ n ih =>
    intro i issued products hi
    have hile : i ≤ relaxationOrder.length := by rw [relaxationOrder_length]; omega
    rw [relaxLoop, if_pos hile]
    cases hf : find i (queryAt base i) with
    | error e =>
      refine ⟨i + 1, by omega, by omega, ?_, ?_, Or.inr (Or.inl ⟨by omega, e, ?_, ?_⟩)⟩
      · simp
      · intro k h1 h2; omega
      · simpa using hf
      · simp
    | ok found =>
      by_cases hfound : found.length > 0
      · simp only [hfound, if_true]
        refine ⟨i + 1, by omega, by omega, ?_, ?_,
          Or.inr (Or.inr (Or.inl ⟨by omega, found, ?_, ?_, ?_⟩))⟩
        · simp
        · intro k h1 h2; omega
        · exact List.length_pos.1 hfound
        · simpa using hf
        · rfl
      · have hnil : found = [] := by
          cases found with
          | nil => rfl
          | cons a t => simp at hfound
        subst hnil
        simp only [List.length_nil, gt_iff_lt, lt_self_iff_false, if_false]
        have hstep : (if h : i < relaxationOrder.length then
              relaxLoop find (i + 1) ((queryAt base i).delete relaxationOrder[i])
                (issued ++ [queryAt base i]) []
            else relaxLoop find (i + 1) (queryAt base i) (issued ++ [queryAt base i]) []) =
            relaxLoop find (i + 1) (queryAt base (i + 1)) (issued ++ [queryAt base i]) [] := by
          by_cases h : i < relaxationOrder.length
          · rw [dif_pos h, queryAt_succ base i h]
          · rw [dif_neg h, queryAt_of_ge base i (by omega)]
        rw [hstep]
        obtain ⟨m, hm1, hm2, hq, hprev, hout⟩ := ih (i + 1) (issued ++ [queryAt base i]) [] (by omega)
        refine ⟨m, by omega, hm2, ?_, ?_, ?_⟩
        · rw [hq]
          have : m - i = (m - (i + 1)) + 1 := by omega
          rw [this, List.range'_succ]
          simp
        · intro k h1 h2
          rcases Nat.eq_or_lt_of_le h1 with h3 | h3
          · subst h3; exact hf
          · exact hprev k h3 h2
        · rcases hout with ⟨h1, h0, h2⟩ | ⟨h1, e, h2, h3⟩ | ⟨h1, ps, h2, h3, h4⟩ |
            ⟨h1, h2, h3, h4⟩
          · have hi6 : i = 6 := by omega
            subst hi6
            exact Or.inr (Or.inr (Or.inr ⟨by omega, by omega, hf, h2⟩))
          · exact Or.inr (Or.inl ⟨by omega, e, h2, h3⟩)
          · exact Or.inr (Or.inr (Or.inl ⟨by omega, ps, h2, h3, h4⟩))
          · exact Or.inr (Or.inr (Or.inr ⟨by omega, h2, h3, h4⟩))

theorem relaxLoop_start (find : Catalog) (base : Query) :
    ∃ m, 1 ≤ m ∧ m ≤ 7 ∧
      (relaxLoop find 0 base [] []).1 = (List.range m).map (queryAt base) ∧
      (∀ k, k + 1 < m → find k (queryAt base k) = Except.ok []) ∧
      ((∃ e, find (m - 1) (queryAt base (m - 1)) = Except.error e ∧
          (relaxLoop find 0 base [] []).2 = Except.error e) ∨
       (∃ ps, ps ≠ [] ∧ find (m - 1) (queryAt base (m - 1)) = Except.ok ps ∧
          (relaxLoop find 0 base [] []).2 = Except.ok ps) ∨
       (m = 7 ∧ find 6 (queryAt base 6) = Except.ok [] ∧
          (relaxLoop find 0 base [] []).2 = Except.ok [])) := by
  obtain ⟨m, _, hm2, hq, hprev, hout⟩ := relaxLoop_spec find base 7 0 [] [] (by omega)
  have h0 : queryAt base 0 = base := rfl
  rw [h0] at hq hout
  rcases hout with ⟨h1, h0', _⟩ | ⟨h1, e, h2, h3⟩ | ⟨h1, ps, h2, h3, h4⟩ | ⟨h1, h2, h3, h4⟩
  · omega
  · refine ⟨m, by omega, hm2, ?_, fun k hk => hprev k (Nat.zero_le k) hk, Or.inl ⟨e, h2, h3⟩⟩
    rw [hq, List.nil_append, List.range_eq_range']; rfl
  · refine ⟨m, by omega, hm2, ?_, fun k hk => hprev k (Nat.zero_le k) hk,
      Or.inr (Or.inl ⟨ps, h2, h3, h4⟩)⟩
    rw [hq, List.nil_append, List.range_eq_range']; rfl
  · refine ⟨m, by omega, hm2, ?_, fun k hk => hprev k (Nat.zero_le k) hk,
      Or.inr (Or.inr ⟨h2, h3, h4⟩)⟩
    rw [hq, List.nil_append, List.range_eq_range']; rfl

/-- The initial filter is built exactly when no colour of the request is a name
inherited from `Object.prototype`, and is then the filter of the specification;
otherwise the lookup raises before the colour clause is set. -/
theorem initialQuery_eq (req : Request) :
    initialQuery req =
      if hasInheritedKey (req.colors.getD []) = true then Except.error notIterable
      else Except.ok (initialFilter req) := by
  unfold initialQuery addColorQuery initialFilter
  have hd : req.withDefaults.colors.getD [] = req.colors.getD [] := rfl
  simp only [hd]
  by_cases hlen : (req.colors.getD []).length > 0
  · rw [if_pos hlen, if_pos hlen, getComplementaryColors_eq]
    by_cases hkey : hasInheritedKey (req.colors.getD []) = true
    · rw [if_pos hkey, if_pos hkey]
    · rw [if_neg hkey, if_neg hkey]
  · rw [if_neg hlen, if_neg hlen]
    have hnil : req.colors.getD [] = [] := by
      cases h : req.colors.getD [] with
      | nil => rfl
      | cons a t => rw [h] at hlen; simp at hlen
    rw [hnil]
    rfl

theorem initialQuery_ok (req : Request) (hcol : hasInheritedKey (req.colors.getD []) = false) :
    initialQuery req = Except.ok (initialFilter req) := by
  rw [initialQuery_eq, hcol]
  rfl

theorem initialQuery_raise (req : Request) (hcol : hasInheritedKey (req.colors.getD []) = true) :
    initialQuery req = Except.error notIterable := by
  rw [initialQuery_eq, if_pos hcol]

theorem initialQuery_ok_iff (req : Request) (initial : Query) :
    initialQuery req = Except.ok initial ↔
      hasInheritedKey (req.colors.getD []) = false ∧ initial = initialFilter req := by
  rw [initialQuery_eq]
  by_cases hkey : hasInheritedKey (req.colors.getD []) = true
  · rw [if_pos hkey, hkey]
    constructor
    · intro h; cases h
    · intro h; cases h.1
  · rw [if_neg hkey]
    have hf : hasInheritedKey (req.colors.getD []) = false := by simpa using hkey
    constructor
    · intro h
      injection h with h
      exact ⟨hf, h.symm⟩
    · intro h
      rw [h.2]

theorem initialQuery_returns_iff (req : Request) :
    (∃ initial, initialQuery req = Except.ok initial) ↔
      hasInheritedKey (req.colors.getD []) = false := by
  constructor
  · rintro ⟨initial, h⟩
    exact ((initialQuery_ok_iff req initial).1 h).1
  · intro h
    exact ⟨_, initialQuery_ok req h⟩

theorem scoring_ok (req : Request) (hcol : hasInheritedKey (req.colors.getD []) = false)
    (product : Product) :
    calculateRecommendationScore product (scoringPreferences req) =
      Except.ok (scoreFor req product).score :=
  calculateRecommendationScore_ok product (scoringPreferences req) hcol

theorem scoredProducts_ok (req : Request) (hcol : hasInheritedKey (req.colors.getD []) = false)
    (products : List Product) :
    mapExcept
        (fun product =>
          match calculateRecommendationScore product (scoringPreferences req) with
          | Except.ok score => Except.ok ({ product := product, score := score } : ScoredProduct)
          | Except.error e => Except.error e)
        products =
      Except.ok (products.map (scoreFor req)) := by
  have hfun : (fun product =>
        match calculateRecommendationScore product (scoringPreferences req) with
        | Except.ok score => Except.ok ({ product := product, score := score } : ScoredProduct)
        | Except.error e => Except.error e) =
      fun product => (Except.ok (scoreFor req product) : Except String ScoredProduct) := by
    funext product
    rw [scoring_ok req hcol product]
    rfl
  rw [hfun, mapExcept_ok]

theorem getRecommendationsBody_unfold (find : Catalog) (req : Request)
    (hcol : hasInheritedKey (req.colors.getD []) = false) :
    getRecommendationsBody find req =
      match relaxLoop find 0 (initialFilter req) [] [] with
      | (issued, Except.error e) => { queries := issued, candidates := [], result := Except.error e }
      | (issued, Except.ok products) =>
          if products.length = 0 then
            { queries := issued, candidates := [], result := Except.ok [] }
          else
            { queries := issued, candidates := products
              result := Except.ok (rankTop (products.map (scoreFor req))) } := by
  unfold getRecommendationsBody
  rw [initialQuery_ok req hcol]
  simp only
  rcases relaxLoop find 0 (initialFilter req) [] [] with ⟨issued, e | products⟩
  · rfl
  · simp only
    by_cases hlen : products.length = 0
    · rw [if_pos hlen, if_pos hlen]
    · rw [if_neg hlen, if_neg hlen, scoredProducts_ok req hcol]

theorem getRecommendationsBody_raise (find : Catalog) (req : Request)
    (hcol : hasInheritedKey (req.colors.getD []) = true) :
    (getRecommendationsBody find req).queries = [] ∧
      (getRecommendationsBody find req).candidates = [] ∧
      (getRecommendationsBody find req).result = Except.error notIterable := by
  unfold getRecommendationsBody
  rw [initialQuery_raise req hcol]
  exact ⟨rfl, rfl, rfl⟩

theorem getRecommendations_unfold (find : Catalog) (req : Request) :
    getRecommendations find req =
      match (getRecommendationsBody find req).result with
      | Except.ok recommendations =>
          { getRecommendationsBody find req with result := Except.ok recommendations }
      | Except.error _ => { getRecommendationsBody find req with result := Except.ok [] } := rfl

/-- A call whose colours hold a name inherited from `Object.prototype` raises
while the filter is built: no query is issued and the `catch` block returns the
empty list. -/
theorem getRecommendations_raise (find : Catalog) (req : Request)
    (hcol : hasInheritedKey (req.colors.getD []) = true) :
    (getRecommendations find req).queries = [] ∧
      (getRecommendations find req).candidates = [] ∧
      (getRecommendations find req).result = Except.ok [] := by
  obtain ⟨h1, h2, h3⟩ := getRecommendationsBody_raise find req hcol
  rw [getRecommendations_unfold, h3]
  exact ⟨h1, h2, rfl⟩

theorem getRecommendationsBody_queries (find : Catalog) (req : Request)
    (hcol : hasInheritedKey (req.colors.getD []) = false) :
    (getRecommendationsBody find req).queries =
      (relaxLoop find 0 (initialFilter req) [] []).1 := by
  rw [getRecommendationsBody_unfold find req hcol]
  rcases relaxLoop find 0 (initialFilter req) [] [] with ⟨issued, e | ps⟩
  · rfl
  · simp only
    split_ifs <;> rfl

theorem getRecommendations_queries (find : Catalog) (req : Request)
    (hcol : hasInheritedKey (req.colors.getD []) = false) :
    (getRecommendations find req).queries = (relaxLoop find 0 (initialFilter req) [] []).1 := by
  rw [← getRecommendationsBody_queries find req hcol, getRecommendations_unfold]
  cases (getRecommendationsBody find req).result <;> rfl

theorem getRecommendations_of_ok (find : Catalog) (req : Request) (ps : List Product)
    (hcol : hasInheritedKey (req.colors.getD []) = false)
    (h : (relaxLoop find 0 (initialFilter req) [] []).2 = Except.ok ps) :
    (getRecommendations find req).candidates = ps ∧
      (getRecommendationsBody find req).result = Except.ok (rankTop (ps.map (scoreFor req))) ∧
      (getRecommendations find req).result = Except.ok (rankTop (ps.map (scoreFor req))) := by
  have hbody : (getRecommendationsBody find req).candidates = ps ∧
      (getRecommendationsBody find req).result =
        Except.ok (rankTop (ps.map (scoreFor req))) := by
    rw [getRecommendationsBody_unfold find req hcol]
    rcases hr : relaxLoop find 0 (initialFilter req) [] [] with ⟨issued, e | qs⟩
    · rw [hr] at h; cases h
    · rw [hr] at h
      have hqs : qs = ps := by injection h
      subst hqs
      simp only
      by_cases hlen : qs.length = 0
      · have : qs = [] := List.length_eq_zero.1 hlen
        subst this
        simp [rankTop]
      · simp [hlen]
  refine ⟨?_, hbody.2, ?_⟩
  · rw [getRecommendations_unfold, hbody.2]
    exact hbody.1
  · rw [getRecommendations_unfold, hbody.2]

theorem getRecommendations_of_error (find : Catalog) (req : Request) (e : String)
    (hcol : hasInheritedKey (req.colors.getD []) = false)
    (h : (relaxLoop find 0 (initialFilter req) [] []).2 = Except.error e) :
    (getRecommendations find req).candidates = [] ∧
      (getRecommendationsBody find req).result = Except.error e ∧
      (getRecommendations find req).result = Except.ok [] := by
  have hbody : (getRecommendationsBody find req).candidates = [] ∧
      (getRecommendationsBody find req).result = Except.error e := by
    rw [getRecommendationsBody_unfold find req hcol]
    rcases hr : relaxLoop find 0 (initialFilter req) [] [] with ⟨issued, e' | qs⟩
    · rw [hr] at h
      have he : e' = e := by injection h
      subst he
      exact ⟨rfl, rfl⟩
    · rw [hr] at h; cases h
  refine ⟨?_, hbody.2, ?_⟩
  · rw [getRecommendations_unfold, hbody.2]
    exact hbody.1
  · rw [getRecommendations_unfold, hbody.2]

theorem mem_of_mem_rankTop {l : List ScoredProduct} {s : ScoredProduct} (h : s ∈ rankTop l) :
    s ∈ l :=
  (List.perm_insertionSort _ l).mem_iff.1 (List.mem_of_mem_take h)

theorem mem_rankTop_of_short {l : List ScoredProduct} {s : ScoredProduct} (hl : l.length ≤ 12)
    (h : s ∈ l) : s ∈ rankTop l := by
  unfold rankTop
  rw [List.take_of_length_le (by rw [List.length_insertionSort]; exact hl)]
  exact (List.perm_insertionSort _ l).mem_iff.2 h

theorem satisfiedBy_inStock {q : Query} {p : Product} (h : q.satisfiedBy p = true)
    (hq : q.inStock = some true) : p.inStock = true := by
  unfold Query.satisfiedBy at h
  rw [hq] at h
  simp only [Bool.and_eq_true, decide_eq_true_eq] at h
  exact h.1.1.1.1.1.1.1

theorem satisfiedBy_price {q : Query} {p : Product} {b : JsNum} (h : q.satisfiedBy p = true)
    (hq : q.price = some b) : b.geConst p.price = true := by
  unfold Query.satisfiedBy at h
  rw [hq] at h
  simp only [Bool.and_eq_true] at h
  exact h.1.1.1.1.1.1.2

theorem initialFilter_inStock (req : Request) : (initialFilter req).inStock = some true := by
  unfold initialFilter buildBaseQuery
  simp only [apply_ite Query.inStock, ite_self]

theorem initialFilter_price (req : Request) :
    (initialFilter req).price =
      if convertBudgetRange req.withDefaults.budget ≠ JsBudget.null ∧
          (convertBudgetRange req.withDefaults.budget).toNumber.gtZero = true then
        some (convertBudgetRange req.withDefaults.budget).toNumber
      else none := by
  unfold initialFilter buildBaseQuery
  simp only [apply_ite Query.price, ite_self]

theorem catalogOf_honours (items : List Product) : (catalogOf items).honours := by
  intro i query products h p hp
  have hps : products = (items.filter query.satisfiedBy).take 20 := by
    unfold catalogOf at h
    injection h with h'
    exact h'.symm
  subst hps
  have := List.mem_of_mem_take hp
  exact (List.mem_filter.1 this).2

theorem relaxLoop_stop (find : Catalog) (base : Query) (j : Nat) (hj1 : 1 ≤ j) (hj7 : j ≤ 7)
    (hprev : ∀ k, k + 1 < j → find k (queryAt base k) = Except.ok [])
    (hstop : find (j - 1) (queryAt base (j - 1)) ≠ Except.ok []) :
    (relaxLoop find 0 base [] []).1 = (List.range j).map (queryAt base) ∧
      ((∃ e, find (j - 1) (queryAt base (j - 1)) = Except.error e ∧
          (relaxLoop find 0 base [] []).2 = Except.error e) ∨
       (∃ ps, ps ≠ [] ∧ find (j - 1) (queryAt base (j - 1)) = Except.ok ps ∧
          (relaxLoop find 0 base [] []).2 = Except.ok ps)) := by
  obtain ⟨m, hm1, hm7, hq, hprev', hout⟩ := relaxLoop_start find base
  have hmj : m = j := by
    rcases Nat.lt_trichotomy m j with hlt | heq | hgt
    · exfalso
      have h0 := hprev (m - 1) (by omega)
      rcases hout with ⟨e, h2, _⟩ | ⟨ps, h1, h2, _⟩ | ⟨h1, _, _⟩
      · rw [h2] at h0; cases h0
      · rw [h2] at h0; injection h0 with h0; exact h1 h0
      · omega
    · exact heq
    · exfalso
      have h0 := hprev' (j - 1) (by omega)
      exact hstop h0
  subst hmj
  refine ⟨hq, ?_⟩
  rcases hout with h | h | ⟨h1, h2, _⟩
  · exact Or.inl h
  · exact Or.inr h
  · subst h1; exact absurd h2 hstop

theorem relaxLoop_exhausted (find : Catalog) (base : Query)
    (hall : ∀ k, k < 7 → find k (queryAt base k) = Except.ok []) :
    (relaxLoop find 0 base [] []).1 = (List.range 7).map (queryAt base) ∧
      (relaxLoop find 0 base [] []).2 = Except.ok [] := by
  obtain ⟨m, hm1, hm7, hq, _, hout⟩ := relaxLoop_start find base
  rcases hout with ⟨e, h2, _⟩ | ⟨ps, h1, h2, _⟩ | ⟨h1, _, h3⟩
  · rw [hall (m - 1) (by omega)] at h2; cases h2
  · rw [hall (m - 1) (by omega)] at h2
    injection h2 with h2
    exact absurd h2.symm h1
  · subst h1
    exact ⟨hq, h3⟩

theorem not_raise_of_query (find : Catalog) (req : Request) (q : Query)
    (hq : q ∈ (getRecommendations find req).queries) :
    hasInheritedKey (req.colors.getD []) = false := by
  by_contra h
  have hcol : hasInheritedKey (req.colors.getD []) = true := by simpa using h
  rw [(getRecommendations_raise find req hcol).1] at hq
  cases hq

theorem not_raise_of_candidate (find : Catalog) (req : Request) (p : Product)
    (hp : p ∈ (getRecommendations find req).candidates) :
    hasInheritedKey (req.colors.getD []) = false := by
  by_contra h
  have hcol : hasInheritedKey (req.colors.getD []) = true := by simpa using h
  rw [(getRecommendations_raise find req hcol).2.1] at hp
  cases hp

/-- C5: the filter of query attempt `k + 1`, for each attempt that runs
(`k` from 0 to 6), is the initial filter without the first `k` clauses of the
order colour, materials, occasions, style, category, gender, every other clause
being unchanged. -/
theorem relaxation_filters (find : Catalog) (req : Request) (k : Nat)
    (hk : k < (getRecommendations find req).queries.length) :
    k ≤ 6 ∧
      ∃ initial, initialQuery req = Except.ok initial ∧
        (getRecommendations find req).queries[k]? = some (withoutFirstClauses k initial) := by
  have hcol : hasInheritedKey (req.colors.getD []) = false :=
    not_raise_of_query find req _ (List.getElem_mem hk)
  rw [getRecommendations_queries find req hcol] at hk ⊢
  obtain ⟨m, _, hm7, hq, _, _⟩ := relaxLoop_start find (initialFilter req)
  rw [hq] at hk ⊢
  rw [List.length_map, List.length_range] at hk
  have hk6 : k ≤ 6 := by omega
  refine ⟨hk6, initialFilter req, initialQuery_ok req hcol, ?_⟩
  rw [List.getElem?_map, List.getElem?_range hk, Option.map_some',
    queryAt_eq_withoutFirstClauses _ k hk6]

theorem sampleRequest_queries_empty_catalog :
    (getRecommendations (catalogOf []) sampleRequest).queries =
      (List.range 7).map (queryAt (initialFilter sampleRequest)) := by
  rw [getRecommendations_queries _ _ (by decide)]
  exact (relaxLoop_exhausted (catalogOf []) (initialFilter sampleRequest) (fun _ _ => rfl)).1

theorem relaxation_filters_witness :
    6 < (getRecommendations (catalogOf []) sampleRequest).queries.length ∧
      (6 ≤ 6 ∧
        ∃ initial, initialQuery sampleRequest = Except.ok initial ∧
          (getRecommendations (catalogOf []) sampleRequest).queries[6]? =
            some (withoutFirstClauses 6 initial)) :=
  ⟨by rw [sampleRequest_queries_empty_catalog]; decide,
    relaxation_filters (catalogOf []) sampleRequest 6
      (by rw [sampleRequest_queries_empty_catalog]; decide)⟩

/-- C6: when attempt `j` (between 1 and 7) is the first whose query returns at
least one item, the loop issues exactly `j` queries and the items scored are
exactly the items that attempt returned; every recommendation returned is one of
them, with the score `calculateRecommendationScore` returns for it, and each of
them is returned when they are at most 12. In particular, when the full filter
matches nothing and the filter without the colour clause matches an item, two
queries are issued and the item is returned. Here `initial` is the initial
filter the call has built. -/
theorem first_nonempty_attempt (find : Catalog) (req : Request) (j : Nat) (ps : List Product)
    (initial : Query) (hq : initialQuery req = Except.ok initial)
    (hj1 : 1 ≤ j) (hj7 : j ≤ 7)
    (hprev : ∀ k, k + 1 < j → find k (withoutFirstClauses k initial) = Except.ok [])
    (hj : find (j - 1) (withoutFirstClauses (j - 1) initial) = Except.ok ps)
    (hne : ps ≠ []) :
    (getRecommendations find req).queries.length = j ∧
      (getRecommendations find req).candidates = ps ∧
      ∃ recs, (getRecommendations find req).result = Except.ok recs ∧
        (∀ s ∈ recs, s.product ∈ ps ∧
          calculateRecommendationScore s.product (scoringPreferences req) =
            Except.ok s.score) ∧
        (ps.length ≤ 12 → ∀ p ∈ ps, ∃ s ∈ recs, s.product = p) := by
  obtain ⟨hcol, hinit⟩ := (initialQuery_ok_iff req initial).1 hq
  subst hinit
  have hprev' : ∀ k, k + 1 < j → find k (queryAt (initialFilter req) k) = Except.ok [] := by
    intro k hk
    rw [queryAt_eq_withoutFirstClauses _ k (by omega)]
    exact hprev k hk
  have hj' : find (j - 1) (queryAt (initialFilter req) (j - 1)) = Except.ok ps := by
    rw [queryAt_eq_withoutFirstClauses _ (j - 1) (by omega)]
    exact hj
  have hstop : find (j - 1) (queryAt (initialFilter req) (j - 1)) ≠ Except.ok [] := by
    rw [hj']
    intro h
    injection h with h
    exact hne h
  obtain ⟨hqs, hout⟩ := relaxLoop_stop find (initialFilter req) j hj1 hj7 hprev' hstop
  have hres : (relaxLoop find 0 (initialFilter req) [] []).2 = Except.ok ps := by
    rcases hout with ⟨e, h1, _⟩ | ⟨qs, _, h1, h2⟩
    · rw [hj'] at h1; cases h1
    · rw [hj'] at h1
      injection h1 with h1
      rw [h2, h1]
  obtain ⟨hc, _, hr⟩ := getRecommendations_of_ok find req ps hcol hres
  refine ⟨?_, hc, rankTop (ps.map (scoreFor req)), hr, ?_, ?_⟩
  · rw [getRecommendations_queries find req hcol, hqs, List.length_map, List.length_range]
  · intro s hs
    have hmem := mem_of_mem_rankTop hs
    obtain ⟨p, hp, rfl⟩ := List.mem_map.1 hmem
    exact ⟨hp, scoring_ok req hcol p⟩
  · intro hlen p hp
    refine ⟨scoreFor req p, ?_, rfl⟩
    apply mem_rankTop_of_short
    · rw [List.length_map]; exact hlen
    · exact List.mem_map_of_mem _ hp

theorem first_nonempty_attempt_witness :
    initialQuery sampleRequest = Except.ok (initialFilter sampleRequest) ∧
      (getRecommendations (catalogOf [blackItem]) sampleRequest).queries.length = 2 ∧
      (getRecommendations (catalogOf [blackItem]) sampleRequest).candidates = [blackItem] ∧
      ∃ recs, (getRecommendations (catalogOf [blackItem]) sampleRequest).result =
          Except.ok recs ∧
        (∀ s ∈ recs, s.product ∈ [blackItem] ∧
          calculateRecommendationScore s.product (scoringPreferences sampleRequest) =
            Except.ok s.score) ∧
        ([blackItem].length ≤ 12 → ∀ p ∈ [blackItem], ∃ s ∈ recs, s.product = p) :=
  ⟨initialQuery_ok sampleRequest (by decide),
    first_nonempty_attempt (catalogOf [blackItem]) sampleRequest 2 [blackItem]
      (initialFilter sampleRequest) (initialQuery_ok sampleRequest (by decide)) (by decide)
      (by decide)
      (fun k hk => by
        have hk0 : k = 0 := by omega
        subst hk0
        rfl)
      rfl (by simp)⟩

/-- C7: for every catalogue and request `getRecommendations` issues at most 7
queries, one more than the 6 clauses that can be dropped. When each of them
returns no item, all 7 are issued, the last one with the filter left after the
removal of the last clause, and the function returns the empty list from the
body of its `try` block: a normal result, with nothing raised. A call that
raises while it builds the filter issues no query. -/
theorem at_most_seven_queries (find : Catalog) (req : Request) :
    (getRecommendations find req).queries.length ≤ relaxationOrder.length + 1 ∧
      relaxationOrder.length = 6 ∧
      (∀ initial, initialQuery req = Except.ok initial →
        (∀ k, k < 7 → find k (withoutFirstClauses k initial) = Except.ok []) →
        (getRecommendations find req).queries.length = 7 ∧
          (getRecommendations find req).queries.getLast? =
            some (withoutFirstClauses 6 initial) ∧
          (getRecommendationsBody find req).result = Except.ok [] ∧
          (getRecommendations find req).result = Except.ok []) ∧
      (∀ e, initialQuery req = Except.error e →
        (getRecommendations find req).queries = [] ∧
          (getRecommendations find req).result = Except.ok []) := by
  refine ⟨?_, rfl, ?_, ?_⟩
  · by_cases hcol : hasInheritedKey (req.colors.getD []) = true
    · rw [(getRecommendations_raise find req hcol).1]
      exact Nat.zero_le _
    · have hcol' : hasInheritedKey (req.colors.getD []) = false := by simpa using hcol
      rw [getRecommendations_queries find req hcol']
      obtain ⟨m, _, hm7, hq, _, _⟩ := relaxLoop_start find (initialFilter req)
      rw [hq, List.length_map, List.length_range, relaxationOrder_length]
      exact hm7
  · intro initial hq hall
    obtain ⟨hcol, hinit⟩ := (initialQuery_ok_iff req initial).1 hq
    subst hinit
    have hall' : ∀ k, k < 7 → find k (queryAt (initialFilter req) k) = Except.ok [] := by
      intro k hk
      rw [queryAt_eq_withoutFirstClauses _ k (by omega)]
      exact hall k hk
    obtain ⟨hqs, hres⟩ := relaxLoop_exhausted find (initialFilter req) hall'
    obtain ⟨_, hb, hr⟩ := getRecommendations_of_ok find req [] hcol hres
    refine ⟨?_, ?_, ?_, ?_⟩
    · rw [getRecommendations_queries find req hcol, hqs, List.length_map, List.length_range]
    · rw [getRecommendations_queries find req hcol, hqs,
        ← queryAt_eq_withoutFirstClauses _ 6 (le_refl 6)]
      rfl
    · rw [hb]; rfl
    · rw [hr]; rfl
  · intro e he
    have hcol : hasInheritedKey (req.colors.getD []) = true := by
      by_contra h
      have h' : hasInheritedKey (req.colors.getD []) = false := by simpa using h
      rw [initialQuery_ok req h'] at he
      cases he
    exact ⟨(getRecommendations_raise find req hcol).1, (getRecommendations_raise find req hcol).2.2⟩

theorem at_most_seven_queries_witness :
    initialQuery sampleRequest = Except.ok (initialFilter sampleRequest) ∧
      (getRecommendations (catalogOf []) sampleRequest).queries.length = 7 ∧
      (getRecommendations (catalogOf []) sampleRequest).queries.getLast? =
        some (withoutFirstClauses 6 (initialFilter sampleRequest)) ∧
      (getRecommendationsBody (catalogOf []) sampleRequest).result = Except.ok [] ∧
      (getRecommendations (catalogOf []) sampleRequest).result = Except.ok [] :=
  ⟨initialQuery_ok sampleRequest (by decide),
    (at_most_seven_queries (catalogOf []) sampleRequest).2.2.1 (initialFilter sampleRequest)
      (initialQuery_ok sampleRequest (by decide)) (fun _ _ => rfl)⟩

theorem mem_queries_fields (find : Catalog) (req : Request) (q : Query)
    (hq : q ∈ (getRecommendations find req).queries) :
    initialQuery req = Except.ok (initialFilter req) ∧
      ∃ k, k ≤ 6 ∧ q = withoutFirstClauses k (initialFilter req) := by
  have hcol := not_raise_of_query find req q hq
  rw [getRecommendations_queries find req hcol] at hq
  obtain ⟨m, _, hm7, hqs, _, _⟩ := relaxLoop_start find (initialFilter req)
  rw [hqs] at hq
  obtain ⟨k, hk, rfl⟩ := List.mem_map.1 hq
  have hk' : k < m := List.mem_range.1 hk
  exact ⟨initialQuery_ok req hcol, k, by omega, queryAt_eq_withoutFirstClauses _ k (by omega)⟩

theorem candidates_satisfy (find : Catalog) (req : Request) (hfind : find.honours)
    (p : Product) (hp : p ∈ (getRecommendations find req).candidates) :
    ∃ k, k ≤ 6 ∧ (withoutFirstClauses k (initialFilter req)).satisfiedBy p = true := by
  have hcol := not_raise_of_candidate find req p hp
  obtain ⟨m, hm1, hm7, _, _, hout⟩ := relaxLoop_start find (initialFilter req)
  rcases hout with ⟨e, _, h3⟩ | ⟨ps, _, h2, h3⟩ | ⟨_, _, h3⟩
  · rw [(getRecommendations_of_error find req e hcol h3).1] at hp
    cases hp
  · rw [(getRecommendations_of_ok find req ps hcol h3).1] at hp
    refine ⟨m - 1, by omega, ?_⟩
    rw [← queryAt_eq_withoutFirstClauses _ (m - 1) (by omega)]
    exact hfind _ _ _ h2 p hp
  · rw [(getRecommendations_of_ok find req [] hcol h3).1] at hp
    cases hp

/-- Whatever the request, the result is the ranking of the scored candidates:
for a call that raised it is the empty list, and there are no candidates. -/
theorem getRecommendations_result (find : Catalog) (req : Request) :
    (getRecommendations find req).result =
      Except.ok (rankTop ((getRecommendations find req).candidates.map (scoreFor req))) := by
  by_cases hcol : hasInheritedKey (req.colors.getD []) = true
  · obtain ⟨_, h2, h3⟩ := getRecommendations_raise find req hcol
    rw [h2, h3]
    rfl
  · have hcol' : hasInheritedKey (req.colors.getD []) = false := by simpa using hcol
    obtain ⟨m, _, _, _, _, hout⟩ := relaxLoop_start find (initialFilter req)
    rcases hout with ⟨e, _, h3⟩ | ⟨ps, _, _, h3⟩ | ⟨_, _, h3⟩
    · obtain ⟨h1, _, h2⟩ := getRecommendations_of_error find req e hcol' h3
      rw [h1, h2]
      rfl
    · obtain ⟨h1, _, h2⟩ := getRecommendations_of_ok find req ps hcol' h3
      rw [h1, h2]
    · obtain ⟨h1, _, h2⟩ := getRecommendations_of_ok find req [] hcol' h3
      rw [h1, h2]

theorem result_subset_candidates (find : Catalog) (req : Request)
    (recs : List ScoredProduct) (hr : (getRecommendations find req).result = Except.ok recs)
    (s : ScoredProduct) (hs : s ∈ recs) : s.product ∈ (getRecommendations find req).candidates := by
  rw [getRecommendations_result] at hr
  injection hr with hr
  subst hr
  obtain ⟨p, hp, rfl⟩ := List.mem_map.1 (mem_of_mem_rankTop hs)
  exact hp

/-- Every recommendation carries the score `calculateRecommendationScore`
returns for its product under the preferences of the request. -/
theorem result_scores (find : Catalog) (req : Request)
    (recs : List ScoredProduct) (hr : (getRecommendations find req).result = Except.ok recs)
    (s : ScoredProduct) (hs : s ∈ recs) :
    calculateRecommendationScore s.product (scoringPreferences req) = Except.ok s.score := by
  have hcand := result_subset_candidates find req recs hr s hs
  have hcol := not_raise_of_candidate find req s.product hcand
  rw [getRecommendations_result] at hr
  injection hr with hr
  subst hr
  obtain ⟨p, hp, rfl⟩ := List.mem_map.1 (mem_of_mem_rankTop hs)
  exact scoring_ok req hcol p

/-- C8: the price and stock clauses are never relaxed. Every query of
`getRecommendations` carries the in-stock clause and the price clause of the
initial filter. Hence, with a catalogue that honours the filter, every
recommendation returned is in stock and, when the normalised budget is a number
above 0, its price is at most that budget. -/
theorem price_and_stock_never_relaxed (find : Catalog) (req : Request) :
    (∀ q ∈ (getRecommendations find req).queries,
        q.inStock = some true ∧
          ∃ initial, initialQuery req = Except.ok initial ∧ q.price = initial.price) ∧
      (find.honours → ∀ recs, (getRecommendations find req).result = Except.ok recs →
        ∀ s ∈ recs, s.product.inStock = true ∧
          ∀ b, convertBudgetRange req.withDefaults.budget = JsBudget.num b →
            b.gtZero = true → b.geConst s.product.price = true) := by
  constructor
  · intro q hq
    obtain ⟨hinit, k, _, rfl⟩ := mem_queries_fields find req q hq
    exact ⟨initialFilter_inStock req, initialFilter req, hinit, rfl⟩
  · intro hfind recs hr s hs
    have hcand := result_subset_candidates find req recs hr s hs
    obtain ⟨k, _, hsat⟩ := candidates_satisfy find req hfind s.product hcand
    refine ⟨satisfiedBy_inStock hsat (initialFilter_inStock req), ?_⟩
    intro b hb hpos
    apply satisfiedBy_price hsat
    show (initialFilter req).price = some b
    rw [initialFilter_price, hb]
    simp [JsBudget.toNumber, hpos]

theorem price_and_stock_never_relaxed_witness :
    (catalogOf [blackItem]).honours ∧
      ∀ recs, (getRecommendations (catalogOf [blackItem]) sampleRequest).result =
          Except.ok recs →
        ∀ s ∈ recs, s.product.inStock = true ∧
          ∀ b, convertBudgetRange sampleRequest.withDefaults.budget = JsBudget.num b →
            b.gtZero = true → b.geConst s.product.price = true :=
  ⟨catalogOf_honours [blackItem],
    (price_and_stock_never_relaxed (catalogOf [blackItem]) sampleRequest).2
      (catalogOf_honours [blackItem])⟩

theorem relaxLoop_first_error (find : Catalog) (base : Query) (e : String)
    (h : find 0 base = Except.error e) :
    relaxLoop find 0 base [] [] = ([base], Except.error e) := by
  rw [relaxLoop, if_pos (Nat.zero_le _), h]
  rfl

/-- C9 as stated fails: with a catalogue whose first query raises,
`getRecommendations` does not end with an error for the caller; it returns the
empty list, the same value as for a catalogue without any product. -/
theorem query_failure_returns_empty_list :
    initialQuery sampleRequest = Except.ok (initialFilter sampleRequest) ∧
      unavailableCatalog 0 (initialFilter sampleRequest) =
        Except.error "catalogue unavailable" ∧
      (getRecommendations unavailableCatalog sampleRequest).result = Except.ok [] ∧
      (getRecommendations unavailableCatalog sampleRequest).result ≠
        Except.error "catalogue unavailable" ∧
      (getRecommendations unavailableCatalog sampleRequest).result =
        (getRecommendations (catalogOf []) sampleRequest).result := by
  have hcol : hasInheritedKey (sampleRequest.colors.getD []) = false := by decide
  have h1 : (getRecommendations unavailableCatalog sampleRequest).result = Except.ok [] := by
    apply (getRecommendations_of_error unavailableCatalog sampleRequest
      "catalogue unavailable" hcol _).2.2
    rw [relaxLoop_first_error unavailableCatalog _ "catalogue unavailable" rfl]
  have h2 : (getRecommendations (catalogOf []) sampleRequest).result = Except.ok [] := by
    have hres := (relaxLoop_exhausted (catalogOf []) (initialFilter sampleRequest)
      (fun _ _ => rfl)).2
    rw [(getRecommendations_of_ok (catalogOf []) sampleRequest [] hcol hres).2.2]
    rfl
  refine ⟨initialQuery_ok sampleRequest hcol, rfl, h1, ?_, ?_⟩
  · rw [h1]; intro h; cases h
  · rw [h1, h2]

/-- C9, amended: when the query of attempt `n + 1` raises after the earlier
attempts found nothing, `getRecommendations` issues no further query (exactly
`n + 1` in all); the error is raised inside the `try` block, its `catch` block
takes it, and the function returns the empty list to the caller. Here `initial`
is the initial filter the call has built. -/
theorem query_failure_stops_and_is_caught (find : Catalog) (req : Request) (n : Nat)
    (e : String) (initial : Query) (hq : initialQuery req = Except.ok initial) (hn : n ≤ 6)
    (hprev : ∀ k, k < n → find k (withoutFirstClauses k initial) = Except.ok [])
    (herr : find n (withoutFirstClauses n initial) = Except.error e) :
    (getRecommendations find req).queries.length = n + 1 ∧
      (getRecommendationsBody find req).result = Except.error e ∧
      (getRecommendations find req).result = Except.ok [] := by
  obtain ⟨hcol, hinit⟩ := (initialQuery_ok_iff req initial).1 hq
  subst hinit
  have hprev' : ∀ k, k + 1 < n + 1 → find k (queryAt (initialFilter req) k) = Except.ok [] := by
    intro k hk
    rw [queryAt_eq_withoutFirstClauses _ k (by omega)]
    exact hprev k (by omega)
  have herr' : find (n + 1 - 1) (queryAt (initialFilter req) (n + 1 - 1)) = Except.error e := by
    rw [Nat.add_sub_cancel, queryAt_eq_withoutFirstClauses _ n hn]
    exact herr
  have hstop : find (n + 1 - 1) (queryAt (initialFilter req) (n + 1 - 1)) ≠ Except.ok [] := by
    rw [herr']
    intro h
    cases h
  obtain ⟨hqs, hout⟩ :=
    relaxLoop_stop find (initialFilter req) (n + 1) (by omega) (by omega) hprev' hstop
  have hres : (relaxLoop find 0 (initialFilter req) [] []).2 = Except.error e := by
    rcases hout with ⟨e', h1, h2⟩ | ⟨qs, _, h1, _⟩
    · rw [herr'] at h1
      injection h1 with h1
      rw [h2, h1]
    · rw [herr'] at h1; cases h1
  obtain ⟨_, hb, hr⟩ := getRecommendations_of_error find req e hcol hres
  refine ⟨?_, hb, hr⟩
  rw [getRecommendations_queries find req hcol, hqs, List.length_map, List.length_range]

theorem query_failure_stops_and_is_caught_witness :
    initialQuery sampleRequest = Except.ok (initialFilter sampleRequest) ∧
      (getRecommendations unavailableCatalog sampleRequest).queries.length = 0 + 1 ∧
      (getRecommendationsBody unavailableCatalog sampleRequest).result =
        Except.error "catalogue unavailable" ∧
      (getRecommendations unavailableCatalog sampleRequest).result = Except.ok [] :=
  ⟨initialQuery_ok sampleRequest (by decide),
    query_failure_stops_and_is_caught unavailableCatalog sampleRequest 0 "catalogue unavailable"
      (initialFilter sampleRequest) (initialQuery_ok sampleRequest (by decide))
      (by decide) (fun k hk => absurd hk (Nat.not_lt_zero k)) rfl⟩

/-! ## The initial filter -/

theorem convertBudgetRange_cases (x : JsBudget) :
    (∃ n, convertBudgetRange x = JsBudget.num n ∧ n.isNaN = false) ∨
      convertBudgetRange x = JsBudget.null ∨ convertBudgetRange x = JsBudget.obj := by
  unfold convertBudgetRange
  by_cases h : x.toNumber.isNaN = false
  · rw [if_pos h]
    exact Or.inl ⟨_, rfl, h⟩
  · rw [if_neg h]
    cases x with
    | str s =>
      simp only
      by_cases ht : (budgetMap (toLowerCase s)).truthy = true
      · rw [if_pos ht]
        unfold budgetMap at ht ⊢
        split_ifs at ht ⊢
        · exact Or.inl ⟨_, rfl, rfl⟩
        · exact Or.inl ⟨_, rfl, rfl⟩
        · exact Or.inl ⟨_, rfl, rfl⟩
        · exact Or.inr (Or.inr rfl)
        · simp [JsBudget.truthy] at ht
      · rw [if_neg ht]
        exact Or.inr (Or.inl rfl)
    | undefined => exact Or.inr (Or.inl rfl)
    | null => exact Or.inr (Or.inl rfl)
    | num n => exact Or.inr (Or.inl rfl)
    | obj => exact Or.inr (Or.inl rfl)

theorem initialFilter_price_clause (req : Request) :
    (∀ b, (initialFilter req).price = some b ↔
      (convertBudgetRange req.withDefaults.budget = JsBudget.num b ∧ b.gtZero = true)) ∧
    (convertBudgetRange req.withDefaults.budget = JsBudget.null →
      (initialFilter req).price = none) ∧
    (∀ q : ℚ, q ≤ 0 → convertBudgetRange req.withDefaults.budget = JsBudget.num (JsNum.fin q) →
      (initialFilter req).price = none) := by
  refine ⟨?_, ?_, ?_⟩
  · intro b
    rw [initialFilter_price]
    rcases convertBudgetRange_cases req.withDefaults.budget with ⟨n, hn, _⟩ | hn | hn
    · rw [hn]
      simp only [JsBudget.toNumber, ne_eq, not_false_eq_true, true_and, reduceCtorEq,
        JsBudget.num.injEq]
      by_cases hpos : n.gtZero = true
      · rw [if_pos hpos]
        constructor
        · intro h
          injection h with h
          exact ⟨h, h ▸ hpos⟩
        · intro h
          rw [h.1]
      · rw [if_neg hpos]
        constructor
        · intro h; cases h
        · intro h
          exact absurd (h.1 ▸ h.2) hpos
    · rw [hn]
      simp
    · rw [hn]
      simp [JsBudget.toNumber, JsNum.gtZero]
  · intro hn
    rw [initialFilter_price, hn]
    simp
  · intro q hq hn
    rw [initialFilter_price, hn]
    have : ¬ (0 < q) := not_lt.2 hq
    simp [JsBudget.toNumber, JsNum.gtZero, this]

theorem strictEq_str (v : JsVal) (s : String) : v.strictEq (JsVal.str s) = true ↔ v = JsVal.str s := by
  cases v <;> simp [JsVal.strictEq]

theorem initialFilter_gender (req : Request) :
    (initialFilter req).gender =
      if req.withDefaults.gender.truthy = true ∧
          ["men", "women"].contains req.withDefaults.gender.toJsString = true then
        some req.withDefaults.gender
      else none := by
  unfold initialFilter buildBaseQuery
  simp only [apply_ite Query.gender, ite_self]

theorem initialFilter_occasions (req : Request) :
    (initialFilter req).occasions =
      if req.withDefaults.occasion.truthy = true then some req.withDefaults.occasion
      else none := by
  unfold initialFilter buildBaseQuery
  simp only [apply_ite Query.occasions, ite_self]

theorem initialFilter_materials (req : Request) :
    (initialFilter req).materials =
      if req.withDefaults.material.truthy = true then some req.withDefaults.material
      else none := by
  unfold initialFilter buildBaseQuery
  simp only [apply_ite Query.materials, ite_self]

theorem initialFilter_style (req : Request) :
    (initialFilter req).style =
      if req.withDefaults.style.truthy = true then some req.withDefaults.style
      else none := by
  unfold initialFilter buildBaseQuery
  simp only [apply_ite Query.style, ite_self]

theorem initialFilter_category (req : Request) :
    (initialFilter req).category =
      if req.withDefaults.category.truthy = true then some req.withDefaults.category
      else none := by
  unfold initialFilter buildBaseQuery
  simp only [apply_ite Query.category, ite_self]

theorem initialFilter_colorsOr (req : Request) :
    (initialFilter req).colorsOr =
      if (req.colors.getD []).length > 0 then
        some (req.colors.getD [], complementsOf (req.colors.getD []))
      else none := by
  unfold initialFilter buildBaseQuery
  simp only [apply_ite Query.colorsOr, ite_self]
  rfl

theorem initialFilter_gender_clause (req : Request) (hstr : ∀ xs, req.gender ≠ JsVal.arr xs) :
    ((initialFilter req).gender ≠ none ↔
      (req.gender = JsVal.str "men" ∨ req.gender = JsVal.str "women")) ∧
    (∀ g, (initialFilter req).gender = some g →
      g = req.gender ∧
        ∀ p : Product, ({ noClauses with gender := some g } : Query).satisfiedBy p = true ↔
          (p.gender = g ∨ p.gender = JsVal.str "unisex")) ∧
    (req.gender = JsVal.str "unisex" ∨ req.gender = JsVal.undefined ∨
        req.gender = JsVal.null → (initialFilter req).gender = none) := by
  have hfield : (initialFilter req).gender =
      if req.gender = JsVal.str "men" ∨ req.gender = JsVal.str "women" then some req.gender
      else none := by
    rw [initialFilter_gender]
    cases hg : req.gender with
    | undefined => simp [Request.withDefaults, hg, JsVal.orDefault, JsVal.truthy, JsVal.toJsString]
    | null => simp [Request.withDefaults, hg, JsVal.orDefault, JsVal.truthy]
    | arr xs => exact absurd hg (hstr xs)
    | str s =>
      simp only [Request.withDefaults, hg, JsVal.orDefault, JsVal.truthy, JsVal.toJsString,
        JsVal.str.injEq]
      by_cases h1 : s = "men"
      · subst h1; simp
      · by_cases h2 : s = "women"
        · subst h2; simp
        · simp [h1, h2]
  refine ⟨?_, ?_, ?_⟩
  · rw [hfield]
    by_cases h : req.gender = JsVal.str "men" ∨ req.gender = JsVal.str "women"
    · simp [h]
    · simp [h]
  · intro g hg
    rw [hfield] at hg
    by_cases h : req.gender = JsVal.str "men" ∨ req.gender = JsVal.str "women"
    · rw [if_pos h] at hg
      injection hg with hg
      refine ⟨hg.symm, ?_⟩
      intro p
      have hgs : ∃ s, g = JsVal.str s := by
        rcases h with h | h
        · exact ⟨"men", by rw [← hg, h]⟩
        · exact ⟨"women", by rw [← hg, h]⟩
      obtain ⟨s, rfl⟩ := hgs
      simp only [Query.satisfiedBy, noClauses, Bool.true_and, Bool.and_true, Bool.or_eq_true,
        strictEq_str]
    · rw [if_neg h] at hg
      cases hg
  · intro h
    rw [hfield]
    rcases h with h | h | h <;> simp [h]

theorem initialFilter_color_clause (req : Request) :
    ((initialFilter req).colorsOr ≠ none ↔ req.colors.getD [] ≠ []) ∧
    (∀ clause, (initialFilter req).colorsOr = some clause →
      clause = (req.colors.getD [], complementsOf (req.colors.getD [])) ∧
        ∀ p : Product, ({ noClauses with colorsOr := some clause } : Query).satisfiedBy p = true ↔
          ((∃ c ∈ p.colors, c ∈ req.colors.getD []) ∨
            (∃ c ∈ p.colors, c ∈ complementsOf (req.colors.getD [])))) := by
  have hlen : (req.colors.getD []).length > 0 ↔ req.colors.getD [] ≠ [] := List.length_pos
  refine ⟨?_, ?_⟩
  · rw [initialFilter_colorsOr]
    by_cases h : (req.colors.getD []).length > 0
    · simp [h, hlen.1 h]
    · have : req.colors.getD [] = [] := by
        by_contra hne
        exact h (hlen.2 hne)
      simp [this]
  · intro clause hclause
    rw [initialFilter_colorsOr] at hclause
    by_cases h : (req.colors.getD []).length > 0
    · rw [if_pos h] at hclause
      injection hclause with hclause
      subst hclause
      refine ⟨rfl, ?_⟩
      intro p
      simp [Query.satisfiedBy, noClauses]
    · rw [if_neg h] at hclause
      cases hclause

theorem initialFilter_omitted :
    initialFilter omittedRequest ≠ inStockOnly ∧
      initialFilter omittedRequest =
        { inStockOnly with
          price := some (JsNum.fin 10000)
          style := some (JsVal.str "modern")
          occasions := some (JsVal.str "daily") } := by
  constructor <;> decide

theorem initialFilter_only_in_stock (req : Request) (hb : req.budget = JsBudget.null)
    (ho : req.occasion = JsVal.null) (hs : req.style = JsVal.null)
    (hm : req.material.truthy = false) (hc : req.category.truthy = false)
    (hg : req.gender.truthy = false) (hcol : req.colors.getD [] = []) :
    initialFilter req = inStockOnly := by
  have h1 := initialFilter_inStock req
  have h2 : (initialFilter req).price = none := by
    rw [initialFilter_price]
    have : convertBudgetRange req.withDefaults.budget = JsBudget.num (JsNum.fin 0) := by
      simp only [Request.withDefaults, hb]
      decide
    rw [this]
    simp [JsBudget.toNumber, JsNum.gtZero]
  have h3 : (initialFilter req).style = none := by
    rw [initialFilter_style]
    simp [Request.withDefaults, hs, JsVal.orDefault, JsVal.truthy]
  have h4 : (initialFilter req).occasions = none := by
    rw [initialFilter_occasions]
    simp [Request.withDefaults, ho, JsVal.orDefault, JsVal.truthy]
  have h5 : (initialFilter req).category = none := by
    rw [initialFilter_category]
    cases hcat : req.category <;>
      simp_all [Request.withDefaults, JsVal.orDefault, JsVal.truthy]
  have h6 : (initialFilter req).materials = none := by
    rw [initialFilter_materials]
    cases hmat : req.material <;>
      simp_all [Request.withDefaults, JsVal.orDefault, JsVal.truthy]
  have h7 : (initialFilter req).gender = none := by
    rw [initialFilter_gender]
    cases hgen : req.gender <;>
      simp_all [Request.withDefaults, JsVal.orDefault, JsVal.truthy, JsVal.toJsString]
  have h8 : (initialFilter req).colorsOr = none := by
    rw [initialFilter_colorsOr, hcol]
    simp
  cases hq : initialFilter req with
  | mk inStock price style occasions category materials gender colorsOr =>
    rw [hq] at h1 h2 h3 h4 h5 h6 h7 h8
    simp only at h1 h2 h3 h4 h5 h6 h7 h8
    subst h1 h2 h3 h4 h5 h6 h7 h8
    rfl

theorem initialFilter_unknown_values :
    "birthday" ∉ occasionEnum ∧ "wood" ∉ materialEnum ∧
      (initialFilter unknownValuesRequest).occasions = some (JsVal.str "birthday") ∧
      (initialFilter unknownValuesRequest).materials = some (JsVal.str "wood") := by
  decide

theorem initialFilter_unknown_clauses (req : Request) :
    (∀ s, req.gender = JsVal.str s → s ∉ genderEnum → (initialFilter req).gender = none) ∧
    (∀ s, req.occasion = JsVal.str s → s ≠ "" →
      (initialFilter req).occasions = some (JsVal.str s)) ∧
    (∀ s, req.material = JsVal.str s → s ≠ "" →
      (initialFilter req).materials = some (JsVal.str s)) := by
  refine ⟨?_, ?_, ?_⟩
  · intro s hs hmem
    rw [initialFilter_gender]
    have h1 : s ≠ "men" := fun h => hmem (by rw [h]; decide)
    have h2 : s ≠ "women" := fun h => hmem (by rw [h]; decide)
    simp [Request.withDefaults, hs, JsVal.orDefault, JsVal.toJsString, h1, h2]
  · intro s hs hne
    rw [initialFilter_occasions]
    simp [Request.withDefaults, hs, JsVal.orDefault, JsVal.truthy, hne]
  · intro s hs hne
    rw [initialFilter_materials]
    simp [Request.withDefaults, hs, JsVal.orDefault, JsVal.truthy, hne]

/-- C14: the initial filter of `getRecommendations` has the clause
`price <= B` exactly when the normalised budget `convertBudgetRange(budget)` is
a number `B` above 0, and `B` is then the bound; a normalised budget that is
`null`, 0 or negative leaves the filter without a price clause. The filter is
built for every request whose colours hold no name inherited from
`Object.prototype`. -/
theorem price_clause (req : Request) :
    ((∃ initial, initialQuery req = Except.ok initial) ↔
        hasInheritedKey (req.colors.getD []) = false) ∧
      ∀ initial, initialQuery req = Except.ok initial →
        (∀ b, initial.price = some b ↔
          (convertBudgetRange req.withDefaults.budget = JsBudget.num b ∧ b.gtZero = true)) ∧
        (convertBudgetRange req.withDefaults.budget = JsBudget.null → initial.price = none) ∧
        (∀ q : ℚ, q ≤ 0 →
          convertBudgetRange req.withDefaults.budget = JsBudget.num (JsNum.fin q) →
          initial.price = none) := by
  refine ⟨initialQuery_returns_iff req, ?_⟩
  intro initial hq
  obtain ⟨_, hinit⟩ := (initialQuery_ok_iff req initial).1 hq
  subst hinit
  exact initialFilter_price_clause req

/-- C15: for a preference gender that is absent or a string, the initial filter
of `getRecommendations` has a gender clause exactly when the gender is `men` or
`women`; the clause then holds the preference gender and is satisfied exactly by
the items whose gender equals it or is `unisex`. A `unisex` or absent gender
adds no gender clause. The filter is built for every request whose colours hold
no name inherited from `Object.prototype`. -/
theorem gender_clause (req : Request) (hstr : ∀ xs, req.gender ≠ JsVal.arr xs) :
    ((∃ initial, initialQuery req = Except.ok initial) ↔
        hasInheritedKey (req.colors.getD []) = false) ∧
      ∀ initial, initialQuery req = Except.ok initial →
        (initial.gender ≠ none ↔
          (req.gender = JsVal.str "men" ∨ req.gender = JsVal.str "women")) ∧
        (∀ g, initial.gender = some g →
          g = req.gender ∧
            ∀ p : Product, ({ noClauses with gender := some g } : Query).satisfiedBy p = true ↔
              (p.gender = g ∨ p.gender = JsVal.str "unisex")) ∧
        (req.gender = JsVal.str "unisex" ∨ req.gender = JsVal.undefined ∨
            req.gender = JsVal.null → initial.gender = none) := by
  refine ⟨initialQuery_returns_iff req, ?_⟩
  intro initial hq
  obtain ⟨_, hinit⟩ := (initialQuery_ok_iff req initial).1 hq
  subst hinit
  exact initialFilter_gender_clause req hstr

theorem gender_clause_witness :
    (∀ xs, sampleRequest.gender ≠ JsVal.arr xs) ∧
      initialQuery sampleRequest = Except.ok (initialFilter sampleRequest) ∧
      (initialFilter sampleRequest).gender = some (JsVal.str "women") ∧
      ∀ initial, initialQuery sampleRequest = Except.ok initial →
        (initial.gender ≠ none ↔
          (sampleRequest.gender = JsVal.str "men" ∨ sampleRequest.gender = JsVal.str "women")) ∧
        (∀ g, initial.gender = some g →
          g = sampleRequest.gender ∧
            ∀ p : Product, ({ noClauses with gender := some g } : Query).satisfiedBy p = true ↔
              (p.gender = g ∨ p.gender = JsVal.str "unisex")) ∧
        (sampleRequest.gender = JsVal.str "unisex" ∨ sampleRequest.gender = JsVal.undefined ∨
            sampleRequest.gender = JsVal.null → initial.gender = none) :=
  ⟨(fun xs h => by cases h), initialQuery_ok sampleRequest (by decide), (by decide),
    (gender_clause sampleRequest (fun xs h => by cases h)).2⟩

/-- C16, evaluated on the code: for every request whose colours hold no name
inherited from `Object.prototype`, the initial filter of `getRecommendations`
has a colour clause exactly when the list of preference colours is not empty;
the clause holds the preference colours and the colours `getComplementaryColors`
returns for them, and an item satisfies it exactly when one of its colours is a
preference colour or one of its colours is among those complementary colours.
For the non-empty colour list `["constructor"]` there is no colour clause and no
filter: `getComplementaryColors` raises before the clause is set, no query is
issued and the `catch` block returns the empty list; so it is for every colour
list holding an inherited name. -/
theorem color_clause :
    constructorRequest.colors = some ["constructor"] ∧
      initialQuery constructorRequest = Except.error notIterable ∧
      (∀ find : Catalog,
        (getRecommendations find constructorRequest).queries = [] ∧
          (getRecommendationsBody find constructorRequest).result =
            Except.error notIterable ∧
          (getRecommendations find constructorRequest).result = Except.ok []) ∧
      (∀ req : Request, hasInheritedKey (req.colors.getD []) = true →
        req.colors.getD [] ≠ [] ∧ initialQuery req = Except.error notIterable ∧
          ∀ find : Catalog, (getRecommendations find req).queries = [] ∧
            (getRecommendations find req).result = Except.ok []) ∧
      (∀ req : Request, hasInheritedKey (req.colors.getD []) = false →
        ∃ initial, initialQuery req = Except.ok initial ∧
          (initial.colorsOr ≠ none ↔ req.colors.getD [] ≠ []) ∧
          (∀ clause, initial.colorsOr = some clause →
            ∃ complementary,
              getComplementaryColors (req.colors.getD []) = Except.ok complementary ∧
              clause = (req.colors.getD [], complementary) ∧
              ∀ p : Product,
                ({ noClauses with colorsOr := some clause } : Query).satisfiedBy p = true ↔
                  ((∃ c ∈ p.colors, c ∈ req.colors.getD []) ∨
                    (∃ c ∈ p.colors, c ∈ complementary)))) := by
  have hc : hasInheritedKey (constructorRequest.colors.getD []) = true := by decide
  refine ⟨rfl, initialQuery_raise constructorRequest hc, ?_, ?_, ?_⟩
  · intro find
    exact ⟨(getRecommendations_raise find constructorRequest hc).1,
      (getRecommendationsBody_raise find constructorRequest hc).2.2,
      (getRecommendations_raise find constructorRequest hc).2.2⟩
  · intro req hkey
    refine ⟨hasInheritedKey_ne_nil hkey, initialQuery_raise req hkey, ?_⟩
    intro find
    exact ⟨(getRecommendations_raise find req hkey).1, (getRecommendations_raise find req hkey).2.2⟩
  · intro req hkey
    obtain ⟨h1, h2⟩ := initialFilter_color_clause req
    refine ⟨initialFilter req, initialQuery_ok req hkey, h1, ?_⟩
    intro clause hclause
    obtain ⟨h3, h4⟩ := h2 clause hclause
    refine ⟨complementsOf (req.colors.getD []), ?_, h3, h4⟩
    rw [getComplementaryColors_eq, hkey]
    rfl

/-- C17 as stated fails: with every preference omitted, the parameter defaults
of `getRecommendations` (occasion `daily`, style `modern`, budget 10000) put a
price, a style and an occasions clause next to the in-stock clause. -/
theorem omitted_preferences_add_clauses :
    initialQuery omittedRequest ≠ Except.ok inStockOnly ∧
      initialQuery omittedRequest =
        Except.ok
          { inStockOnly with
            price := some (JsNum.fin 10000)
            style := some (JsVal.str "modern")
            occasions := some (JsVal.str "daily") } := by
  have h := initialQuery_ok omittedRequest (by decide)
  obtain ⟨h1, h2⟩ := initialFilter_omitted
  constructor
  · rw [h]
    intro heq
    injection heq with heq
    exact h1 heq
  · rw [h, h2]

/-- C17, amended: when budget, occasion and style are `null` rather than
omitted, and there is no material, no category, no gender and no colour, the
initial filter of `getRecommendations` holds the in-stock clause only. -/
theorem only_in_stock_clause (req : Request) (hb : req.budget = JsBudget.null)
    (ho : req.occasion = JsVal.null) (hs : req.style = JsVal.null)
    (hm : req.material.truthy = false) (hc : req.category.truthy = false)
    (hg : req.gender.truthy = false) (hcol : req.colors.getD [] = []) :
    initialQuery req = Except.ok inStockOnly := by
  rw [initialQuery_ok req (by rw [hcol]; rfl),
    initialFilter_only_in_stock req hb ho hs hm hc hg hcol]

theorem only_in_stock_clause_witness : initialQuery nullRequest = Except.ok inStockOnly :=
  only_in_stock_clause nullRequest rfl rfl rfl rfl rfl rfl rfl

theorem getRecommendations_returns (find : Catalog) (req : Request) :
    ∃ recs, (getRecommendations find req).result = Except.ok recs :=
  ⟨_, getRecommendations_result find req⟩

/-- C18 as stated fails: an occasion and a material outside their enumerations
are not treated as absent; each keeps its clause in the initial filter. -/
theorem unknown_occasion_and_material_keep_clauses :
    "birthday" ∉ occasionEnum ∧ "wood" ∉ materialEnum ∧
      ∃ initial, initialQuery unknownValuesRequest = Except.ok initial ∧
        initial.occasions = some (JsVal.str "birthday") ∧
        initial.materials = some (JsVal.str "wood") := by
  obtain ⟨h1, h2, h3, h4⟩ := initialFilter_unknown_values
  exact ⟨h1, h2, initialFilter unknownValuesRequest,
    initialQuery_ok unknownValuesRequest (by decide), h3, h4⟩

/-- C18, amended: a gender string outside `men`, `women`, `unisex` is treated
as absent (no gender clause); an occasion or material outside its enumeration is
not: every non-empty occasion or material string, known or not, puts its clause
in the initial filter with that value; and in no case is the request rejected:
`getRecommendations` returns a list. The filter is built for every request whose
colours hold no name inherited from `Object.prototype`. -/
theorem unknown_values_in_filter (req : Request) :
    ((∃ initial, initialQuery req = Except.ok initial) ↔
        hasInheritedKey (req.colors.getD []) = false) ∧
    (∀ initial, initialQuery req = Except.ok initial →
      (∀ s, req.gender = JsVal.str s → s ∉ genderEnum → initial.gender = none) ∧
      (∀ s, req.occasion = JsVal.str s → s ≠ "" →
        initial.occasions = some (JsVal.str s)) ∧
      (∀ s, req.material = JsVal.str s → s ≠ "" →
        initial.materials = some (JsVal.str s))) ∧
    (∀ find : Catalog, ∃ recs, (getRecommendations find req).result = Except.ok recs) := by
  refine ⟨initialQuery_returns_iff req, ?_, fun find => getRecommendations_returns find req⟩
  intro initial hq
  obtain ⟨_, hinit⟩ := (initialQuery_ok_iff req initial).1 hq
  subst hinit
  exact initialFilter_unknown_clauses req

/-! ## The sampling loop and the label counts -/

theorem countLoop_range (data : List Nat) :
    ∀ (m j : Nat) (acc : List (String × Nat)), j + m = (data.length + 11) / 12 →
      countLoop data (12 * j) acc =
        ((List.range' j m).map (fun k =>
          getColorGroupAt (data.getD (12 * k) 0) data[12 * k + 1]? data[12 * k + 2]?)).foldl
          countColor acc := by
  intro m
  induction m with
  | zero =>
    intro j acc h
    have hge : ¬ 12 * j < data.length := by omega
    rw [countLoop, dif_neg hge]
    rfl
  | succ m ih =>
    intro j acc h
    have hlt : 12 * j < data.length := by omega
    rw [countLoop, dif_pos hlt]
    simp only [List.range'_succ, List.map_cons, List.foldl_cons]
    have hidx : data.getD (12 * j) 0 = data[12 * j] := by
      rw [List.getD_eq_getElem?_getD, List.getElem?_eq_getElem hlt]; rfl
    rw [hidx]
    have := ih (j + 1) (countColor acc (getColorGroupAt data[12 * j] data[12 * j + 1]?
      data[12 * j + 2]?)) (by omega)
    rw [show 12 * (j + 1) = 12 * j + 12 by ring] at this
    exact this

theorem countLoop_eq_foldl (data : List Nat) :
    countLoop data 0 [] = (sampledLabels data).foldl countColor [] := by
  have := countLoop_range data ((data.length + 11) / 12) 0 [] (by omega)
  rw [Nat.mul_zero] at this
  rw [this, sampledLabels, List.range_eq_range']

theorem newSet_append_singleton (xs : List String) (x : String) :
    newSet (xs ++ [x]) = if x ∈ xs then newSet xs else newSet xs ++ [x] := by
  unfold newSet
  rw [List.foldl_append]
  simp only [List.foldl_cons, List.foldl_nil]
  have hmem := mem_newSet xs x
  unfold newSet at hmem
  by_cases hx : x ∈ xs
  · have hc : (List.foldl (fun acc x => if acc.contains x = true then acc else acc ++ [x]) []
        xs).contains x = true := by simpa using hmem.2 hx
    rw [if_pos hc, if_pos hx]
  · have hc : ¬ (List.foldl (fun acc x => if acc.contains x = true then acc else acc ++ [x]) []
        xs).contains x = true := by
      intro h
      exact hx (hmem.1 (by simpa using h))
    rw [if_neg hc, if_neg hx]




theorem readCount_map (keys : List String) (f : String → Nat) (x : String) :
    readCount (keys.map (fun k => (k, f k))) x = if x ∈ keys then some (f x) else none := by
  unfold readCount
  induction keys with
  | nil => simp
  | cons k ks ih =>
    simp only [List.map_cons, List.find?_cons]
    by_cases hk : k = x
    · subst hk
      simp
    · have hb : (k == x) = false := by simpa using hk
      simp only [hb]
      rw [ih]
      have hne : x ≠ k := fun h => hk h.symm
      simp [hne]

theorem writeCount_map (keys : List String) (f : String → Nat) (x : String) (v : Nat) :
    writeCount (keys.map (fun k => (k, f k))) x v =
      if x ∈ keys then keys.map (fun k => (k, if k = x then v else f k))
      else keys.map (fun k => (k, f k)) ++ [(x, v)] := by
  unfold writeCount
  have hany : (keys.map (fun k => (k, f k))).any (fun entry => entry.1 == x) = true ↔
      x ∈ keys := by
    simp [List.any_eq_true]
  by_cases hx : x ∈ keys
  · rw [if_pos (hany.2 hx), if_pos hx, List.map_map]
    apply List.map_congr_left
    intro k _
    by_cases hk : k = x
    · simp [hk]
    · simp [hk]
  · rw [if_neg (fun h => hx (hany.1 h)), if_neg hx]

theorem foldl_countColor (labels : List String) :
    labels.foldl countColor [] = (newSet labels).map (fun k => (k, labels.count k)) := by
  induction labels using List.reverseRecOn with
  | nil => rfl
  | append_singleton l x ih =>
    rw [List.foldl_append, List.foldl_cons, List.foldl_nil, ih, newSet_append_singleton]
    unfold countColor
    rw [readCount_map, writeCount_map]
    simp only [mem_newSet]
    by_cases hx : x ∈ l
    · simp only [hx, if_true, Option.getD_some]
      apply List.map_congr_left
      intro k _
      by_cases hk : k = x
      · subst hk; simp
      · have : ¬ x = k := fun h => hk h.symm
        simp [hk, List.count_append, this]
    · simp only [hx, if_false, Option.getD_none, List.map_append, List.map_cons, List.map_nil]
      congr 1
      · apply List.map_congr_left
        intro k hk
        have hkl : k ∈ l := (mem_newSet l k).1 hk
        have hne : k ∉ [x] := by
          intro h
          rw [List.mem_singleton] at h
          exact hx (h ▸ hkl)
        simp [List.count_append, List.count_eq_zero_of_not_mem hne]
      · simp [List.count_append, List.count_eq_zero_of_not_mem hx]

theorem newSet_order (labels : List String) :
    ∀ x y, List.Sublist [x, y] (newSet labels) → labels.indexOf x < labels.indexOf y := by
  induction labels using List.reverseRecOn with
  | nil =>
    intro x y h
    have : newSet [] = [] := rfl
    rw [this] at h
    cases h
  | append_singleton l a ih =>
    intro x y h
    rw [newSet_append_singleton] at h
    by_cases ha : a ∈ l
    · rw [if_pos ha] at h
      have hx : x ∈ l := (mem_newSet l x).1 (h.subset (by simp))
      have hy : y ∈ l := (mem_newSet l y).1 (h.subset (by simp))
      rw [List.indexOf_append_of_mem hx, List.indexOf_append_of_mem hy]
      exact ih x y h
    · rw [if_neg ha] at h
      obtain ⟨l₁, l₂, hsplit, h1, h2⟩ := List.sublist_append_iff.1 h
      have hl2 : l₂.length ≤ 1 := by simpa using h2.length_le
      match l₂, hsplit, h2, hl2 with
      | [], hsplit, _, _ =>
        rw [List.append_nil] at hsplit
        subst hsplit
        have hx : x ∈ l := (mem_newSet l x).1 (h1.subset (by simp))
        have hy : y ∈ l := (mem_newSet l y).1 (h1.subset (by simp))
        rw [List.indexOf_append_of_mem hx, List.indexOf_append_of_mem hy]
        exact ih x y h1
      | [b], hsplit, h2, _ =>
        have hb : b = a := by simpa using h2
        subst hb
        have hl1 : l₁ = [x] ∧ y = b := by
          match l₁, hsplit with
          | [], hs => simp at hs
          | [c], hs =>
            simp only [List.singleton_append, List.cons.injEq, and_true] at hs
            exact ⟨by rw [hs.1], hs.2⟩
          | _ :: _ :: _, hs => simp at hs
        obtain ⟨hl1, hy⟩ := hl1
        subst hl1 hy
        have hx : x ∈ l := (mem_newSet l x).1 (h1.subset (by simp))
        rw [List.indexOf_append_of_mem hx, List.indexOf_append_of_not_mem ha]
        have := List.indexOf_lt_length.2 hx
        simp
        omega
      | _ :: _ :: _, _, _, hl2 => simp at hl2




theorem topColors_counts (labels : List String) :
    topColors ((newSet labels).map (fun k => (k, labels.count k))) =
      ((newSet labels).insertionSort (fun a b => labels.count a ≥ labels.count b)).take 3 := by
  unfold topColors
  rw [← List.map_insertionSort (fun a b => labels.count a ≥ labels.count b)
    (fun a b : String × Nat => a.2 ≥ b.2) (fun k => (k, labels.count k)) (newSet labels)
    (fun a _ b _ => Iff.rfl)]
  rw [← List.map_take, List.map_map]
  exact List.map_id _

theorem pair_sublist_or {α : Type} (l : List α) (x y : α) (hx : x ∈ l) (hy : y ∈ l)
    (hne : x ≠ y) : List.Sublist [x, y] l ∨ List.Sublist [y, x] l := by
  induction l with
  | nil => cases hx
  | cons a t ih =>
    by_cases hxa : x = a
    · subst hxa
      have hyt : y ∈ t := by
        rcases List.mem_cons.1 hy with h | h
        · exact absurd h.symm hne
        · exact h
      exact Or.inl (List.Sublist.cons₂ _ (List.singleton_sublist.2 hyt))
    · have hxt : x ∈ t := by
        rcases List.mem_cons.1 hx with h | h
        · exact absurd h hxa
        · exact h
      by_cases hya : y = a
      · subst hya
        exact Or.inr (List.Sublist.cons₂ _ (List.singleton_sublist.2 hxt))
      · have hyt : y ∈ t := by
          rcases List.mem_cons.1 hy with h | h
          · exact absurd h hya
          · exact h
        rcases ih hxt hyt with h | h
        · exact Or.inl (List.Sublist.cons _ h)
        · exact Or.inr (List.Sublist.cons _ h)

theorem pair_sublist_asymm {α : Type} (l : List α) (hl : l.Nodup) (x y : α)
    (h1 : List.Sublist [x, y] l) (h2 : List.Sublist [y, x] l) : False := by
  have hxy : x ≠ y := List.pairwise_iff_forall_sublist.1 hl h1
  induction l with
  | nil => cases h1
  | cons a t ih =>
    have hat : a ∉ t := (List.nodup_cons.1 hl).1
    have hnt : t.Nodup := (List.nodup_cons.1 hl).2
    cases h1 with
    | cons _ h1' =>
      cases h2 with
      | cons _ h2' => exact ih hnt h1' h2'
      | cons₂ _ h2' =>
        -- y = a, and y occurs in t through h1'
        exact hat (h1'.subset (by simp))
    | cons₂ _ h1' =>
      cases h2 with
      | cons _ h2' => exact hat (h2'.subset (by simp))
      | cons₂ _ h2' => exact hxy rfl


theorem topColors_countLoop (data : List Nat) :
    topColors (countLoop data 0 []) =
      ((newSet (sampledLabels data)).insertionSort
        (fun a b => (sampledLabels data).count a ≥ (sampledLabels data).count b)).take 3 := by
  rw [countLoop_eq_foldl, foldl_countColor, topColors_counts]

theorem extractColorsFromBuffer_ok {α : Type} (decode : Decoder α) (buffer : α) (data : List Nat)
    (h : decode buffer = Except.ok data) :
    extractColorsFromBuffer decode buffer = Except.ok (topColors (countLoop data 0 [])) := by
  unfold extractColorsFromBuffer
  rw [h]

theorem extractColors_ok {α : Type} (decode : Decoder α) (imagePath : α) (data : List Nat)
    (h : decode imagePath = Except.ok data) :
    extractColors decode imagePath = Except.ok (topColors (countLoop data 0 [])) := by
  unfold extractColors
  rw [h]

/-- The ranking facts of the three most frequent labels of a list of samples. -/
theorem ranked_labels (samples : List String) :
    (((newSet samples).insertionSort
        (fun a b => samples.count a ≥ samples.count b)).take 3).Nodup ∧
      (((newSet samples).insertionSort
        (fun a b => samples.count a ≥ samples.count b)).take 3).Pairwise
          (fun a b => samples.count a ≥ samples.count b) ∧
      (∀ a ∈ ((newSet samples).insertionSort
          (fun a b => samples.count a ≥ samples.count b)).take 3,
        ∀ b ∈ samples, b ∉ ((newSet samples).insertionSort
          (fun a b => samples.count a ≥ samples.count b)).take 3 →
          samples.count b ≤ samples.count a ∧
            (samples.count a = samples.count b → samples.indexOf a < samples.indexOf b)) ∧
      (((newSet samples).insertionSort
        (fun a b => samples.count a ≥ samples.count b)).take 3).Pairwise
          (fun a b => samples.count a = samples.count b →
            samples.indexOf a < samples.indexOf b) := by
  haveI : IsTotal String (fun a b => samples.count a ≥ samples.count b) :=
    ⟨fun a b => Nat.le_total _ _⟩
  haveI : IsTrans String (fun a b => samples.count a ≥ samples.count b) :=
    ⟨fun a b c hab hbc => Nat.le_trans hbc hab⟩
  set r : String → String → Prop := fun a b => samples.count a ≥ samples.count b with hr
  set sorted := (newSet samples).insertionSort r with hsorted
  have hperm : sorted.Perm (newSet samples) := List.perm_insertionSort r _
  have hnodup : sorted.Nodup := hperm.nodup_iff.2 (newSet_nodup samples)
  have hsort : sorted.Pairwise r := List.sorted_insertionSort r _
  -- a pair in sorted order with equal counts was already in that order when first seen
  have hstable : ∀ a b, List.Sublist [a, b] sorted → samples.count a = samples.count b →
      samples.indexOf a < samples.indexOf b := by
    intro a b hab hcount
    have ha : a ∈ newSet samples := hperm.mem_iff.1 (hab.subset (by simp))
    have hb : b ∈ newSet samples := hperm.mem_iff.1 (hab.subset (by simp))
    have hne : a ≠ b := List.pairwise_iff_forall_sublist.1 hnodup hab
    rcases pair_sublist_or (newSet samples) a b ha hb hne with h | h
    · exact newSet_order samples a b h
    · exfalso
      have hba : r b a := by
        show samples.count b ≥ samples.count a
        omega
      have h' : List.Sublist [b, a] sorted := List.pair_sublist_insertionSort hba h
      exact pair_sublist_asymm sorted hnodup a b hab h'
  have htake : List.Sublist (sorted.take 3) sorted := List.take_sublist 3 sorted
  refine ⟨hnodup.sublist htake, hsort.sublist htake, ?_, ?_⟩
  · intro a ha b hb hnot
    have hbs : b ∈ sorted := hperm.mem_iff.2 ((mem_newSet samples b).2 hb)
    have hbd : b ∈ sorted.drop 3 := by
      rw [← List.take_append_drop 3 sorted] at hbs
      rcases List.mem_append.1 hbs with h | h
      · exact absurd h hnot
      · exact h
    have hsub : List.Sublist [a, b] sorted := by
      have h1 : List.Sublist [a] (sorted.take 3) := List.singleton_sublist.2 ha
      have h2 : List.Sublist [b] (sorted.drop 3) := List.singleton_sublist.2 hbd
      have := h1.append h2
      rwa [List.take_append_drop] at this
    exact ⟨List.pairwise_iff_forall_sublist.1 hsort hsub, hstable a b hsub⟩
  · rw [List.pairwise_iff_forall_sublist]
    intro a b hab
    exact hstable a b (hab.trans htake)

theorem getColorGroup_mem_vocabulary (r g b : Nat) : getColorGroup r g b ∈ colorVocabulary := by
  simp only [getColorGroup]
  split_ifs <;> decide

theorem getColorGroupAt_mem_vocabulary (r : Nat) (g b : Option Nat) :
    getColorGroupAt r g b ∈ colorVocabulary := by
  have hn : "neutral" ∈ colorVocabulary := by decide
  unfold getColorGroupAt
  cases g with
  | none => exact hn
  | some g =>
    cases b with
    | none => exact hn
    | some b => exact getColorGroup_mem_vocabulary r g b

theorem sampledLabels_mem_vocabulary (data : List Nat) (l : String)
    (h : l ∈ sampledLabels data) : l ∈ colorVocabulary := by
  unfold sampledLabels at h
  obtain ⟨k, _, rfl⟩ := List.mem_map.1 h
  exact getColorGroupAt_mem_vocabulary _ _ _

theorem sampledLabels_ne_nil (data : List Nat) (h : data ≠ []) : sampledLabels data ≠ [] := by
  have hlen : 0 < data.length := List.length_pos.2 h
  intro hnil
  have := congrArg List.length hnil
  unfold sampledLabels at this
  rw [List.length_map, List.length_range, List.length_nil] at this
  omega

/-! ## Dominant colours -/

/-- C11: for every decoded pixel buffer, the labels returned by
`extractColorsFromBuffer` (and `extractColors`) are pairwise distinct and
listed most frequent first. With the count of a label taken over the sampled
pixels: counts do not increase along the list; a label that was counted but is
not returned has a count no greater than any returned label; and of two labels
with equal counts the one first sampled earlier in the buffer comes first (and
is the one returned when only one of them is). -/
theorem dominant_colors_ranked {α : Type} (decode : Decoder α) (buffer : α) (data : List Nat)
    (h : decode buffer = Except.ok data) :
    ∃ labels, extractColorsFromBuffer decode buffer = Except.ok labels ∧
      extractColors decode buffer = Except.ok labels ∧
      labels.Nodup ∧
      labels.Pairwise
        (fun a b => (sampledLabels data).count a ≥ (sampledLabels data).count b) ∧
      (∀ a ∈ labels, ∀ b ∈ sampledLabels data, b ∉ labels →
        (sampledLabels data).count b ≤ (sampledLabels data).count a ∧
          ((sampledLabels data).count a = (sampledLabels data).count b →
            (sampledLabels data).indexOf a < (sampledLabels data).indexOf b)) ∧
      labels.Pairwise
        (fun a b => (sampledLabels data).count a = (sampledLabels data).count b →
          (sampledLabels data).indexOf a < (sampledLabels data).indexOf b) := by
  refine ⟨topColors (countLoop data 0 []), extractColorsFromBuffer_ok decode buffer data h,
    extractColors_ok decode buffer data h, ?_⟩
  rw [topColors_countLoop]
  exact ranked_labels (sampledLabels data)

theorem dominant_colors_ranked_witness :
    ∃ labels, extractColorsFromBuffer (decodeAs twoPixelData) ([] : List Nat) =
        Except.ok labels ∧
      extractColors (decodeAs twoPixelData) ([] : List Nat) = Except.ok labels ∧
      labels.Nodup ∧
      labels.Pairwise
        (fun a b => (sampledLabels twoPixelData).count a ≥ (sampledLabels twoPixelData).count b) ∧
      (∀ a ∈ labels, ∀ b ∈ sampledLabels twoPixelData, b ∉ labels →
        (sampledLabels twoPixelData).count b ≤ (sampledLabels twoPixelData).count a ∧
          ((sampledLabels twoPixelData).count a = (sampledLabels twoPixelData).count b →
            (sampledLabels twoPixelData).indexOf a < (sampledLabels twoPixelData).indexOf b)) ∧
      labels.Pairwise
        (fun a b => (sampledLabels twoPixelData).count a = (sampledLabels twoPixelData).count b →
          (sampledLabels twoPixelData).indexOf a < (sampledLabels twoPixelData).indexOf b) :=
  dominant_colors_ranked (decodeAs twoPixelData) [] twoPixelData rfl

/-- C12: for every pixel buffer that holds at least one byte, as every buffer
decoded at 100 by 100 pixels does, the counting and top-3 selection of
`extractColorsFromBuffer` and `extractColors` returns between 1 and 3 labels,
each of them in the fixed vocabulary of colour labels. -/
theorem classification_labels {α : Type} (decode : Decoder α) (buffer : α) (data : List Nat)
    (h : decode buffer = Except.ok data) (hdata : data ≠ []) :
    ∃ labels, extractColorsFromBuffer decode buffer = Except.ok labels ∧
      extractColors decode buffer = Except.ok labels ∧
      1 ≤ labels.length ∧ labels.length ≤ 3 ∧ ∀ l ∈ labels, l ∈ colorVocabulary := by
  refine ⟨topColors (countLoop data 0 []), extractColorsFromBuffer_ok decode buffer data h,
    extractColors_ok decode buffer data h, ?_⟩
  rw [topColors_countLoop]
  have hne : newSet (sampledLabels data) ≠ [] := by
    intro hnil
    obtain ⟨x, hx⟩ := List.exists_mem_of_ne_nil _ (sampledLabels_ne_nil data hdata)
    have := (mem_newSet (sampledLabels data) x).2 hx
    rw [hnil] at this
    cases this
  have hlen : 0 < (newSet (sampledLabels data)).length := List.length_pos.2 hne
  refine ⟨?_, ?_, ?_⟩
  · rw [List.length_take, List.length_insertionSort]
    omega
  · rw [List.length_take]
    omega
  · intro l hl
    have h1 := List.mem_of_mem_take hl
    have h2 := (List.perm_insertionSort _ _).mem_iff.1 h1
    exact sampledLabels_mem_vocabulary data l ((mem_newSet _ l).1 h2)

theorem classification_labels_witness :
    ∃ labels, extractColorsFromBuffer (decodeAs (List.replicate 30000 0)) ([] : List Nat) =
        Except.ok labels ∧
      extractColors (decodeAs (List.replicate 30000 0)) ([] : List Nat) = Except.ok labels ∧
      1 ≤ labels.length ∧ labels.length ≤ 3 ∧ ∀ l ∈ labels, l ∈ colorVocabulary :=
  classification_labels (decodeAs (List.replicate 30000 0)) [] (List.replicate 30000 0) rfl
    (by
      intro hnil
      have hlen := congrArg List.length hnil
      rw [List.length_replicate, List.length_nil] at hlen
      omega)

/-- C13: when decoding the input fails, `extractColors` and
`extractColorsFromBuffer` raise nothing to the caller and return exactly the
one-element list `["neutral"]`. -/
theorem decode_failure_gives_neutral {α : Type} (decode : Decoder α) (input : α) (e : String)
    (h : decode input = Except.error e) :
    extractColors decode input = Except.ok ["neutral"] ∧
      extractColorsFromBuffer decode input = Except.ok ["neutral"] := by
  unfold extractColors extractColorsFromBuffer
  rw [h]
  exact ⟨rfl, rfl⟩

theorem decode_failure_gives_neutral_witness :
    extractColors failingDecoder ([] : List Nat) = Except.ok ["neutral"] ∧
      extractColorsFromBuffer failingDecoder ([] : List Nat) = Except.ok ["neutral"] :=
  decode_failure_gives_neutral failingDecoder [] "unsupported image format" rfl

/-! ## Budget normalisation -/

theorem toNat_ofNat_small (m : Nat) (hm : m < 55296) : (Char.ofNat m).toNat = m := by
  have hv : m.isValidChar := Or.inl hm
  unfold Char.ofNat
  rw [dif_pos hv]
  simp [Char.ofNatAux, Char.toNat, UInt32.toNat]

/-- A character whose lower-case form is the small letter of code `n` is that
letter or its capital. -/
theorem toLower_eq_letter (c : Char) (n : Nat) (hn : 97 ≤ n ∧ n ≤ 122)
    (h : c.toLower = Char.ofNat n) : c = Char.ofNat n ∨ c = Char.ofNat (n - 32) := by
  unfold Char.toLower at h
  simp only at h
  by_cases hup : c.toNat ≥ 65 ∧ c.toNat ≤ 90
  · rw [if_pos hup] at h
    right
    have h2 := congrArg Char.toNat h
    rw [toNat_ofNat_small _ (by omega), toNat_ofNat_small _ (by omega)] at h2
    have h3 : n - 32 = c.toNat := by omega
    rw [h3, Char.ofNat_toNat]
  · rw [if_neg hup] at h
    exact Or.inl h

theorem map_eq_cons_split {f : Char → Char} {cs : List Char} {x : Char} {xs : List Char}
    (h : cs.map f = x :: xs) : ∃ a t, cs = a :: t ∧ f a = x ∧ t.map f = xs := by
  cases cs with
  | nil => cases h
  | cons a t =>
    simp only [List.map_cons, List.cons.injEq] at h
    exact ⟨a, t, rfl, h.1, h.2⟩

theorem lower_low (s : String) (h : toLowerCase s = "low") :
    ∃ a b c, s = String.mk [a, b, c] ∧ (a = Char.ofNat 108 ∨ a = Char.ofNat 76) ∧
      (b = Char.ofNat 111 ∨ b = Char.ofNat 79) ∧ (c = Char.ofNat 119 ∨ c = Char.ofNat 87) := by
  rcases s with ⟨cs⟩
  have h' : cs.map Char.toLower = [Char.ofNat 108, Char.ofNat 111, Char.ofNat 119] := by
    have := congrArg String.data h
    exact this
  obtain ⟨a, t, rfl, ha, h'⟩ := map_eq_cons_split h'
  obtain ⟨b, t, rfl, hb, h'⟩ := map_eq_cons_split h'
  obtain ⟨c, t, rfl, hc, h'⟩ := map_eq_cons_split h'
  have ht : t = [] := List.map_eq_nil_iff.1 h'
  subst ht
  exact ⟨a, b, c, rfl, toLower_eq_letter a 108 (by omega) ha,
    toLower_eq_letter b 111 (by omega) hb, toLower_eq_letter c 119 (by omega) hc⟩

theorem lower_high (s : String) (h : toLowerCase s = "high") :
    ∃ a b c d, s = String.mk [a, b, c, d] ∧ (a = Char.ofNat 104 ∨ a = Char.ofNat 72) ∧
      (b = Char.ofNat 105 ∨ b = Char.ofNat 73) ∧ (c = Char.ofNat 103 ∨ c = Char.ofNat 71) ∧
      (d = Char.ofNat 104 ∨ d = Char.ofNat 72) := by
  rcases s with ⟨cs⟩
  have h' : cs.map Char.toLower =
      [Char.ofNat 104, Char.ofNat 105, Char.ofNat 103, Char.ofNat 104] := by
    have := congrArg String.data h
    exact this
  obtain ⟨a, t, rfl, ha, h'⟩ := map_eq_cons_split h'
  obtain ⟨b, t, rfl, hb, h'⟩ := map_eq_cons_split h'
  obtain ⟨c, t, rfl, hc, h'⟩ := map_eq_cons_split h'
  obtain ⟨d, t, rfl, hd, h'⟩ := map_eq_cons_split h'
  have ht : t = [] := List.map_eq_nil_iff.1 h'
  subst ht
  exact ⟨a, b, c, d, rfl, toLower_eq_letter a 104 (by omega) ha,
    toLower_eq_letter b 105 (by omega) hb, toLower_eq_letter c 103 (by omega) hc,
    toLower_eq_letter d 104 (by omega) hd⟩

theorem lower_medium (s : String) (h : toLowerCase s = "medium") :
    ∃ a b c d e f, s = String.mk [a, b, c, d, e, f] ∧
      (a = Char.ofNat 109 ∨ a = Char.ofNat 77) ∧ (b = Char.ofNat 101 ∨ b = Char.ofNat 69) ∧
      (c = Char.ofNat 100 ∨ c = Char.ofNat 68) ∧ (d = Char.ofNat 105 ∨ d = Char.ofNat 73) ∧
      (e = Char.ofNat 117 ∨ e = Char.ofNat 85) ∧ (f = Char.ofNat 109 ∨ f = Char.ofNat 77) := by
  rcases s with ⟨cs⟩
  have h' : cs.map Char.toLower =
      [Char.ofNat 109, Char.ofNat 101, Char.ofNat 100, Char.ofNat 105, Char.ofNat 117,
        Char.ofNat 109] := by
    have := congrArg String.data h
    exact this
  obtain ⟨a, t, rfl, ha, h'⟩ := map_eq_cons_split h'
  obtain ⟨b, t, rfl, hb, h'⟩ := map_eq_cons_split h'
  obtain ⟨c, t, rfl, hc, h'⟩ := map_eq_cons_split h'
  obtain ⟨d, t, rfl, hd, h'⟩ := map_eq_cons_split h'
  obtain ⟨e, t, rfl, he, h'⟩ := map_eq_cons_split h'
  obtain ⟨f, t, rfl, hf, h'⟩ := map_eq_cons_split h'
  have ht : t = [] := List.map_eq_nil_iff.1 h'
  subst ht
  exact ⟨a, b, c, d, e, f, rfl, toLower_eq_letter a 109 (by omega) ha,
    toLower_eq_letter b 101 (by omega) hb, toLower_eq_letter c 100 (by omega) hc,
    toLower_eq_letter d 105 (by omega) hd, toLower_eq_letter e 117 (by omega) he,
    toLower_eq_letter f 109 (by omega) hf⟩

theorem convertBudgetRange_low (s : String) (h : toLowerCase s = "low") :
    convertBudgetRange (JsBudget.str s) = JsBudget.num (JsNum.fin 10000) := by
  obtain ⟨a, b, c, rfl, ha, hb, hc⟩ := lower_low s h
  rcases ha with rfl | rfl <;> rcases hb with rfl | rfl <;> rcases hc with rfl | rfl <;> decide

theorem convertBudgetRange_high (s : String) (h : toLowerCase s = "high") :
    convertBudgetRange (JsBudget.str s) = JsBudget.num (JsNum.fin 100000) := by
  obtain ⟨a, b, c, d, rfl, ha, hb, hc, hd⟩ := lower_high s h
  rcases ha with rfl | rfl <;> rcases hb with rfl | rfl <;> rcases hc with rfl | rfl <;>
    rcases hd with rfl | rfl <;> decide

theorem convertBudgetRange_medium (s : String) (h : toLowerCase s = "medium") :
    convertBudgetRange (JsBudget.str s) = JsBudget.num (JsNum.fin 50000) := by
  obtain ⟨a, b, c, d, e, f, rfl, ha, hb, hc, hd, he, hf⟩ := lower_medium s h
  rcases ha with rfl | rfl <;> rcases hb with rfl | rfl <;> rcases hc with rfl | rfl <;>
    rcases hd with rfl | rfl <;> rcases he with rfl | rfl <;> rcases hf with rfl | rfl <;>
    decide


/-! ## Decimal numerals -/

theorem digitChar_toNat (d : Nat) (hd : d < 10) : (Nat.digitChar d).toNat = 48 + d := by
  interval_cases d <;> rfl

theorem digitValue_digitChar (d : Nat) (hd : d < 10) :
    digitValue 10 (Nat.digitChar d) = some d := by
  interval_cases d <;> rfl

theorem isDecimalDigit_digitChar (d : Nat) (hd : d < 10) :
    isDecimalDigit (Nat.digitChar d) = true := by
  unfold isDecimalDigit
  rw [digitValue_digitChar d hd]
  rfl

theorem isStrWhiteSpace_digitChar (d : Nat) (hd : d < 10) :
    isStrWhiteSpace (Nat.digitChar d) = false := by
  interval_cases d <;> rfl

theorem digitsValue_fold (digits : List Nat) (hd : ∀ d ∈ digits, d < 10) :
    ∀ a : Nat,
      (digits.map Nat.digitChar).foldl
          (fun acc c =>
            match acc, digitValue 10 c with
            | some a, some d => some (a * 10 + d)
            | _, _ => none)
          (some a) =
        some (a * 10 ^ digits.length + decimalValue digits) := by
  induction digits with
  | nil => intro a; simp [decimalValue]
  | cons d ds ih =>
    intro a
    have hd0 : d < 10 := hd d (List.mem_cons_self _ _)
    have hds : ∀ x ∈ ds, x < 10 := fun x hx => hd x (List.mem_cons_of_mem _ hx)
    rw [List.map_cons, List.foldl_cons, digitValue_digitChar d hd0]
    simp only
    rw [ih hds]
    congr 1
    simp only [decimalValue, List.reverse_cons, Nat.ofDigits_append, Nat.ofDigits_singleton,
      List.length_reverse, List.length_cons]
    ring

theorem digitsValue_decimal (digits : List Nat) (hd : ∀ d ∈ digits, d < 10)
    (hne : digits ≠ []) :
    digitsValue 10 (digits.map Nat.digitChar) = some (decimalValue digits) := by
  unfold digitsValue
  rw [if_neg (by simpa using hne), digitsValue_fold digits hd 0]
  simp

theorem takeWhile_digits (digits : List Nat) (hd : ∀ d ∈ digits, d < 10) :
    (digits.map Nat.digitChar).takeWhile isDecimalDigit = digits.map Nat.digitChar := by
  rw [List.takeWhile_eq_self_iff]
  intro c hc
  obtain ⟨d, hdm, rfl⟩ := List.mem_map.1 hc
  exact isDecimalDigit_digitChar d (hd d hdm)

theorem dropWhile_digits (digits : List Nat) (hd : ∀ d ∈ digits, d < 10) :
    (digits.map Nat.digitChar).dropWhile isDecimalDigit = [] := by
  rw [List.dropWhile_eq_nil_iff]
  intro c hc
  obtain ⟨d, hdm, rfl⟩ := List.mem_map.1 hc
  exact isDecimalDigit_digitChar d (hd d hdm)

theorem dropWhile_space_digits (digits : List Nat) (hd : ∀ d ∈ digits, d < 10) :
    (digits.map Nat.digitChar).dropWhile isStrWhiteSpace = digits.map Nat.digitChar := by
  cases digits with
  | nil => rfl
  | cons d ds =>
    rw [List.map_cons, List.dropWhile_cons,
      isStrWhiteSpace_digitChar d (hd d (List.mem_cons_self _ _))]
    rfl

theorem trim_digits (digits : List Nat) (hd : ∀ d ∈ digits, d < 10) :
    (((digits.map Nat.digitChar).dropWhile isStrWhiteSpace).reverse.dropWhile
      isStrWhiteSpace).reverse = digits.map Nat.digitChar := by
  rw [dropWhile_space_digits digits hd, ← List.map_reverse,
    dropWhile_space_digits digits.reverse (fun d h => hd d (List.mem_reverse.1 h)),
    List.map_reverse, List.reverse_reverse]

theorem parseNonDecimal_digits (digits : List Nat) (hd : ∀ d ∈ digits, d < 10) :
    parseNonDecimal (digits.map Nat.digitChar) = none := by
  match digits, hd with
  | [], _ => rfl
  | [_], _ => rfl
  | z :: k :: ds, hd =>
    have hk : k < 10 := hd k (by simp)
    have hkn := digitChar_toNat k hk
    simp only [List.map_cons, parseNonDecimal, hkn]
    have h1 : ¬ (48 + k = 120 ∨ 48 + k = 88) := by omega
    have h2 : ¬ (48 + k = 111 ∨ 48 + k = 79) := by omega
    have h3 : ¬ (48 + k = 98 ∨ 48 + k = 66) := by omega
    simp only [h1, h2, h3, if_false, ite_self]

theorem splitSign_digits (digits : List Nat) (hd : ∀ d ∈ digits, d < 10) :
    splitSign (digits.map Nat.digitChar) = (false, digits.map Nat.digitChar) := by
  cases digits with
  | nil => rfl
  | cons d ds =>
    have hn := digitChar_toNat d (hd d (List.mem_cons_self _ _))
    have hd0 : d < 10 := hd d (List.mem_cons_self _ _)
    simp only [List.map_cons, splitSign, hn]
    have h1 : ¬ (48 + d = 43) := by omega
    have h2 : ¬ (48 + d = 45) := by omega
    simp only [h1, h2, if_false]

theorem digits_ne_infinity (digits : List Nat) (hd : ∀ d ∈ digits, d < 10) :
    digits.map Nat.digitChar ≠ "Infinity".toList := by
  cases digits with
  | nil => intro h; cases h
  | cons d ds =>
    intro h
    have hn := digitChar_toNat d (hd d (List.mem_cons_self _ _))
    have hd0 : d < 10 := hd d (List.mem_cons_self _ _)
    have hhead : Nat.digitChar d = 'I' := by
      have := congrArg List.head? h
      simpa using this
    rw [hhead] at hn
    have : ('I' : Char).toNat = 73 := rfl
    omega

theorem parseUnsignedDecimal_digits (digits : List Nat) (hd : ∀ d ∈ digits, d < 10)
    (hne : digits ≠ []) :
    parseUnsignedDecimal (digits.map Nat.digitChar) =
      some (decimalValue digits, 0, false, 0) := by
  unfold parseUnsignedDecimal
  simp only [takeWhile_digits digits hd, dropWhile_digits digits hd]
  have hne' : ¬ (digits.map Nat.digitChar = [] ∧ True) := by
    intro h
    exact hne (List.map_eq_nil_iff.1 h.1)
  rw [if_neg hne']
  simp only [List.append_nil, digitsValue_decimal digits hd hne, Option.getD_some,
    List.length_nil]

theorem parseNumericLiteral_digits (digits : List Nat) (hd : ∀ d ∈ digits, d < 10)
    (hne : digits ≠ []) :
    parseNumericLiteral (decimalNumeral digits) =
      some (NumericLiteral.decimal false (decimalValue digits) 0 false 0) := by
  unfold parseNumericLiteral decimalNumeral
  have hl : (String.mk (digits.map Nat.digitChar)).toList = digits.map Nat.digitChar := rfl
  simp only [hl, trim_digits digits hd]
  have hne' : digits.map Nat.digitChar ≠ [] := fun h => hne (List.map_eq_nil_iff.1 h)
  rw [if_neg hne', parseNonDecimal_digits digits hd]
  simp only
  unfold parseSignedDecimal
  rw [splitSign_digits digits hd]
  simp only
  rw [if_neg (digits_ne_infinity digits hd), parseUnsignedDecimal_digits digits hd hne]

/-- The conversion `Number(s)` of a numeral of decimal digits is the natural
number the digits denote. -/
theorem stringToNumber_digits (digits : List Nat) (hd : ∀ d ∈ digits, d < 10)
    (hne : digits ≠ []) :
    stringToNumber (decimalNumeral digits) = JsNum.fin (decimalValue digits : ℚ) := by
  unfold stringToNumber
  rw [parseNumericLiteral_digits digits hd hne]
  simp [NumericLiteral.value]

theorem convertBudgetRange_digits (digits : List Nat) (hd : ∀ d ∈ digits, d < 10)
    (hne : digits ≠ []) :
    convertBudgetRange (JsBudget.str (decimalNumeral digits)) =
      JsBudget.num (JsNum.fin (decimalValue digits : ℚ)) := by
  unfold convertBudgetRange
  simp only [JsBudget.toNumber, stringToNumber_digits digits hd hne, JsNum.isNaN, if_true]

theorem toDigitsCore_digits (fuel : Nat) :
    ∀ (n : Nat) (acc : List Char), 0 < n → n < fuel →
      Nat.toDigitsCore 10 fuel n acc =
        (Nat.digits 10 n).reverse.map Nat.digitChar ++ acc := by
  induction fuel with
  | zero => intro n acc _ h; omega
  | succ fuel ih =>
    intro n acc hpos hlt
    rw [Nat.toDigitsCore, Nat.digits_def' (by norm_num) hpos]
    simp only [List.reverse_cons, List.map_append, List.map_cons, List.map_nil,
      List.append_assoc, List.singleton_append]
    by_cases h0 : n / 10 = 0
    · rw [if_pos h0, h0]
      simp
    · rw [if_neg h0]
      have hlt' : n / 10 < fuel := by omega
      rw [ih (n / 10) _ (Nat.pos_of_ne_zero h0) hlt']

/-- The decimal numeral Lean prints for a natural number is the numeral of its
digits, most significant first (`0` for the number 0). -/
theorem toString_eq_decimalNumeral (n : Nat) :
    toString n = decimalNumeral (if n = 0 then [0] else (Nat.digits 10 n).reverse) := by
  show (Nat.toDigits 10 n).asString = _
  unfold decimalNumeral
  by_cases h : n = 0
  · subst h
    rfl
  · rw [if_neg h, Nat.toDigits, toDigitsCore_digits (n + 1) n [] (Nat.pos_of_ne_zero h)
      (Nat.lt_succ_self n), List.append_nil]
    rfl

theorem convertBudgetRange_toString (n : Nat) :
    convertBudgetRange (JsBudget.str (toString n)) = JsBudget.num (JsNum.fin (n : ℚ)) := by
  rw [toString_eq_decimalNumeral]
  by_cases h : n = 0
  · subst h
    rw [if_pos rfl, convertBudgetRange_digits [0] (by simp) (by simp)]
    simp [decimalValue]
  · rw [if_neg h, convertBudgetRange_digits]
    · simp [decimalValue, Nat.ofDigits_digits]
    · intro d hd
      exact Nat.digits_lt_base (by norm_num) (List.mem_reverse.1 hd)
    · intro hnil
      apply h
      have := List.reverse_eq_nil_iff.1 hnil
      exact Nat.digits_eq_nil_iff_eq_zero.1 this

theorem budget_examples :
    convertBudgetRange (JsBudget.str "5000") = JsBudget.num (JsNum.fin 5000) ∧
      convertBudgetRange (JsBudget.str "007") = JsBudget.num (JsNum.fin 7) ∧
      convertBudgetRange (JsBudget.str " 42 ") = JsBudget.num (JsNum.fin 42) ∧
      convertBudgetRange (JsBudget.str "-7") = JsBudget.num (JsNum.fin (-7)) ∧
      convertBudgetRange (JsBudget.str "12.5") = JsBudget.num (JsNum.fin (25 / 2)) ∧
      convertBudgetRange (JsBudget.str "1e3") = JsBudget.num (JsNum.fin 1000) ∧
      convertBudgetRange (JsBudget.str "0x1F") = JsBudget.num (JsNum.fin 31) := by
  have h1 : parseNumericLiteral "5000" = some (NumericLiteral.decimal false 5000 0 false 0) := by
    decide
  have h2 : parseNumericLiteral "007" = some (NumericLiteral.decimal false 7 0 false 0) := by
    decide
  have h3 : parseNumericLiteral " 42 " = some (NumericLiteral.decimal false 42 0 false 0) := by
    decide
  have h4 : parseNumericLiteral "-7" = some (NumericLiteral.decimal true 7 0 false 0) := by
    decide
  have h5 : parseNumericLiteral "12.5" = some (NumericLiteral.decimal false 125 1 false 0) := by
    decide
  have h6 : parseNumericLiteral "1e3" = some (NumericLiteral.decimal false 1 0 false 3) := by
    decide
  have h7 : parseNumericLiteral "0x1F" = some (NumericLiteral.integer 31) := by
    decide
  refine ⟨?_, ?_, ?_, ?_, ?_, ?_, ?_⟩ <;>
    simp [convertBudgetRange, JsBudget.toNumber, stringToNumber, h1, h2, h3, h4, h5, h6, h7,
      NumericLiteral.value, JsNum.isNaN] <;> norm_num

/-- C19: `convertBudgetRange` maps the labels `low`, `medium` and `high`, in any
letter case, to the numbers 10000, 50000 and 100000; it maps every finite number
and both infinities to themselves; and it maps every numeric string to the
number it denotes: the decimal numeral of every natural number up to `2 ^ 53`,
every string of decimal digits denoting such a number (leading zeros included),
and, as examples of the other forms, a numeral between blanks, with a sign, with
a fraction, with an exponent and in hexadecimal. A label and a numeral of the
same amount give the same number. -/
theorem convertBudgetRange_labels_and_numbers :
    (∀ s, toLowerCase s = "low" →
      convertBudgetRange (JsBudget.str s) = JsBudget.num (JsNum.fin 10000)) ∧
    (∀ s, toLowerCase s = "medium" →
      convertBudgetRange (JsBudget.str s) = JsBudget.num (JsNum.fin 50000)) ∧
    (∀ s, toLowerCase s = "high" →
      convertBudgetRange (JsBudget.str s) = JsBudget.num (JsNum.fin 100000)) ∧
    (∀ q : ℚ, convertBudgetRange (JsBudget.num (JsNum.fin q)) = JsBudget.num (JsNum.fin q)) ∧
    convertBudgetRange (JsBudget.num JsNum.posInf) = JsBudget.num JsNum.posInf ∧
    convertBudgetRange (JsBudget.num JsNum.negInf) = JsBudget.num JsNum.negInf ∧
    (∀ n : ℕ, n ≤ 2 ^ 53 →
      convertBudgetRange (JsBudget.str (toString n)) = JsBudget.num (JsNum.fin (n : ℚ))) ∧
    (∀ digits : List ℕ, (∀ d ∈ digits, d < 10) → digits ≠ [] → decimalValue digits ≤ 2 ^ 53 →
      convertBudgetRange (JsBudget.str (decimalNumeral digits)) =
        JsBudget.num (JsNum.fin (decimalValue digits : ℚ))) ∧
    (convertBudgetRange (JsBudget.str "5000") = JsBudget.num (JsNum.fin 5000) ∧
      convertBudgetRange (JsBudget.str "007") = JsBudget.num (JsNum.fin 7) ∧
      convertBudgetRange (JsBudget.str " 42 ") = JsBudget.num (JsNum.fin 42) ∧
      convertBudgetRange (JsBudget.str "-7") = JsBudget.num (JsNum.fin (-7)) ∧
      convertBudgetRange (JsBudget.str "12.5") = JsBudget.num (JsNum.fin (25 / 2)) ∧
      convertBudgetRange (JsBudget.str "1e3") = JsBudget.num (JsNum.fin 1000) ∧
      convertBudgetRange (JsBudget.str "0x1F") = JsBudget.num (JsNum.fin 31)) ∧
    convertBudgetRange (JsBudget.str "low") = convertBudgetRange (JsBudget.str "10000") ∧
    convertBudgetRange (JsBudget.str "MEDIUM") =
      convertBudgetRange (JsBudget.num (JsNum.fin 50000)) := by
  have hnum : ∀ n : JsNum, n.isNaN = false →
      convertBudgetRange (JsBudget.num n) = JsBudget.num n := by
    intro n hn
    unfold convertBudgetRange
    rw [if_pos (by exact hn)]
    rfl
  have h10000 : convertBudgetRange (JsBudget.str "10000") = JsBudget.num (JsNum.fin 10000) := by
    have h := convertBudgetRange_toString 10000
    have hs : toString 10000 = "10000" := by decide
    rw [hs] at h
    rw [h]
    norm_num
  refine ⟨convertBudgetRange_low, convertBudgetRange_medium, convertBudgetRange_high,
    fun q => hnum (JsNum.fin q) rfl, hnum JsNum.posInf rfl, hnum JsNum.negInf rfl, fun n _ => convertBudgetRange_toString n,
    fun digits hd hne _ => convertBudgetRange_digits digits hd hne, budget_examples, ?_, ?_⟩
  · rw [convertBudgetRange_low "low" (by decide), h10000]
  · rw [convertBudgetRange_medium "MEDIUM" (by decide), hnum (JsNum.fin 50000) rfl]

/-- C20, evaluated on the code: the empty string and a string of blanks are
neither numeric literals nor labels, yet `convertBudgetRange` returns the number
0 for them, not `null`; for `constructor` it returns a value inherited by the
`budgetMap` object. An unrecognised word such as `xyz` does give `null`. -/
theorem empty_budget_string_gives_zero :
    convertBudgetRange (JsBudget.str "") = JsBudget.num (JsNum.fin 0) ∧
      convertBudgetRange (JsBudget.str "   ") = JsBudget.num (JsNum.fin 0) ∧
      convertBudgetRange (JsBudget.str "constructor") = JsBudget.obj ∧
      convertBudgetRange (JsBudget.str "xyz") = JsBudget.null ∧
      toLowerCase "" ≠ "low" ∧ toLowerCase "" ≠ "medium" ∧ toLowerCase "" ≠ "high" := by
  refine ⟨?_, ?_, ?_, ?_, ?_, ?_, ?_⟩ <;> decide

/-! ## Bounds and monotonicity of the score -/

theorem score_eq_components (item : Product) (prefs : Preferences) :
    scoreValue item prefs =
      colorComponent item prefs + styleComponent item prefs + occasionComponent item prefs +
        materialComponent item prefs + categoryComponent item prefs +
        genderComponent item prefs + priceComponent item prefs := rfl

theorem styleComponent_nat (item : Product) (prefs : Preferences) :
    ∃ n : ℕ, styleComponent item prefs = n ∧ n ≤ 20 := by
  unfold styleComponent
  split_ifs
  · exact ⟨20, by norm_num, le_refl _⟩
  · exact ⟨0, by norm_num, by omega⟩

theorem occasionComponent_nat (item : Product) (prefs : Preferences) :
    ∃ n : ℕ, occasionComponent item prefs = n ∧ n ≤ 15 := by
  unfold occasionComponent
  split_ifs
  · exact ⟨15, by norm_num, le_refl _⟩
  · exact ⟨0, by norm_num, by omega⟩

theorem materialComponent_nat (item : Product) (prefs : Preferences) :
    ∃ n : ℕ, materialComponent item prefs = n ∧ n ≤ 20 := by
  unfold materialComponent
  split_ifs
  · exact ⟨20, by norm_num, le_refl _⟩
  · exact ⟨0, by norm_num, by omega⟩

theorem categoryComponent_nat (item : Product) (prefs : Preferences) :
    ∃ n : ℕ, categoryComponent item prefs = n ∧ n ≤ 10 := by
  unfold categoryComponent
  split_ifs
  · exact ⟨10, by norm_num, le_refl _⟩
  · exact ⟨0, by norm_num, by omega⟩

theorem genderComponent_nat (item : Product) (prefs : Preferences) :
    ∃ n : ℕ, genderComponent item prefs = n ∧ n ≤ 10 := by
  unfold genderComponent
  split_ifs
  · exact ⟨10, by norm_num, le_refl _⟩
  · exact ⟨6, by norm_num, by omega⟩
  · exact ⟨0, by norm_num, by omega⟩
  · exact ⟨0, by norm_num, by omega⟩

theorem priceComponent_nat (item : Product) (prefs : Preferences) :
    ∃ n : ℕ, priceComponent item prefs = n ∧ n ≤ 5 := by
  unfold priceComponent
  split_ifs
  · exact ⟨5, by norm_num, le_refl _⟩
  · exact ⟨3, by norm_num, by omega⟩
  · exact ⟨1, by norm_num, by omega⟩
  · exact ⟨0, by norm_num, by omega⟩

theorem colorComponent_nonneg (item : Product) (prefs : Preferences) :
    0 ≤ colorComponent item prefs := by
  unfold colorComponent
  cases prefs.colors with
  | none => exact le_refl _
  | some colors =>
    simp only
    split_ifs
    · exact le_refl _
    · positivity

theorem scoreValue_bounds (item : Product) (prefs : Preferences) :
    0 ≤ scoreValue item prefs ∧
      styleComponent item prefs + occasionComponent item prefs + materialComponent item prefs +
        categoryComponent item prefs + genderComponent item prefs +
        priceComponent item prefs ≤ 80 ∧
      scoreValue item prefs =
        colorComponent item prefs +
          (styleComponent item prefs + occasionComponent item prefs +
            materialComponent item prefs + categoryComponent item prefs +
            genderComponent item prefs + priceComponent item prefs) ∧
      ((prefs.colors = none ∨ prefs.colors = some []) →
        ∃ n : ℕ, scoreValue item prefs = n ∧ n ≤ 80) := by
  obtain ⟨a, ha, ha'⟩ := styleComponent_nat item prefs
  obtain ⟨b, hb, hb'⟩ := occasionComponent_nat item prefs
  obtain ⟨c, hc, hc'⟩ := materialComponent_nat item prefs
  obtain ⟨d, hd, hd'⟩ := categoryComponent_nat item prefs
  obtain ⟨e, he, he'⟩ := genderComponent_nat item prefs
  obtain ⟨f, hf, hf'⟩ := priceComponent_nat item prefs
  have hcol := colorComponent_nonneg item prefs
  have hsum : styleComponent item prefs + occasionComponent item prefs +
      materialComponent item prefs + categoryComponent item prefs +
      genderComponent item prefs + priceComponent item prefs =
      ((a + b + c + d + e + f : ℕ) : ℚ) := by
    rw [ha, hb, hc, hd, he, hf]
    push_cast
    ring
  have hle : a + b + c + d + e + f ≤ 80 := by omega
  have hscore : scoreValue item prefs =
      colorComponent item prefs +
        (styleComponent item prefs + occasionComponent item prefs +
          materialComponent item prefs + categoryComponent item prefs +
          genderComponent item prefs + priceComponent item prefs) := by
    rw [score_eq_components]
    ring
  refine ⟨?_, ?_, hscore, ?_⟩
  · rw [hscore, hsum]
    have : (0 : ℚ) ≤ ((a + b + c + d + e + f : ℕ) : ℚ) := Nat.cast_nonneg _
    linarith
  · rw [hsum]
    exact_mod_cast hle
  · intro hcolors
    refine ⟨a + b + c + d + e + f, ?_, hle⟩
    have h0 : colorComponent item prefs = 0 := by
      unfold colorComponent
      rcases hcolors with h | h <;> rw [h]
      simp
    rw [hscore, h0, hsum, zero_add]

theorem matchedColors_insert_subset (item : Product) (colors xs ys : List String) (c : String) :
    matchedColors { item with colors := xs ++ ys } colors ⊆
      matchedColors { item with colors := xs ++ c :: ys } colors := by
  intro y hy
  simp only [matchedColors, List.mem_toFinset, List.mem_filter, List.mem_append,
    List.mem_cons] at hy ⊢
  exact ⟨hy.1.elim Or.inl (fun h => Or.inr (Or.inr h)), hy.2⟩

theorem matchedColors_insert_new (item : Product) (colors xs ys : List String) (c : String)
    (hc : c ∈ colors) (hnew : c ∉ xs ++ ys) :
    (matchedColors { item with colors := xs ++ c :: ys } colors).card =
      (matchedColors { item with colors := xs ++ ys } colors).card + 1 := by
  have hins : matchedColors { item with colors := xs ++ c :: ys } colors =
      insert c (matchedColors { item with colors := xs ++ ys } colors) := by
    ext y
    simp only [matchedColors, List.mem_toFinset, List.mem_filter, List.mem_append,
      List.mem_cons, Finset.mem_insert, decide_eq_true_eq]
    constructor
    · rintro ⟨h1, h2⟩
      rcases h1 with h | h | h
      · exact Or.inr ⟨Or.inl h, h2⟩
      · exact Or.inl h
      · exact Or.inr ⟨Or.inr h, h2⟩
    · rintro (h | ⟨h1, h2⟩)
      · subst h
        exact ⟨Or.inr (Or.inl rfl), Or.inl hc⟩
      · exact ⟨h1.elim Or.inl (fun h => Or.inr (Or.inr h)), h2⟩
  rw [hins, Finset.card_insert_of_not_mem]
  intro hmem
  simp only [matchedColors, List.mem_toFinset, List.mem_filter] at hmem
  exact hnew hmem.1

theorem scoreValue_monotone_in_colors (item : Product) (prefs : Preferences) (xs ys : List String)
    (c : String) :
    scoreValue { item with colors := xs ++ ys } prefs ≤
        scoreValue { item with colors := xs ++ c :: ys } prefs ∧
      (∀ colors, prefs.colors = some colors → c ∈ colors → c ∉ xs ++ ys →
        scoreValue { item with colors := xs ++ c :: ys } prefs =
          scoreValue { item with colors := xs ++ ys } prefs +
            30 / (colors.length : ℚ)) := by
  have hrest : ∀ cs₁ cs₂ : List String,
      scoreValue { item with colors := cs₂ } prefs -
        scoreValue { item with colors := cs₁ } prefs =
      colorComponent { item with colors := cs₂ } prefs -
        colorComponent { item with colors := cs₁ } prefs := by
    intro cs₁ cs₂
    rw [score_eq_components, score_eq_components]
    simp only [styleComponent, occasionComponent, materialComponent, categoryComponent,
      genderComponent, priceComponent]
    ring
  constructor
  · have h := hrest (xs ++ ys) (xs ++ c :: ys)
    have hcol : colorComponent { item with colors := xs ++ ys } prefs ≤
        colorComponent { item with colors := xs ++ c :: ys } prefs := by
      unfold colorComponent
      cases prefs.colors with
      | none => exact le_refl _
      | some colors =>
        simp only
        split_ifs with hnil
        · exact le_refl _
        · have hpos : (0 : ℚ) < (colors.length : ℚ) := by
            exact_mod_cast List.length_pos.2 hnil
          have hcard : ((matchedColors { item with colors := xs ++ ys } colors).card : ℚ) ≤
              ((matchedColors { item with colors := xs ++ c :: ys } colors).card : ℚ) := by
            exact_mod_cast Finset.card_le_card (matchedColors_insert_subset item colors xs ys c)
          apply div_le_div_of_nonneg_right _ (le_of_lt hpos)
          linarith
    linarith
  · intro colors hcolors hc hnew
    have h := hrest (xs ++ ys) (xs ++ c :: ys)
    have hnil : colors ≠ [] := List.ne_nil_of_mem hc
    have hpos : (colors.length : ℚ) ≠ 0 := by
      exact_mod_cast (List.length_pos.2 hnil).ne'
    have hcol : colorComponent { item with colors := xs ++ c :: ys } prefs =
        colorComponent { item with colors := xs ++ ys } prefs + 30 / (colors.length : ℚ) := by
      unfold colorComponent
      rw [hcolors]
      simp only [if_neg hnil]
      rw [matchedColors_insert_new item colors xs ys c hc hnew]
      push_cast
      field_simp
      ring
    linarith

/-- C30: for every item and preference record (so also for a price of at
least 0 and a budget above 0) the score `calculateRecommendationScore` returns
is at least 0 and is the colour component plus six components (style, occasion,
material, category, gender, price) that sum to at most 80; without preference
colours the function returns a whole number between 0 and 80. It returns a score
unless a preference colour is a name inherited from `Object.prototype` and the
item has a colour, when the colour lookup raises. -/
theorem non_color_components_bound (item : Product) (prefs : Preferences) :
    calculateRecommendationScore item prefs =
        (if hasInheritedKey (prefs.colors.getD []) = true ∧ item.colors ≠ [] then
          Except.error notIterable
        else
          Except.ok
            (colorComponent item prefs +
              (styleComponent item prefs + occasionComponent item prefs +
                materialComponent item prefs + categoryComponent item prefs +
                genderComponent item prefs + priceComponent item prefs))) ∧
      (∀ score, calculateRecommendationScore item prefs = Except.ok score → 0 ≤ score) ∧
      styleComponent item prefs + occasionComponent item prefs + materialComponent item prefs +
        categoryComponent item prefs + genderComponent item prefs +
        priceComponent item prefs ≤ 80 ∧
      ((prefs.colors = none ∨ prefs.colors = some []) →
        ∃ n : ℕ, calculateRecommendationScore item prefs = Except.ok (n : ℚ) ∧ n ≤ 80) := by
  obtain ⟨h0, h80, hsum, hnat⟩ := scoreValue_bounds item prefs
  refine ⟨?_, ?_, h80, ?_⟩
  · rw [calculateRecommendationScore_eq, hsum]
  · intro score hscore
    rw [calculateRecommendationScore_eq] at hscore
    by_cases hr : hasInheritedKey (prefs.colors.getD []) = true ∧ item.colors ≠ []
    · rw [if_pos hr] at hscore
      cases hscore
    · rw [if_neg hr] at hscore
      injection hscore with hscore
      rw [← hscore]
      exact h0
  · intro hcolors
    obtain ⟨n, hn, hle⟩ := hnat hcolors
    refine ⟨n, ?_, hle⟩
    have hkey : hasInheritedKey (prefs.colors.getD []) = false := by
      rcases hcolors with h | h <;> rw [h] <;> rfl
    rw [calculateRecommendationScore_ok item prefs hkey, hn]

/-- C24: adding a colour to the colours of an item, all else fixed, never
lowers the score `calculateRecommendationScore` returns; when the added colour
is one of the preference colours and the item did not have it, the score rises
by exactly `30 / |prefs.colors|`. Both scores are returned when no preference
colour is a name inherited from `Object.prototype`; with such a name the call
for the item with the added colour raises in the colour lookup. -/
theorem score_monotone_in_colors (item : Product) (prefs : Preferences) (xs ys : List String)
    (c : String) :
    (hasInheritedKey (prefs.colors.getD []) = false →
      ∃ before after,
        calculateRecommendationScore { item with colors := xs ++ ys } prefs =
          Except.ok before ∧
        calculateRecommendationScore { item with colors := xs ++ c :: ys } prefs =
          Except.ok after ∧
        before ≤ after ∧
        (∀ colors, prefs.colors = some colors → c ∈ colors → c ∉ xs ++ ys →
          after = before + 30 / (colors.length : ℚ))) ∧
      (hasInheritedKey (prefs.colors.getD []) = true →
        calculateRecommendationScore { item with colors := xs ++ c :: ys } prefs =
          Except.error notIterable) := by
  constructor
  · intro hkey
    obtain ⟨h1, h2⟩ := scoreValue_monotone_in_colors item prefs xs ys c
    exact ⟨_, _, calculateRecommendationScore_ok _ prefs hkey,
      calculateRecommendationScore_ok _ prefs hkey, h1, h2⟩
  · intro hkey
    apply calculateRecommendationScore_raise _ prefs hkey
    simp

/-! ## Complementary colours -/

theorem complementsOf_spec (colors : List String) :
    (complementsOf colors).Nodup ∧
      (∀ y, y ∈ complementsOf colors ↔
        ∃ c ∈ colors, c ∈ tableKeys ∧ ∃ row, complementaryRow c = some row ∧ y ∈ row) ∧
      (∀ c, c ∉ tableKeys → complementaryRow c = none ∧
        ∀ cs₁ cs₂, ∀ y, y ∈ complementsOf (cs₁ ++ c :: cs₂) ↔
          y ∈ complementsOf (cs₁ ++ cs₂)) ∧
      "teal" ∉ tableKeys ∧ "neutral" ∉ tableKeys ∧ tableKeys.length = 12 ∧
      tableKeys.map complementaryRow =
        [some ["gold", "green", "white"], some ["silver", "white", "gold"],
          some ["gold", "red", "white"], some ["blue", "purple", "silver"],
          some ["blue", "teal", "gold"], some ["yellow", "gold", "silver"],
          some ["green", "gold", "silver"], some ["gold", "silver", "white"],
          some ["gold", "silver", "black"], some ["gold", "silver", "blue"],
          some ["red", "green", "blue"], some ["blue", "purple", "black"]] ∧
      complementsOf ["red"] = ["gold", "green", "white"] ∧
      complementsOf [] = [] := by
  have hnone : ∀ c, c ∉ tableKeys → complementaryRow c = none := by
    intro c hc
    cases h : complementaryRow c with
    | none => rfl
    | some row =>
      exfalso
      apply hc
      rw [← complementaryRow_isSome_iff, h]
      rfl
  refine ⟨newSet_nodup _, ?_, ?_, by decide, by decide, rfl, by decide, by decide, by decide⟩
  · intro y
    rw [mem_complementsOf]
    constructor
    · rintro ⟨c, hc, row, hr, hy⟩
      refine ⟨c, hc, ?_, row, hr, hy⟩
      rw [← complementaryRow_isSome_iff, hr]
      rfl
    · rintro ⟨c, hc, _, row, hr, hy⟩
      exact ⟨c, hc, row, hr, hy⟩
  · intro c hc
    refine ⟨hnone c hc, ?_⟩
    intro cs₁ cs₂ y
    rw [mem_complementsOf, mem_complementsOf]
    constructor
    · rintro ⟨c', hc', row, hr, hy⟩
      rcases List.mem_append.1 hc' with h | h
      · exact ⟨c', List.mem_append_left _ h, row, hr, hy⟩
      · rcases List.mem_cons.1 h with h | h
        · subst h
          rw [hnone c' hc] at hr
          cases hr
        · exact ⟨c', List.mem_append_right _ h, row, hr, hy⟩
    · rintro ⟨c', hc', row, hr, hy⟩
      rcases List.mem_append.1 hc' with h | h
      · exact ⟨c', List.mem_append_left _ h, row, hr, hy⟩
      · exact ⟨c', List.mem_append_right _ (List.mem_cons_of_mem _ h), row, hr, hy⟩

theorem colorComponent_pos_iff (item : Product) (prefs : Preferences) (colors : List String)
    (hcolors : prefs.colors = some colors) (hne : colors ≠ []) :
    0 < colorComponent item prefs ↔
      ∃ c ∈ item.colors, c ∈ colors ∨ c ∈ complementsOf colors := by
  unfold colorComponent
  rw [hcolors]
  simp only [if_neg hne]
  have hpos : (0 : ℚ) < (colors.length : ℚ) := by
    exact_mod_cast List.length_pos.2 hne
  have hcard : (0 < (matchedColors item colors).card) ↔
      ∃ c ∈ item.colors, c ∈ colors ∨ c ∈ complementsOf colors := by
    rw [Finset.card_pos]
    constructor
    · rintro ⟨c, hc⟩
      simp only [matchedColors, List.mem_toFinset, List.mem_filter, decide_eq_true_eq] at hc
      exact ⟨c, hc.1, hc.2⟩
    · rintro ⟨c, hc1, hc2⟩
      refine ⟨c, ?_⟩
      simp only [matchedColors, List.mem_toFinset, List.mem_filter, decide_eq_true_eq]
      exact ⟨hc1, hc2⟩
  rw [← hcard]
  constructor
  · intro h
    by_contra h0
    have hz : (matchedColors item colors).card = 0 := by omega
    rw [hz] at h
    simp at h
  · intro h
    have : (0 : ℚ) < ((matchedColors item colors).card : ℚ) := by exact_mod_cast h
    positivity

theorem initialFilter_color_iff_score (req : Request) (item : Product)
    (hne : req.colors.getD [] ≠ []) :
    ∃ clause, (initialFilter req).colorsOr = some clause ∧
      (({ noClauses with colorsOr := some clause } : Query).satisfiedBy item = true ↔
        0 < scoreValue item (scoringPreferences req) -
          scoreValue item { scoringPreferences req with colors := none }) := by
  have hlen : (req.colors.getD []).length > 0 := List.length_pos.2 hne
  refine ⟨(req.colors.getD [], complementsOf (req.colors.getD [])), ?_, ?_⟩
  · rw [initialFilter_colorsOr, if_pos hlen]
  · have hscore : scoreValue item (scoringPreferences req) -
        scoreValue item { scoringPreferences req with colors := none } =
        colorComponent item (scoringPreferences req) := by
      rw [score_eq_components, score_eq_components]
      simp only [colorComponent, styleComponent, occasionComponent, materialComponent,
        categoryComponent, genderComponent, priceComponent]
      ring
    rw [hscore, colorComponent_pos_iff item (scoringPreferences req) (req.colors.getD []) rfl hne]
    simp only [Query.satisfiedBy, noClauses, Bool.true_and, Bool.or_eq_true, List.any_eq_true,
      List.contains_eq_any_beq, beq_iff_eq, exists_eq_right']
    constructor
    · rintro (⟨c, h1, h2⟩ | ⟨c, h1, h2⟩)
      · exact ⟨c, h1, Or.inl (by simpa using h2)⟩
      · exact ⟨c, h1, Or.inr (by simpa using h2)⟩
    · rintro ⟨c, h1, h2 | h2⟩
      · exact Or.inl ⟨c, h1, by simpa using h2⟩
      · exact Or.inr ⟨c, h1, by simpa using h2⟩

theorem complementaryMap_row_iff (c : String) (row : List String) :
    complementaryMap c = TableEntry.row row ↔ complementaryRow c = some row := by
  rcases complementaryMap_cases c with ⟨r, h1, h2, _⟩ | ⟨h1, _, h3⟩ | ⟨h1, _, h3⟩
  · rw [h1, h2]
    constructor
    · intro h; injection h with h; rw [h]
    · intro h; injection h with h; rw [h]
  · rw [h1, h3]
    constructor
    · intro h; cases h
    · intro h; cases h
  · rw [h1, h3]
    constructor
    · intro h; cases h
    · intro h; cases h

theorem complementsOf_skip (c : String) (hc : complementaryRow c = none)
    (cs₁ cs₂ : List String) :
    complementsOf (cs₁ ++ c :: cs₂) = complementsOf (cs₁ ++ cs₂) := by
  unfold complementsOf
  simp only [List.foldl_append, List.foldl_cons, hc]

theorem hasInheritedKey_skip (c : String) (hc : c ∉ objectPrototypeKeys)
    (cs₁ cs₂ : List String) :
    hasInheritedKey (cs₁ ++ c :: cs₂) = hasInheritedKey (cs₁ ++ cs₂) := by
  simp [hasInheritedKey, List.any_append, hc]

/-- C25, evaluated on the code: for every list of colours free of names
inherited from `Object.prototype`, `getComplementaryColors` returns a list
without duplicates that holds exactly the colours of the table rows of the input
colours that are among the twelve table keys; a colour that is neither a key nor
an inherited name (`teal`, `neutral`) adds nothing. The rows are those of the
source, `getComplementaryColors(["red"])` is `["gold", "green", "white"]` and
`getComplementaryColors([])` is `[]`. The label `constructor` is absent from the
table, yet it does not add nothing: the read `complementaryMap["constructor"]`
finds the inherited function, the guard passes and the spread raises a
`TypeError`; so it is for every colour list holding an inherited name. -/
theorem getComplementaryColors_spec :
    "constructor" ∉ tableKeys ∧
      complementaryMap "constructor" = TableEntry.inherited ∧
      getComplementaryColors ["constructor"] = Except.error notIterable ∧
      getComplementaryColors ["red", "toString"] = Except.error notIterable ∧
      (∀ colors, hasInheritedKey colors = true →
        getComplementaryColors colors = Except.error notIterable) ∧
      (∀ colors, hasInheritedKey colors = false →
        ∃ result, getComplementaryColors colors = Except.ok result ∧ result.Nodup ∧
          ∀ y, y ∈ result ↔
            ∃ c ∈ colors, c ∈ tableKeys ∧
              ∃ row, complementaryMap c = TableEntry.row row ∧ y ∈ row) ∧
      (∀ c, c ∉ tableKeys → c ∉ objectPrototypeKeys →
        complementaryMap c = TableEntry.undefined ∧
          ∀ cs₁ cs₂, getComplementaryColors (cs₁ ++ c :: cs₂) =
            getComplementaryColors (cs₁ ++ cs₂)) ∧
      "teal" ∉ tableKeys ∧ "neutral" ∉ tableKeys ∧
      "teal" ∉ objectPrototypeKeys ∧ "neutral" ∉ objectPrototypeKeys ∧
      tableKeys.length = 12 ∧
      tableKeys.map complementaryMap =
        [TableEntry.row ["gold", "green", "white"], TableEntry.row ["silver", "white", "gold"],
          TableEntry.row ["gold", "red", "white"], TableEntry.row ["blue", "purple", "silver"],
          TableEntry.row ["blue", "teal", "gold"], TableEntry.row ["yellow", "gold", "silver"],
          TableEntry.row ["green", "gold", "silver"], TableEntry.row ["gold", "silver", "white"],
          TableEntry.row ["gold", "silver", "black"], TableEntry.row ["gold", "silver", "blue"],
          TableEntry.row ["red", "green", "blue"], TableEntry.row ["blue", "purple", "black"]] ∧
      getComplementaryColors ["red"] = Except.ok ["gold", "green", "white"] ∧
      getComplementaryColors [] = Except.ok [] := by
  have hraise : ∀ colors, hasInheritedKey colors = true →
      getComplementaryColors colors = Except.error notIterable := by
    intro colors h
    rw [getComplementaryColors_eq, if_pos h]
  have hok : ∀ colors, hasInheritedKey colors = false →
      getComplementaryColors colors = Except.ok (complementsOf colors) := by
    intro colors h
    rw [getComplementaryColors_eq, h]
    rfl
  refine ⟨by decide, by decide, hraise _ (by decide), hraise _ (by decide), hraise, ?_, ?_,
    by decide, by decide, by decide, by decide, rfl, by decide, ?_, ?_⟩
  · intro colors hkey
    obtain ⟨hnodup, hmem, _⟩ := complementsOf_spec colors
    refine ⟨complementsOf colors, hok colors hkey, hnodup, ?_⟩
    intro y
    rw [hmem y]
    constructor
    · rintro ⟨c, hc, hk, row, hr, hy⟩
      exact ⟨c, hc, hk, row, (complementaryMap_row_iff c row).2 hr, hy⟩
    · rintro ⟨c, hc, hk, row, hr, hy⟩
      exact ⟨c, hc, hk, row, (complementaryMap_row_iff c row).1 hr, hy⟩
  · intro c hc hproto
    have hnone : complementaryRow c = none := complementaryRow_none_of_not_key c hc
    have hcontains : objectPrototypeKeys.contains c = false := by simpa using hproto
    refine ⟨?_, ?_⟩
    · rcases complementaryMap_cases c with ⟨r, h1, _, _⟩ | ⟨_, h2, _⟩ | ⟨_, _, h3⟩
      · rw [hnone] at h1; cases h1
      · rw [hcontains] at h2; cases h2
      · exact h3
    · intro cs₁ cs₂
      rw [getComplementaryColors_eq, getComplementaryColors_eq, hasInheritedKey_skip c hproto,
        complementsOf_skip c hnone]
  · rw [hok _ (by decide)]
    congr 1
  · exact hok [] (by decide)

/-- C26, evaluated on the code: the filter and the score read the
complementarity table alike. For a request with at least one preference colour,
none of them a name inherited from `Object.prototype`, and for every item, the
item satisfies the colour clause of the initial filter exactly when the colour
part of its score, what the colour list adds to the score
`calculateRecommendationScore` returns, is above 0. For the colour list
`["constructor"]` there is neither a colour clause nor a colour part: the lookup
raises while the filter is built, and it raises in the scoring of an item that
has a colour. -/
theorem color_clause_iff_color_score :
    constructorRequest.colors.getD [] ≠ [] ∧
      initialQuery constructorRequest = Except.error notIterable ∧
      blackItem.colors ≠ [] ∧
      calculateRecommendationScore blackItem (scoringPreferences constructorRequest) =
        Except.error notIterable ∧
      (∀ (req : Request) (item : Product), req.colors.getD [] ≠ [] →
        hasInheritedKey (req.colors.getD []) = false →
        ∃ initial clause withColors withoutColors,
          initialQuery req = Except.ok initial ∧
          initial.colorsOr = some clause ∧
          calculateRecommendationScore item (scoringPreferences req) = Except.ok withColors ∧
          calculateRecommendationScore item { scoringPreferences req with colors := none } =
            Except.ok withoutColors ∧
          (({ noClauses with colorsOr := some clause } : Query).satisfiedBy item = true ↔
            0 < withColors - withoutColors)) := by
  have hc : hasInheritedKey (constructorRequest.colors.getD []) = true := by decide
  refine ⟨by decide, initialQuery_raise constructorRequest hc, by decide, ?_, ?_⟩
  · exact calculateRecommendationScore_raise blackItem (scoringPreferences constructorRequest)
      hc (by decide)
  · intro req item hne hkey
    obtain ⟨clause, h1, h2⟩ := initialFilter_color_iff_score req item hne
    exact ⟨initialFilter req, clause, _, _, initialQuery_ok req hkey, h1,
      calculateRecommendationScore_ok item (scoringPreferences req) hkey,
      calculateRecommendationScore_ok item { scoringPreferences req with colors := none } rfl,
      h2⟩

/-! ## Ranking -/

theorem filter_orderedInsert_score (v : ℚ) (a : ScoredProduct) (l : List ScoredProduct) :
    (List.orderedInsert (fun x y : ScoredProduct => x.score ≥ y.score) a l).filter
        (fun x => decide (x.score = v)) =
      (a :: l).filter (fun x => decide (x.score = v)) := by
  induction l with
  | nil => rfl
  | cons b t ih =>
    rw [List.orderedInsert]
    split_ifs with hab
    · rfl
    · have hlt : a.score < b.score := not_le.1 hab
      have hstep : (b :: List.orderedInsert (fun x y : ScoredProduct => x.score ≥ y.score) a
            t).filter (fun x => decide (x.score = v)) =
          (if b.score = v then
            b :: (a :: t).filter (fun x => decide (x.score = v))
          else (a :: t).filter (fun x => decide (x.score = v))) := by
        rw [List.filter_cons, ih]
        simp only [decide_eq_true_eq]
      rw [hstep]
      by_cases ha : a.score = v
      · have hb : ¬ b.score = v := by
          intro hb
          rw [ha, hb] at hlt
          exact lt_irrefl _ hlt
        simp [List.filter_cons, ha, hb]
      · by_cases hb : b.score = v
        · simp [List.filter_cons, ha, hb]
        · simp [List.filter_cons, ha, hb]

theorem filter_insertionSort_score (v : ℚ) (l : List ScoredProduct) :
    (l.insertionSort (fun x y : ScoredProduct => x.score ≥ y.score)).filter
        (fun x => decide (x.score = v)) =
      l.filter (fun x => decide (x.score = v)) := by
  induction l with
  | nil => rfl
  | cons a t ih =>
    rw [List.insertionSort, filter_orderedInsert_score]
    by_cases ha : a.score = v
    · rw [List.filter_cons_of_pos (by simpa using ha),
        List.filter_cons_of_pos (by simpa using ha), ih]
    · rw [List.filter_cons_of_neg (by simpa using ha),
        List.filter_cons_of_neg (by simpa using ha), ih]

/-- Two elements of equal score that follow each other in the sorted list did so
in the list that was sorted. -/
theorem insertionSort_stable_pair (l : List ScoredProduct) (a b : ScoredProduct)
    (h : List.Sublist [a, b] (l.insertionSort (fun x y : ScoredProduct => x.score ≥ y.score)))
    (hab : a.score = b.score) : List.Sublist [a, b] l := by
  have hf := h.filter (fun x => decide (x.score = a.score))
  rw [filter_insertionSort_score] at hf
  have hpair : [a, b].filter (fun x => decide (x.score = a.score)) = [a, b] := by
    rw [List.filter_cons_of_pos (by simp), List.filter_cons_of_pos (by simp [hab])]
    rfl
  rw [hpair] at hf
  exact hf.trans (List.filter_sublist l)

/-- The facts about `rankTop`: with the elements it leaves out, it is the
stably sorted list. -/
theorem rankTop_spec (l : List ScoredProduct) :
    ∃ omitted, rankTop l ++ omitted = l.insertionSort (fun x y => x.score ≥ y.score) ∧
      (rankTop l ++ omitted).Perm l ∧
      (rankTop l).length = min 12 l.length ∧
      (rankTop l).Pairwise (fun x y => x.score ≥ y.score) ∧
      (∀ s ∈ rankTop l, ∀ t ∈ omitted, t.score ≤ s.score) := by
  haveI : IsTotal ScoredProduct (fun x y => x.score ≥ y.score) :=
    ⟨fun x y => le_total _ _⟩
  haveI : IsTrans ScoredProduct (fun x y => x.score ≥ y.score) :=
    ⟨fun x y z hxy hyz => le_trans hyz hxy⟩
  have hsorted : (l.insertionSort (fun x y => x.score ≥ y.score)).Pairwise
      (fun x y => x.score ≥ y.score) := List.sorted_insertionSort _ l
  refine ⟨(l.insertionSort (fun x y => x.score ≥ y.score)).drop 12, ?_, ?_, ?_, ?_, ?_⟩
  · exact List.take_append_drop 12 _
  · rw [rankTop, List.take_append_drop]
    exact List.perm_insertionSort _ l
  · rw [rankTop, List.length_take, List.length_insertionSort]
  · exact hsorted.sublist (List.take_sublist 12 _)
  · intro s hs t ht
    have hsplit := hsorted
    rw [← List.take_append_drop 12 (l.insertionSort (fun x y => x.score ≥ y.score)),
      List.pairwise_append] at hsplit
    exact hsplit.2.2 s hs t ht

theorem gtZero_truthy (b : JsNum) (h : b.gtZero = true) : b.truthy = true := by
  cases b with
  | fin q =>
    simp only [JsNum.gtZero, decide_eq_true_eq] at h
    simp only [JsNum.truthy, decide_eq_true_eq]
    exact ne_of_gt h
  | posInf => rfl
  | negInf => cases h
  | nan => cases h

theorem scoringPreferences_budget (req : Request) :
    (scoringPreferences req).budget =
      if (convertBudgetRange req.withDefaults.budget).truthy = true then
        (convertBudgetRange req.withDefaults.budget).toNumber
      else JsNum.fin 50000 := rfl

/-- C21: the default budget of 50000 is used for scoring only. When the
normalised budget is `null` or 0 (as for the label `xyz`), the candidates are
scored with budget 50000 and no query carries a price clause; when it is a
number above 0, they are scored with exactly that number. Every recommendation
returned carries the score `calculateRecommendationScore` returns for it with
that scoring budget. -/
theorem default_budget_for_scoring_only (find : Catalog) (req : Request) :
    ((convertBudgetRange req.withDefaults.budget = JsBudget.null ∨
        convertBudgetRange req.withDefaults.budget = JsBudget.num (JsNum.fin 0)) →
      (scoringPreferences req).budget = JsNum.fin 50000 ∧
        ∀ q ∈ (getRecommendations find req).queries, q.price = none) ∧
    (∀ b, convertBudgetRange req.withDefaults.budget = JsBudget.num b → b.gtZero = true →
      (scoringPreferences req).budget = b) ∧
    (∀ recs, (getRecommendations find req).result = Except.ok recs → ∀ s ∈ recs,
      calculateRecommendationScore s.product (scoringPreferences req) = Except.ok s.score) ∧
    convertBudgetRange (JsBudget.str "xyz") = JsBudget.null := by
  refine ⟨?_, ?_, ?_, by decide⟩
  · intro hB
    have hprice : (initialFilter req).price = none := by
      rw [initialFilter_price]
      rcases hB with h | h <;> rw [h] <;> simp [JsBudget.toNumber, JsNum.gtZero]
    have hbudget : (scoringPreferences req).budget = JsNum.fin 50000 := by
      rw [scoringPreferences_budget]
      rcases hB with h | h <;> rw [h] <;> simp [JsBudget.truthy, JsNum.truthy]
    refine ⟨hbudget, ?_⟩
    intro q hq
    obtain ⟨_, k, _, rfl⟩ := mem_queries_fields find req q hq
    exact hprice
  · intro b hb hpos
    rw [scoringPreferences_budget, hb]
    simp [JsBudget.truthy, JsBudget.toNumber, gtZero_truthy b hpos]
  · intro recs hr s hs
    exact result_scores find req recs hr s hs

theorem scores_of_perm (find : Catalog) (req : Request) (l : List ScoredProduct)
    (hperm : l.Perm ((getRecommendations find req).candidates.map (scoreFor req)))
    (s : ScoredProduct) (hs : s ∈ l) :
    s.product ∈ (getRecommendations find req).candidates ∧
      calculateRecommendationScore s.product (scoringPreferences req) = Except.ok s.score := by
  obtain ⟨p, hp, rfl⟩ := List.mem_map.1 (hperm.mem_iff.1 hs)
  exact ⟨hp, scoring_ok req (not_raise_of_candidate find req p hp) p⟩

/-- C22: `getRecommendations` returns its candidates sorted by descending
score and cut to the top 12. For `n` candidates the result has `min(12, n)`
elements, its scores do not increase, every element is a candidate with the
score `calculateRecommendationScore` returns for it, the result and the
candidates left out are together a rearrangement of the scored candidates, and
no candidate left out has a higher score than a returned one. -/
theorem ranked_top_twelve (find : Catalog) (req : Request) :
    ∃ recs omitted, (getRecommendations find req).result = Except.ok recs ∧
      recs.length = min 12 (getRecommendations find req).candidates.length ∧
      recs.Pairwise (fun x y => x.score ≥ y.score) ∧
      (∀ s ∈ recs ++ omitted, s.product ∈ (getRecommendations find req).candidates ∧
        calculateRecommendationScore s.product (scoringPreferences req) =
          Except.ok s.score) ∧
      (recs ++ omitted).Perm ((getRecommendations find req).candidates.map (scoreFor req)) ∧
      ((recs ++ omitted).map (fun s => s.product)).Perm
        (getRecommendations find req).candidates ∧
      (∀ s ∈ recs, ∀ t ∈ omitted, t.score ≤ s.score) := by
  obtain ⟨omitted, _, hperm, hlen, hsorted, hbound⟩ :=
    rankTop_spec ((getRecommendations find req).candidates.map (scoreFor req))
  refine ⟨_, omitted, getRecommendations_result find req, ?_, hsorted, ?_, hperm, ?_, hbound⟩
  · rw [hlen, List.length_map]
  · intro s hs
    exact scores_of_perm find req _ hperm s hs
  · have h := hperm.map (fun s => s.product)
    rw [List.map_map] at h
    exact h.trans (by rw [show ((fun s => s.product) ∘ scoreFor req) = id from rfl, List.map_id])

/-- C23: the ranking is stable. With the candidates left out placed after
the returned list: two returned candidates of equal score come in the order
they had in the candidate list of the catalogue query, and when one of two
candidates of equal score is returned and the other left out, the returned one
came earlier in the candidate list. The scores are those
`calculateRecommendationScore` returns. -/
theorem ranking_stable (find : Catalog) (req : Request) :
    ∃ recs omitted, (getRecommendations find req).result = Except.ok recs ∧
      (recs ++ omitted).Perm ((getRecommendations find req).candidates.map (scoreFor req)) ∧
      ((recs ++ omitted).map (fun s => s.product)).Perm
        (getRecommendations find req).candidates ∧
      (∀ s ∈ recs ++ omitted,
        calculateRecommendationScore s.product (scoringPreferences req) =
          Except.ok s.score) ∧
      recs.length = min 12 (getRecommendations find req).candidates.length ∧
      (∀ a b, List.Sublist [a, b] recs → a.score = b.score →
        List.Sublist [a.product, b.product] (getRecommendations find req).candidates) ∧
      (∀ a ∈ recs, ∀ b ∈ omitted, a.score = b.score →
        List.Sublist [a.product, b.product] (getRecommendations find req).candidates) := by
  obtain ⟨omitted, hsplit, hperm, hlen, _, _⟩ :=
    rankTop_spec ((getRecommendations find req).candidates.map (scoreFor req))
  have hproducts : ((getRecommendations find req).candidates.map (scoreFor req)).map
      (fun s => s.product) = (getRecommendations find req).candidates := by
    rw [List.map_map]
    exact List.map_id _
  have hkey : ∀ a b, List.Sublist [a, b]
      (rankTop ((getRecommendations find req).candidates.map (scoreFor req)) ++ omitted) →
      a.score = b.score →
      List.Sublist [a.product, b.product] (getRecommendations find req).candidates := by
    intro a b hab hscore
    rw [hsplit] at hab
    have h := insertionSort_stable_pair _ a b hab hscore
    have h' := h.map (fun s => s.product)
    rw [hproducts] at h'
    exact h'
  refine ⟨_, omitted, getRecommendations_result find req, hperm, ?_, ?_, ?_, ?_, ?_⟩
  · have h := hperm.map (fun s => s.product)
    rw [hproducts] at h
    exact h
  · intro s hs
    exact (scores_of_perm find req _ hperm s hs).2
  · rw [hlen, List.length_map]
  · intro a b hab hscore
    exact hkey a b (hab.trans (List.sublist_append_left _ _)) hscore
  · intro a ha b hb hscore
    apply hkey a b _ hscore
    have h1 : List.Sublist [a] (rankTop ((getRecommendations find req).candidates.map
        (scoreFor req))) := List.singleton_sublist.2 ha
    have h2 : List.Sublist [b] omitted := List.singleton_sublist.2 hb
    exact h1.append h2

/-! ## Sampling of a raw RGB buffer -/

theorem counts_sum (labels : List String) :
    ((labels.foldl countColor []).map Prod.snd).sum = labels.length := by
  rw [foldl_countColor, List.map_map]
  have hperm : (newSet labels).Perm labels.dedup := by
    rw [List.perm_ext_iff_of_nodup (newSet_nodup labels) (List.nodup_dedup labels)]
    intro a
    rw [mem_newSet, List.mem_dedup]
  have hsum := (hperm.map (fun k => labels.count k)).sum_eq
  have hfun : (Prod.snd ∘ fun k => (k, labels.count k)) = fun k : String => labels.count k := rfl
  rw [hfun, hsum]
  exact List.sum_map_count_dedup_eq_length labels

theorem sampledLabels_rgb (data : List Nat) (n : Nat) (h : data.length = 3 * n) :
    sampledLabels data =
      (List.range ((n + 3) / 4)).map (fun k =>
        getColorGroup (data.getD (3 * (4 * k)) 0) (data.getD (3 * (4 * k) + 1) 0)
          (data.getD (3 * (4 * k) + 2) 0)) := by
  unfold sampledLabels
  have hlen : (data.length + 11) / 12 = (n + 3) / 4 := by omega
  rw [hlen]
  apply List.map_congr_left
  intro k hk
  have hk' : k < (n + 3) / 4 := List.mem_range.1 hk
  have h1 : 12 * k + 1 < data.length := by omega
  have h2 : 12 * k + 2 < data.length := by omega
  have e0 : 3 * (4 * k) = 12 * k := by ring
  rw [e0, List.getElem?_eq_getElem h1, List.getElem?_eq_getElem h2]
  have g1 : data.getD (12 * k + 1) 0 = data[12 * k + 1] := by
    rw [List.getD_eq_getElem?_getD, List.getElem?_eq_getElem h1]; rfl
  have g2 : data.getD (12 * k + 2) 0 = data[12 * k + 2] := by
    rw [List.getD_eq_getElem?_getD, List.getElem?_eq_getElem h2]; rfl
  rw [g1, g2]
  rfl

/-- C28: for a raw RGB buffer of `n` pixels (`3 * n` bytes) the sampling loop
classifies exactly the pixels 0, 4, 8, … (bytes 0, 12, 24, …), each read of a
sample at an offset below the length stays below the length, and the label
counts add up to `ceil(n / 4)`, which is 2500 for 100 by 100 pixels. -/
theorem rgb_sampling (data : List Nat) (n : Nat) (h : data.length = 3 * n) :
    countLoop data 0 [] =
        ((List.range ((n + 3) / 4)).map (fun k =>
          getColorGroup (data.getD (3 * (4 * k)) 0) (data.getD (3 * (4 * k) + 1) 0)
            (data.getD (3 * (4 * k) + 2) 0))).foldl countColor [] ∧
      (∀ i, i % 12 = 0 → i < data.length → i + 2 < data.length) ∧
      ((countLoop data 0 []).map Prod.snd).sum = (n + 3) / 4 ∧
      (4 * ((n + 3) / 4) < n + 4 ∧ n ≤ 4 * ((n + 3) / 4)) ∧
      (n = 100 * 100 → ((countLoop data 0 []).map Prod.snd).sum = 2500) := by
  have hsum : ((countLoop data 0 []).map Prod.snd).sum = (n + 3) / 4 := by
    rw [countLoop_eq_foldl, counts_sum, sampledLabels_rgb data n h, List.length_map,
      List.length_range]
  refine ⟨?_, ?_, hsum, ?_, ?_⟩
  · rw [countLoop_eq_foldl, sampledLabels_rgb data n h]
  · intro i hi hlt
    omega
  · omega
  · intro hn
    rw [hsum, hn]

theorem rgb_sampling_witness :
    countLoop (List.replicate 30000 0) 0 [] =
        ((List.range ((10000 + 3) / 4)).map (fun k =>
          getColorGroup ((List.replicate 30000 0).getD (3 * (4 * k)) 0)
            ((List.replicate 30000 0).getD (3 * (4 * k) + 1) 0)
            ((List.replicate 30000 0).getD (3 * (4 * k) + 2) 0))).foldl countColor [] ∧
      (∀ i, i % 12 = 0 → i < (List.replicate 30000 0).length →
        i + 2 < (List.replicate 30000 0).length) ∧
      ((countLoop (List.replicate 30000 0) 0 []).map Prod.snd).sum = (10000 + 3) / 4 ∧
      (4 * ((10000 + 3) / 4) < 10000 + 4 ∧ 10000 ≤ 4 * ((10000 + 3) / 4)) ∧
      (10000 = 100 * 100 →
        ((countLoop (List.replicate 30000 0) 0 []).map Prod.snd).sum = 2500) :=
  rgb_sampling (List.replicate 30000 0) 10000 (by rw [List.length_replicate])

/-! ## The route handlers -/

theorem extractColorsFromBuffer_returns {α : Type} (decode : Decoder α) (buffer : α) :
    ∃ labels, extractColorsFromBuffer decode buffer = Except.ok labels := by
  unfold extractColorsFromBuffer
  cases decode buffer with
  | ok data => exact ⟨_, rfl⟩
  | error e => exact ⟨_, rfl⟩

theorem analyze_preferences {α : Type} (decode : Decoder α) (find : Catalog) (buffer : α)
    (body : RequestBody) :
    ∃ prefs, (analyze decode find (some buffer) body).preferences = some prefs ∧
      prefs.budget =
        (match body.budget with
          | JsBudget.undefined => JsBudget.str "medium"
          | b => b) := by
  obtain ⟨labels, hl⟩ := extractColorsFromBuffer_returns decode buffer
  unfold analyze
  simp only [hl]
  obtain ⟨recs, hr⟩ := getRecommendations_returns find
    { colors := some labels, occasion := body.occasion.orDefault (JsVal.str "daily"),
      style := body.style.orDefault (JsVal.str "modern"),
      budget := convertBudgetRange (match body.budget with
        | JsBudget.undefined => JsBudget.str "medium"
        | b => b),
      material := body.material, category := body.category,
      gender := body.gender.orDefault (JsVal.str "unisex") }
  rw [hr]
  exact ⟨_, rfl, rfl⟩

theorem suggest_preferences (find : Catalog) (body : RequestBody) :
    ∃ prefs, (suggest find body).preferences = some prefs ∧
      prefs.budget = convertBudgetRange body.budget := by
  unfold suggest
  simp only
  obtain ⟨recs, hr⟩ := getRecommendations_returns find
    { colors := none, occasion := body.occasion, style := body.style,
      budget := convertBudgetRange body.budget, category := body.category,
      material := body.material, gender := body.gender.orDefault (JsVal.str "unisex") }
  rw [hr]
  exact ⟨_, rfl, rfl⟩

/-- C27, evaluated on the code: the `/suggest` handler answers with the
normalised budget, `convertBudgetRange` of the request budget, but the
`/analyze` handler answers with the budget as it was sent (`medium` when
omitted): for the label `medium` its response carries the string `medium`, not
50000. -/
theorem analyze_echoes_raw_budget :
    (∀ (find : Catalog) (body : RequestBody),
      ∃ prefs, (suggest find body).preferences = some prefs ∧
        prefs.budget = convertBudgetRange body.budget) ∧
    (∀ (decode : Decoder (List Nat)) (find : Catalog) (buffer : List Nat) (body : RequestBody),
      ∃ prefs, (analyze decode find (some buffer) body).preferences = some prefs ∧
        prefs.budget =
          (match body.budget with
            | JsBudget.undefined => JsBudget.str "medium"
            | b => b)) ∧
    (∃ prefs, (analyze (decodeAs twoPixelData) (catalogOf []) (some []) mediumBody).preferences =
        some prefs ∧ prefs.budget = JsBudget.str "medium" ∧
        prefs.budget ≠ convertBudgetRange mediumBody.budget) ∧
    convertBudgetRange mediumBody.budget = JsBudget.num (JsNum.fin 50000) := by
  refine ⟨suggest_preferences, fun decode find buffer body =>
    analyze_preferences decode find buffer body, ?_, by decide⟩
  obtain ⟨prefs, h1, h2⟩ :=
    analyze_preferences (decodeAs twoPixelData) (catalogOf []) ([] : List Nat) mediumBody
  refine ⟨prefs, h1, h2, ?_⟩
  rw [h2]
  decide

theorem withDefaults_budget (req : Request) (b : JsBudget) (hb : b ≠ JsBudget.undefined) :
    ({ req with budget := b } : Request).withDefaults.budget = b := by
  cases b with
  | undefined => exact absurd rfl hb
  | null => rfl
  | num n => rfl
  | str s => rfl
  | obj => rfl

theorem convertBudgetRange_num (n : JsNum) (hn : n.isNaN = false) :
    convertBudgetRange (JsBudget.num n) = JsBudget.num n := by
  unfold convertBudgetRange
  rw [if_pos (by exact hn)]
  rfl

theorem convertBudgetRange_ne_undefined (b : JsBudget) :
    convertBudgetRange b ≠ JsBudget.undefined := by
  rcases convertBudgetRange_cases b with ⟨n, hn, _⟩ | hn | hn <;> rw [hn] <;> intro h <;> cases h

theorem initialQuery_price (req : Request) :
    Except.map Query.price (initialQuery req) =
      if hasInheritedKey (req.colors.getD []) = true then Except.error notIterable
      else Except.ok (initialFilter req).price := by
  rw [initialQuery_eq]
  by_cases h : hasInheritedKey (req.colors.getD []) = true
  · rw [if_pos h, if_pos h]
    rfl
  · rw [if_neg h, if_neg h]
    rfl

/-- C29, evaluated on the code: normalising the budget twice changes nothing
for every budget `b` other than `undefined` whose normalised value is a number
or `null`: the price clause of the initial filter and the scoring budget are
those of the direct call (and the filter is built in both calls or in neither).
For the string `constructor`, whose normalised value is an object inherited by
`budgetMap`, the direct call scores with that object (`NaN` as a number) and the
call with the normalised budget scores with 50000. -/
theorem double_normalisation (req : Request) :
    (∀ b, b ≠ JsBudget.undefined → convertBudgetRange b ≠ JsBudget.obj →
      Except.map Query.price (initialQuery { req with budget := convertBudgetRange b }) =
          Except.map Query.price (initialQuery { req with budget := b }) ∧
        (scoringPreferences { req with budget := convertBudgetRange b }).budget =
          (scoringPreferences { req with budget := b }).budget) ∧
    (Except.map Query.price
          (initialQuery { req with budget := convertBudgetRange (JsBudget.str "constructor") }) =
        Except.map Query.price (initialQuery { req with budget := JsBudget.str "constructor" }) ∧
      (scoringPreferences { req with budget := JsBudget.str "constructor" }).budget =
        JsNum.nan ∧
      (scoringPreferences
        { req with budget := convertBudgetRange (JsBudget.str "constructor") }).budget =
        JsNum.fin 50000) ∧
    convertBudgetRange (JsBudget.str "xyz") = JsBudget.null ∧
    convertBudgetRange JsBudget.null = JsBudget.num (JsNum.fin 0) := by
  have hnull : convertBudgetRange JsBudget.null = JsBudget.num (JsNum.fin 0) := by decide
  have hobj : convertBudgetRange (JsBudget.str "constructor") = JsBudget.obj := by decide
  have hobj2 : convertBudgetRange JsBudget.obj = JsBudget.null := by decide
  have hprice : ∀ b₁ b₂ : JsBudget,
      (initialFilter { req with budget := b₁ }).price =
        (initialFilter { req with budget := b₂ }).price →
      Except.map Query.price (initialQuery { req with budget := b₁ }) =
        Except.map Query.price (initialQuery { req with budget := b₂ }) := by
    intro b₁ b₂ h
    rw [initialQuery_price, initialQuery_price, h]
  refine ⟨?_, ?_, by decide, hnull⟩
  · intro b hb hno
    have h : (initialFilter { req with budget := convertBudgetRange b }).price =
          (initialFilter { req with budget := b }).price ∧
        (scoringPreferences { req with budget := convertBudgetRange b }).budget =
          (scoringPreferences { req with budget := b }).budget := by
      rw [initialFilter_price, initialFilter_price, scoringPreferences_budget,
        scoringPreferences_budget, withDefaults_budget req b hb,
        withDefaults_budget req _ (convertBudgetRange_ne_undefined b)]
      rcases convertBudgetRange_cases b with ⟨n, hn, hnan⟩ | hn | hn
      · rw [hn, convertBudgetRange_num n hnan]
        exact ⟨rfl, rfl⟩
      · rw [hn, hnull]
        simp [JsBudget.toNumber, JsBudget.truthy, JsNum.gtZero, JsNum.truthy]
      · exact absurd hn hno
    exact ⟨hprice _ _ h.1, h.2⟩
  · have h : (initialFilter
          { req with budget := convertBudgetRange (JsBudget.str "constructor") }).price =
          (initialFilter { req with budget := JsBudget.str "constructor" }).price ∧
        (scoringPreferences { req with budget := JsBudget.str "constructor" }).budget =
          JsNum.nan ∧
        (scoringPreferences
          { req with budget := convertBudgetRange (JsBudget.str "constructor") }).budget =
          JsNum.fin 50000 := by
      rw [initialFilter_price, initialFilter_price, scoringPreferences_budget,
        scoringPreferences_budget,
        withDefaults_budget req (JsBudget.str "constructor") (by intro h; cases h),
        withDefaults_budget req _ (convertBudgetRange_ne_undefined _), hobj, hobj2]
      simp [JsBudget.toNumber, JsBudget.truthy, JsNum.gtZero]
    exact ⟨hprice _ _ h.1, h.2⟩

end JewelRecommend
